import Mathlib

/-!
# Credential resolution and access translation of `src/support/nfs_creds.c`

A shallow embedding of the functions of the file (`squash_setattr`,
`nfs_compare_clientcred`, `nfs_rpc_req2client_cred`, `get_req_creds`,
`init_credentials`, `clean_credentials`, `nfs4_MakeCred` and `nfs_access_op`),
followed by theorems about them.

Modelling conventions.

* C unsigned integers (`uid_t`, `gid_t`, `uint32_t`, bit sets) are `Nat`; the
  only place where a width matters is `~c` on a `uint32_t`, written `not32 c`.
* `gid_t *` pointers are `Option Nat`: `none` is `NULL`, `some a` is the address
  of an array object in the heap.  The heap is a list of cells indexed by
  address; a cell holds the array stored there, or `none` once it is freed.
* A function that dereferences memory returns `Option`: `none` means the C code
  would read or write outside an object (undefined behaviour), be it an array
  of the heap or the local buffer `principal` of `get_req_creds`.
* Constants that come from headers which are not part of the source file are
  fields of `Hdr`; functions of other modules are fields of `Env`.
-/

namespace NfsCreds

/-! ## Constants fixed by the protocols -/

/-- RPC authentication flavor `AUTH_NONE` (RFC 5531). -/
def AUTH_NONE : Nat := 0
/-- RPC authentication flavor `AUTH_SYS` (RFC 5531). -/
def AUTH_SYS : Nat := 1
/-- `AUTH_UNIX` is the historical name of `AUTH_SYS`. -/
def AUTH_UNIX : Nat := 1
/-- RPC authentication flavor `RPCSEC_GSS` (RFC 5531). -/
def RPCSEC_GSS : Nat := 6

/-- ACCESS3 bit `READ` (RFC 1813). -/
def ACCESS3_READ : Nat := 0x0001
/-- ACCESS3 bit `LOOKUP` (RFC 1813). -/
def ACCESS3_LOOKUP : Nat := 0x0002
/-- ACCESS3 bit `MODIFY` (RFC 1813). -/
def ACCESS3_MODIFY : Nat := 0x0004
/-- ACCESS3 bit `EXTEND` (RFC 1813). -/
def ACCESS3_EXTEND : Nat := 0x0008
/-- ACCESS3 bit `DELETE` (RFC 1813). -/
def ACCESS3_DELETE : Nat := 0x0010
/-- ACCESS3 bit `EXECUTE` (RFC 1813). -/
def ACCESS3_EXECUTE : Nat := 0x0020

/-- NFSv4 status `NFS4_OK` (RFC 3530). -/
def NFS4_OK : Nat := 0
/-- NFSv4 status `NFS4ERR_ACCESS` (RFC 3530). -/
def NFS4ERR_ACCESS : Nat := 13
/-- NFSv4 status `NFS4ERR_WRONGSEC` (RFC 3530). -/
def NFS4ERR_WRONGSEC : Nat := 10016

/-- First non-privileged port, `IPPORT_RESERVED` of `netinet/in.h`. -/
def IPPORT_RESERVED : Int := 1024

/-- Bitwise complement of a `uint32_t` value, the C expression `~c`. -/
def not32 (c : Nat) : Nat := 4294967295 ^^^ c

/-! ## Header constants and external functions -/

/-- Constants of repository headers that `nfs_creds.c` uses and that are not
defined in the file itself: the `cred_flags` bits, the export option bits, the
FSAL access flags, the attribute mask bits, the default anonymous ids, the
build option `_HAVE_GSSAPI`, and `MAXNAMLEN` of `<dirent.h>`, which sizes the
local buffer `principal`. -/
structure Hdr where
  CREDS_LOADED : Nat
  CREDS_ANON : Nat
  UID_SQUASHED : Nat
  GID_SQUASHED : Nat
  GARRAY_SQUASHED : Nat
  MANAGED_GIDS : Nat
  EXPORT_OPTION_ROOT : Nat
  EXPORT_OPTION_ALL_ANONYMOUS : Nat
  EXPORT_OPTION_MANAGE_GIDS : Nat
  EXPORT_OPTION_NFSV4 : Nat
  EXPORT_OPTION_UDP : Nat
  EXPORT_OPTION_TCP : Nat
  EXPORT_OPTION_PRIVILEGED_PORT : Nat
  FSAL_R_OK : Nat
  FSAL_W_OK : Nat
  FSAL_X_OK : Nat
  FSAL_ACE_PERM_READ_DATA : Nat
  FSAL_ACE_PERM_WRITE_DATA : Nat
  FSAL_ACE_PERM_APPEND_DATA : Nat
  FSAL_ACE_PERM_ADD_FILE : Nat
  FSAL_ACE_PERM_ADD_SUBDIRECTORY : Nat
  FSAL_ACE_PERM_EXECUTE : Nat
  FSAL_ACE_PERM_DELETE_CHILD : Nat
  FSAL_MODE_MASK_FLAG : Nat
  FSAL_ACE4_MASK_FLAG : Nat
  FSAL_ACE4_PERM_CONTINUE : Nat
  ATTR_OWNER : Nat
  ATTR_GROUP : Nat
  ANON_UID : Int
  ANON_GID : Int
  HAVE_GSSAPI : Bool
  MAXNAMLEN : Nat
deriving DecidableEq, Repr

/-- The six `cred_flags` bits are non-zero and pairwise disjoint. -/
def Hdr.cred_flags_ok (K : Hdr) : Prop :=
  K.CREDS_LOADED ≠ 0 ∧ K.CREDS_ANON ≠ 0 ∧ K.UID_SQUASHED ≠ 0 ∧
  K.GID_SQUASHED ≠ 0 ∧ K.GARRAY_SQUASHED ≠ 0 ∧ K.MANAGED_GIDS ≠ 0 ∧
  K.CREDS_LOADED &&& K.CREDS_ANON = 0 ∧ K.CREDS_LOADED &&& K.UID_SQUASHED = 0 ∧
  K.CREDS_LOADED &&& K.GID_SQUASHED = 0 ∧ K.CREDS_LOADED &&& K.GARRAY_SQUASHED = 0 ∧
  K.CREDS_LOADED &&& K.MANAGED_GIDS = 0 ∧ K.CREDS_ANON &&& K.UID_SQUASHED = 0 ∧
  K.CREDS_ANON &&& K.GID_SQUASHED = 0 ∧ K.CREDS_ANON &&& K.GARRAY_SQUASHED = 0 ∧
  K.CREDS_ANON &&& K.MANAGED_GIDS = 0 ∧ K.UID_SQUASHED &&& K.GID_SQUASHED = 0 ∧
  K.UID_SQUASHED &&& K.GARRAY_SQUASHED = 0 ∧ K.UID_SQUASHED &&& K.MANAGED_GIDS = 0 ∧
  K.GID_SQUASHED &&& K.GARRAY_SQUASHED = 0 ∧ K.GID_SQUASHED &&& K.MANAGED_GIDS = 0 ∧
  K.GARRAY_SQUASHED &&& K.MANAGED_GIDS = 0

instance (K : Hdr) : Decidable K.cred_flags_ok :=
  inferInstanceAs (Decidable (_ ∧ _))

/-- The FSAL permission bits tested by `nfs_access_op` are non-zero. -/
def Hdr.fsal_ok (K : Hdr) : Prop :=
  K.FSAL_R_OK ≠ 0 ∧ K.FSAL_W_OK ≠ 0 ∧ K.FSAL_X_OK ≠ 0 ∧
  K.FSAL_ACE_PERM_READ_DATA ≠ 0 ∧ K.FSAL_ACE_PERM_WRITE_DATA ≠ 0 ∧
  K.FSAL_ACE_PERM_APPEND_DATA ≠ 0 ∧ K.FSAL_ACE_PERM_ADD_FILE ≠ 0 ∧
  K.FSAL_ACE_PERM_ADD_SUBDIRECTORY ≠ 0 ∧ K.FSAL_ACE_PERM_EXECUTE ≠ 0 ∧
  K.FSAL_ACE_PERM_DELETE_CHILD ≠ 0

instance (K : Hdr) : Decidable K.fsal_ok :=
  inferInstanceAs (Decidable (_ ∧ _))

/-- One assignment of the header constants, with every flag on a bit of its
own except the FSAL ACE permissions that share a bit between their file and
directory names (read-data/list-dir, write-data/add-file,
append-data/add-subdirectory), anonymous ids `-2`, and RPCSEC_GSS compiled
in. -/
def sampleHdr : Hdr where
  CREDS_LOADED := 0x01
  CREDS_ANON := 0x02
  UID_SQUASHED := 0x04
  GID_SQUASHED := 0x08
  GARRAY_SQUASHED := 0x10
  MANAGED_GIDS := 0x20
  EXPORT_OPTION_ROOT := 0x00000001
  EXPORT_OPTION_ALL_ANONYMOUS := 0x00000002
  EXPORT_OPTION_MANAGE_GIDS := 0x00000004
  EXPORT_OPTION_NFSV4 := 0x00000040
  EXPORT_OPTION_UDP := 0x00000080
  EXPORT_OPTION_TCP := 0x00000100
  EXPORT_OPTION_PRIVILEGED_PORT := 0x00100000
  FSAL_R_OK := 0x04000000
  FSAL_W_OK := 0x02000000
  FSAL_X_OK := 0x01000000
  FSAL_ACE_PERM_READ_DATA := 0x00000001
  FSAL_ACE_PERM_WRITE_DATA := 0x00000002
  FSAL_ACE_PERM_APPEND_DATA := 0x00000004
  FSAL_ACE_PERM_ADD_FILE := 0x00000002
  FSAL_ACE_PERM_ADD_SUBDIRECTORY := 0x00000004
  FSAL_ACE_PERM_EXECUTE := 0x00000020
  FSAL_ACE_PERM_DELETE_CHILD := 0x00000040
  FSAL_MODE_MASK_FLAG := 0x00000000
  FSAL_ACE4_MASK_FLAG := 0x80000000
  FSAL_ACE4_PERM_CONTINUE := 0x40000000
  ATTR_OWNER := 0x00000020
  ATTR_GROUP := 0x00000040
  ANON_UID := -2
  ANON_GID := -2
  HAVE_GSSAPI := true
  MAXNAMLEN := 255

/-! ## Data model -/

/-- The C `struct user_cred`: uid, gid, number of groups, pointer to them. -/
structure user_cred where
  caller_uid : Nat
  caller_gid : Nat
  caller_glen : Nat
  caller_garray : Option Nat
deriving DecidableEq, Repr

/-- The fields of `struct group_data` read by `get_req_creds`. -/
structure group_data where
  nbgroups : Nat
  groups : Option Nat
deriving DecidableEq, Repr

/-- The credential part of `struct req_op_context`.  `creds` is the object
that the C field `creds` points to. -/
structure req_op_context where
  creds : user_cred
  original_creds : user_cred
  caller_gdata : Option group_data
  caller_garray_copy : Option Nat
  managed_garray_copy : Option Nat
  cred_flags : Nat
  caller_addr : Nat
deriving DecidableEq, Repr

/-- The C `export_perms_t`. -/
structure export_perms_t where
  anonymous_uid : Nat
  anonymous_gid : Nat
  options : Nat
deriving DecidableEq, Repr

/-- The C `struct authunix_parms`, the body of an AUTH_SYS credential. -/
structure authunix_parms where
  aup_time : Nat
  aup_uid : Nat
  aup_gid : Nat
  aup_len : Nat
  aup_gids : Option Nat
deriving DecidableEq, Repr

/-- The fields of `struct svc_rpc_gss_data` that the file reads: the client
name bytes `cname.value[0 .. cname.length)`, the security service and quality
of protection, and the context handle. -/
structure svc_rpc_gss_data where
  cname : List Nat
  svc : Nat
  qop : Nat
  ctx : Nat
deriving DecidableEq, Repr

/-- The fields of `struct svc_req` that the file reads.  `rq_clntcred` is the
credential body seen through the cast to `struct authunix_parms *`, `rq_auth`
is `SVCAUTH_PRIVATE(req->rq_auth)`. -/
structure svc_req where
  rq_xid : Nat
  oa_flavor : Nat
  oa_length : Nat
  rq_clntcred : authunix_parms
  rq_auth : svc_rpc_gss_data
  rq_xprt : Nat
deriving DecidableEq, Repr

/-- Transport types told apart by `nfs4_MakeCred`; every other enumerator of
`xprt_type_t` is `XPRT_OTHER`. -/
inductive xprt_type_t where
  | XPRT_UDP
  | XPRT_TCP
  | XPRT_OTHER (n : Nat)
deriving DecidableEq, Repr

/-- Status values told apart by `nfs_access_op`; every other enumerator of
`cache_inode_status_t` is `CACHE_INODE_OTHER`. -/
inductive cache_inode_status_t where
  | CACHE_INODE_SUCCESS
  | CACHE_INODE_FSAL_EACCESS
  | CACHE_INODE_OTHER (n : Nat)
deriving DecidableEq, Repr

/-- Object types told apart by `nfs_access_op`; every enumerator of
`object_file_type_t` other than `DIRECTORY` is `NOT_DIRECTORY`. -/
inductive object_file_type_t where
  | DIRECTORY
  | NOT_DIRECTORY (n : Nat)
deriving DecidableEq, Repr

/-- The field of `cache_entry_t` that the file reads, and an identity. -/
structure cache_entry_t where
  id : Nat
  type : object_file_type_t
deriving DecidableEq, Repr

/-- Memory holding `gid_t` arrays: cell `a` is the array at address `a`, or
`none` when that object has been freed. -/
abbrev Heap := List (Option (List Nat))

/-- Functions of other modules called by the file.  `principal2uid` and
`uid2grp` return `none` when they report failure; `gsh_malloc` tells whether an
allocation of the given byte size succeeds. -/
structure Env where
  principal2uid : svc_rpc_gss_data → Option (Nat × Nat)
  uid2grp : Nat → Option group_data
  gsh_malloc : Nat → Bool
  nfs_export_check_access : Nat → Nat → export_perms_t
  nfs_export_check_security : svc_req → export_perms_t → Nat → Bool
  svc_get_xprt_type : Nat → xprt_type_t
  get_port : Nat → Int
  cache_inode_access_sw :
    cache_entry_t → Nat → req_op_context → cache_inode_status_t × Nat × Nat

/-- What `get_req_creds` reads and writes: the request context, the heap, and
the list of uids handed to `uid2grp` so far (most recent first). -/
structure State where
  ctx : req_op_context
  heap : Heap
  uid2grp_calls : List Nat
deriving DecidableEq, Repr

/-! ## Memory access -/

/-- Value of `p[i]`, or `none` if `p` is not a live array with more than `i`
entries. -/
def heap_read (h : Heap) (p : Option Nat) (i : Nat) : Option Nat :=
  match p with
  | none => none
  | some a =>
    match h[a]? with
    | some (some l) => l[i]?
    | _ => none

/-- The entries `p[0 .. n)`, or `none` if `p` is not a live array with at
least `n` entries. -/
def heap_block (h : Heap) (p : Option Nat) (n : Nat) : Option (List Nat) :=
  match p with
  | none => none
  | some a =>
    match h[a]? with
    | some (some l) => if n ≤ l.length then some (l.take n) else none
    | _ => none

/-- The heap after `p[i] = v`, or `none` if `p` is not a live array with more
than `i` entries. -/
def heap_write (h : Heap) (p : Option Nat) (i : Nat) (v : Nat) : Option Heap :=
  match p with
  | none => none
  | some a =>
    match h[a]? with
    | some (some l) => if i < l.length then some (h.set a (some (l.set i v))) else none
    | _ => none

/-! ## `get_req_creds` -/

/-- The target of the local pointer `garray_copy`: `&req_ctx->caller_garray_copy`
or `&req_ctx->managed_garray_copy`. -/
inductive copy_slot where
  | caller
  | managed
deriving DecidableEq, Repr

/-- Value of `*garray_copy`. -/
def slot_get (sl : copy_slot) (c : req_op_context) : Option Nat :=
  match sl with
  | .caller => c.caller_garray_copy
  | .managed => c.managed_garray_copy

/-- The context after `*garray_copy = p`. -/
def slot_set (sl : copy_slot) (c : req_op_context) (p : Option Nat) : req_op_context :=
  match sl with
  | .caller => { c with caller_garray_copy := p }
  | .managed => { c with managed_garray_copy := p }

/-- The context after `req_ctx->cred_flags |= m`. -/
def or_flags (c : req_op_context) (m : Nat) : req_op_context :=
  { c with cred_flags := c.cred_flags ||| m }

/-- Line 207: `req_ctx->cred_flags &= CREDS_LOADED | CREDS_ANON`. -/
def reset_flags (K : Hdr) (s : State) : State :=
  { s with ctx := { s.ctx with
      cred_flags := s.ctx.cred_flags &&& (K.CREDS_LOADED ||| K.CREDS_ANON) } }

/-- Lines 209-299, the `switch` on the flavor.  The result is `none` when the
copy of the client name into the local buffer `char principal[MAXNAMLEN + 1]`
(lines 248-249: `memcpy` of `cname.length` bytes, then a 0 at index
`cname.length`) writes past the end of the buffer; `some none` for the
`default` case, where `get_req_creds` returns false; and otherwise the context
after the switch and the slot `garray_copy` points to.  The RPCSEC_GSS case
exists only when `_HAVE_GSSAPI` is defined.  A failing `principal2uid` is
taken to leave `original_creds` as it was. -/
def flavor_switch (K : Hdr) (E : Env) (req : svc_req) (perms : export_perms_t)
    (c : req_op_context) : Option (Option (req_op_context × copy_slot)) :=
  if req.oa_flavor = AUTH_NONE then
    some (some (or_flags c (K.CREDS_LOADED ||| K.CREDS_ANON), .caller))
  else if req.oa_flavor = AUTH_SYS then
    let c1 :=
      if c.cred_flags &&& K.CREDS_LOADED = 0 then
        or_flags { c with original_creds :=
          { caller_uid := req.rq_clntcred.aup_uid
            caller_gid := req.rq_clntcred.aup_gid
            caller_glen := req.rq_clntcred.aup_len
            caller_garray := req.rq_clntcred.aup_gids } } K.CREDS_LOADED
      else c
    let c2 := { c1 with creds := c1.original_creds }
    if perms.options &&& K.EXPORT_OPTION_MANAGE_GIDS ≠ 0 then
      some (some (or_flags c2 K.MANAGED_GIDS, .managed))
    else
      some (some (c2, .caller))
  else if K.HAVE_GSSAPI = true ∧ req.oa_flavor = RPCSEC_GSS then
    if c.cred_flags &&& K.CREDS_LOADED = 0 then
      if req.rq_auth.cname.length ≤ K.MAXNAMLEN then
        match E.principal2uid req.rq_auth with
        | none => some (some (or_flags c (K.CREDS_ANON ||| K.CREDS_LOADED), .caller))
        | some (uid, gid) =>
          let c1 := or_flags { c with original_creds :=
            { c.original_creds with caller_uid := uid, caller_gid := gid } } K.CREDS_LOADED
          some (some (or_flags c1 K.MANAGED_GIDS, .managed))
      else
        none
    else
      some (some (or_flags c K.MANAGED_GIDS, .managed))
  else
    some none

/-- The condition of line 304-307: anonymous credentials, an all-anonymous
export, or root on an export that squashes root. -/
def squash_all (K : Hdr) (perms : export_perms_t) (c : req_op_context) : Prop :=
  c.cred_flags &&& K.CREDS_ANON ≠ 0 ∨
  perms.options &&& K.EXPORT_OPTION_ALL_ANONYMOUS ≠ 0 ∨
  (perms.options &&& K.EXPORT_OPTION_ROOT = 0 ∧ c.original_creds.caller_uid = 0)

instance (K : Hdr) (perms : export_perms_t) (c : req_op_context) :
    Decidable (squash_all K perms c) :=
  inferInstanceAs (Decidable (_ ∨ _))

/-- Lines 308-316, the body of the squash-all branch. -/
def squash_all_creds (K : Hdr) (perms : export_perms_t) (c : req_op_context) :
    req_op_context :=
  or_flags { c with creds := { c.creds with
      caller_uid := perms.anonymous_uid
      caller_gid := perms.anonymous_gid
      caller_glen := 0 } } (K.UID_SQUASHED ||| K.GID_SQUASHED)

/-- Lines 321-334: the effective uid is the original one, the effective gid is
squashed when it is 0 and root is not allowed. -/
def squash_gid (K : Hdr) (perms : export_perms_t) (c : req_op_context) :
    req_op_context :=
  let c1 := { c with creds := { c.creds with caller_uid := c.original_creds.caller_uid } }
  if perms.options &&& K.EXPORT_OPTION_ROOT = 0 ∧ c1.original_creds.caller_gid = 0 then
    or_flags { c1 with creds := { c1.creds with caller_gid := perms.anonymous_gid } }
      K.GID_SQUASHED
  else
    { c1 with creds := { c1.creds with caller_gid := c1.original_creds.caller_gid } }

/-- Lines 339-358: choice of the working group list.  The Boolean is false
when `uid2grp` fails and `get_req_creds` returns false.  A failing `uid2grp`
is taken to leave `caller_gdata` as it was. -/
def select_groups (K : Hdr) (E : Env) (s : State) : Bool × State :=
  let c := s.ctx
  if c.cred_flags &&& K.MANAGED_GIDS ≠ 0 then
    match c.caller_gdata with
    | some gd =>
      (true, { s with ctx := { c with creds := { c.creds with
          caller_glen := gd.nbgroups, caller_garray := gd.groups } } })
    | none =>
      let calls := c.original_creds.caller_uid :: s.uid2grp_calls
      match E.uid2grp c.original_creds.caller_uid with
      | none => (false, { s with uid2grp_calls := calls })
      | some gd =>
        (true, { s with
          uid2grp_calls := calls
          ctx := { c with
            caller_gdata := some gd
            creds := { c.creds with
              caller_glen := gd.nbgroups, caller_garray := gd.groups } } })
  else
    (true, { s with ctx := { c with creds := { c.creds with
        caller_glen := c.original_creds.caller_glen
        caller_garray := c.original_creds.caller_garray } } })

/-- The working group list that lines 339-358 select for a context `c` left by
the switch, as its count and its pointer: the list of the group data (cached,
or else looked up for the original uid) when `MANAGED_GIDS` is set, the
client's list otherwise; `none` when the lookup fails. -/
def working_groups (K : Hdr) (E : Env) (c : req_op_context) : Option (Nat × Option Nat) :=
  if c.cred_flags &&& K.MANAGED_GIDS ≠ 0 then
    match c.caller_gdata with
    | some gd => some (gd.nbgroups, gd.groups)
    | none =>
      match E.uid2grp c.original_creds.caller_uid with
      | some gd => some (gd.nbgroups, gd.groups)
      | none => none
  else
    some (c.original_creds.caller_glen, c.original_creds.caller_garray)

/-- Lines 372-388: make `*garray_copy` point to a copy of the working list
unless it already points somewhere.  `some (false, _)` is the failure of
`gsh_malloc`; `none` is a `memcpy` from an invalid source.  `sizeof(gid_t)`
is 4. -/
def ensure_copy (E : Env) (sl : copy_slot) (s : State) : Option (Bool × State) :=
  match slot_get sl s.ctx with
  | some _ => some (true, s)
  | none =>
    if E.gsh_malloc (s.ctx.creds.caller_glen * 4) = true then
      match heap_block s.heap s.ctx.creds.caller_garray s.ctx.creds.caller_glen with
      | none => none
      | some l =>
        some (true, { s with
          heap := s.heap ++ [some l]
          ctx := slot_set sl s.ctx (some s.heap.length) })
    else
      some (false, s)

/-- Lines 369-400, the loop over the working list, with `n` iterations left
and loop counter `i`.  `some (false, _)` is the return on allocation failure,
`none` an access outside an array. -/
def garray_scan (K : Hdr) (E : Env) (perms : export_perms_t) (sl : copy_slot) :
    Nat → Nat → State → Option (Bool × State)
  | 0, _, s => some (true, s)
  | n + 1, i, s =>
    match heap_read s.heap s.ctx.creds.caller_garray i with
    | none => none
    | some g =>
      if g = 0 then
        match ensure_copy E sl s with
        | none => none
        | some (false, s1) => some (false, s1)
        | some (true, s1) =>
          match heap_write s1.heap (slot_get sl s1.ctx) i perms.anonymous_gid with
          | none => none
          | some h2 =>
            garray_scan K E perms sl n (i + 1)
              { s1 with heap := h2, ctx := or_flags s1.ctx K.GARRAY_SQUASHED }
      else
        garray_scan K E perms sl n (i + 1) s

/-- Lines 365-406: squash the zero entries of the working list. -/
def squash_garray (K : Hdr) (E : Env) (perms : export_perms_t) (sl : copy_slot)
    (s : State) : Option (Bool × State) :=
  if perms.options &&& K.EXPORT_OPTION_ROOT ≠ 0 ∨ s.ctx.creds.caller_glen = 0 then
    some (true, s)
  else
    match garray_scan K E perms sl s.ctx.creds.caller_glen 0 s with
    | none => none
    | some (false, s1) => some (false, s1)
    | some (true, s1) =>
      if s1.ctx.cred_flags &&& K.GARRAY_SQUASHED ≠ 0 then
        some (true, { s1 with ctx := { s1.ctx with creds := { s1.ctx.creds with
            caller_garray := slot_get sl s1.ctx } } })
      else
        some (true, s1)

/-- Lines 304-425: everything after the `switch`. -/
def resolve_creds (K : Hdr) (E : Env) (perms : export_perms_t) (sl : copy_slot)
    (s : State) : Option (Bool × State) :=
  if squash_all K perms s.ctx then
    some (true, { s with ctx := squash_all_creds K perms s.ctx })
  else
    match select_groups K E { s with ctx := squash_gid K perms s.ctx } with
    | (false, s1) => some (false, s1)
    | (true, s1) => squash_garray K E perms sl s1

/-- The C function `get_req_creds`.  The result is `none` when the call reads or
writes outside an array, else the returned Boolean and the state it leaves. -/
def get_req_creds (K : Hdr) (E : Env) (req : svc_req) (perms : export_perms_t)
    (s : State) : Option (Bool × State) :=
  let s0 := reset_flags K s
  match flavor_switch K E req perms s0.ctx with
  | none => none
  | some none => some (false, s0)
  | some (some (c, sl)) => resolve_creds K E perms sl { s0 with ctx := c }

/-- The cast `(uid_t) v` of an `int` constant. -/
def to_u32 (v : Int) : Nat := (v % 4294967296).toNat

/-- The C function `init_credentials`. -/
def init_credentials (K : Hdr) (s : State) : State :=
  { s with ctx := { s.ctx with
      creds := { caller_uid := to_u32 K.ANON_UID, caller_gid := to_u32 K.ANON_GID
                 caller_glen := 0, caller_garray := none }
      original_creds := { caller_uid := 0, caller_gid := 0, caller_glen := 0
                          caller_garray := none }
      caller_gdata := none
      caller_garray_copy := none
      managed_garray_copy := none
      cred_flags := 0 } }

/-! ## `nfs4_MakeCred` -/

/-- The fields of `compound_data_t` that `nfs4_MakeCred` uses, apart from the
request context, which is in `State`.  `export_ref` stands for the C field
`export`, a pointer to the export entry. -/
structure compound_data_t where
  req : svc_req
  export_ref : Nat
  export_perms : export_perms_t
deriving DecidableEq, Repr

/-- The C function `nfs4_MakeCred`.  `nfs_export_check_access` fills
`data->export_perms`; the four policy checks follow, then `get_req_creds`.
The result is `none` when `get_req_creds` accesses memory outside an array. -/
def nfs4_MakeCred (K : Hdr) (E : Env) (data : compound_data_t) (s : State) :
    Option (Nat × compound_data_t × State) :=
  let xprt_type := E.svc_get_xprt_type data.req.rq_xprt
  let port := E.get_port s.ctx.caller_addr
  let perms := E.nfs_export_check_access s.ctx.caller_addr data.export_ref
  let data1 := { data with export_perms := perms }
  if perms.options &&& K.EXPORT_OPTION_NFSV4 = 0 then
    some (NFS4ERR_ACCESS, data1, s)
  else if (xprt_type = .XPRT_UDP ∧ perms.options &&& K.EXPORT_OPTION_UDP = 0) ∨
      (xprt_type = .XPRT_TCP ∧ perms.options &&& K.EXPORT_OPTION_TCP = 0) then
    some (NFS4ERR_ACCESS, data1, s)
  else if perms.options &&& K.EXPORT_OPTION_PRIVILEGED_PORT ≠ 0 ∧ port ≥ IPPORT_RESERVED then
    some (NFS4ERR_ACCESS, data1, s)
  else if E.nfs_export_check_security data.req perms data.export_ref = false then
    some (NFS4ERR_WRONGSEC, data1, s)
  else
    match get_req_creds K E data.req perms s with
    | none => none
    | some (false, s1) => some (NFS4ERR_ACCESS, data1, s1)
    | some (true, s1) => some (NFS4_OK, data1, s1)

/-! ## `nfs_access_op` -/

/-- Lines 592-635: the value of `access_mask` handed to the evaluator. -/
def access_mask_of (K : Hdr) (entry : cache_entry_t) (requested_access : Nat) : Nat :=
  let m0 := 0
  let m1 := if requested_access &&& ACCESS3_READ ≠ 0 then
      m0 ||| (K.FSAL_R_OK ||| K.FSAL_ACE_PERM_READ_DATA) else m0
  let m2 := if requested_access &&& ACCESS3_LOOKUP ≠ 0 ∧ entry.type = .DIRECTORY then
      m1 ||| (K.FSAL_X_OK ||| K.FSAL_ACE_PERM_EXECUTE) else m1
  let m3 := if requested_access &&& ACCESS3_MODIFY ≠ 0 then
      (if entry.type = .DIRECTORY then m2 ||| (K.FSAL_W_OK ||| K.FSAL_ACE_PERM_DELETE_CHILD)
       else m2 ||| (K.FSAL_W_OK ||| K.FSAL_ACE_PERM_WRITE_DATA)) else m2
  let m4 := if requested_access &&& ACCESS3_EXTEND ≠ 0 then
      (if entry.type = .DIRECTORY then
        m3 ||| (K.FSAL_W_OK ||| K.FSAL_ACE_PERM_ADD_FILE ||| K.FSAL_ACE_PERM_ADD_SUBDIRECTORY)
       else m3 ||| (K.FSAL_W_OK ||| K.FSAL_ACE_PERM_APPEND_DATA)) else m3
  let m5 := if requested_access &&& ACCESS3_DELETE ≠ 0 ∧ entry.type = .DIRECTORY then
      m4 ||| (K.FSAL_W_OK ||| K.FSAL_ACE_PERM_DELETE_CHILD) else m4
  let m6 := if requested_access &&& ACCESS3_EXECUTE ≠ 0 ∧ entry.type ≠ .DIRECTORY then
      m5 ||| (K.FSAL_X_OK ||| K.FSAL_ACE_PERM_EXECUTE) else m5
  if m6 ≠ 0 then
    m6 ||| (K.FSAL_MODE_MASK_FLAG ||| K.FSAL_ACE4_MASK_FLAG ||| K.FSAL_ACE4_PERM_CONTINUE)
  else m6

/-- Lines 568, 599, 622, 629: the value of `granted_mask`, the requested bits
that make sense for the type of the entry. -/
def granted_mask_of (entry : cache_entry_t) (requested_access : Nat) : Nat :=
  let g0 := requested_access
  let g1 := if requested_access &&& ACCESS3_LOOKUP ≠ 0 ∧ entry.type ≠ .DIRECTORY then
      g0 &&& not32 ACCESS3_LOOKUP else g0
  let g2 := if requested_access &&& ACCESS3_DELETE ≠ 0 ∧ entry.type ≠ .DIRECTORY then
      g1 &&& not32 ACCESS3_DELETE else g1
  if requested_access &&& ACCESS3_EXECUTE ≠ 0 ∧ entry.type = .DIRECTORY then
    g2 &&& not32 ACCESS3_EXECUTE else g2

/-- Lines 664-697: the bits collected in `*granted_access` from what the
evaluator allowed, before they are masked. -/
def granted_bits (K : Hdr) (entry : cache_entry_t) (access_allowed : Nat) : Nat :=
  let a0 := 0
  let a1 := if access_allowed &&& K.FSAL_R_OK ≠ 0 then a0 ||| ACCESS3_READ else a0
  let a2 := if access_allowed &&& K.FSAL_W_OK ≠ 0 then
      a1 ||| (ACCESS3_MODIFY ||| ACCESS3_EXTEND ||| ACCESS3_DELETE) else a1
  let a3 := if access_allowed &&& K.FSAL_X_OK ≠ 0 then
      a2 ||| (ACCESS3_LOOKUP ||| ACCESS3_EXECUTE) else a2
  let a4 := if access_allowed &&& K.FSAL_ACE_PERM_READ_DATA ≠ 0 then
      a3 ||| ACCESS3_READ else a3
  let a7 :=
    if entry.type = .DIRECTORY then
      let a5 := if access_allowed &&& K.FSAL_ACE_PERM_DELETE_CHILD ≠ 0 then
          a4 ||| (ACCESS3_MODIFY ||| ACCESS3_DELETE) else a4
      let a6 := if access_allowed &&& K.FSAL_ACE_PERM_ADD_FILE ≠ 0 then
          a5 ||| ACCESS3_EXTEND else a5
      if access_allowed &&& K.FSAL_ACE_PERM_ADD_SUBDIRECTORY ≠ 0 then
        a6 ||| ACCESS3_EXTEND else a6
    else
      let a5 := if access_allowed &&& K.FSAL_ACE_PERM_WRITE_DATA ≠ 0 then
          a4 ||| ACCESS3_MODIFY else a4
      if access_allowed &&& K.FSAL_ACE_PERM_APPEND_DATA ≠ 0 then
        a5 ||| ACCESS3_EXTEND else a5
  if access_allowed &&& K.FSAL_ACE_PERM_EXECUTE ≠ 0 then
    a7 ||| (ACCESS3_LOOKUP ||| ACCESS3_EXECUTE) else a7

/-- What `nfs_access_op` hands back: the returned status, `*granted_access`,
and the object `supported_access` points to (`none` for a `NULL` pointer). -/
structure access_result where
  status : cache_inode_status_t
  granted_access : Nat
  supported_access : Option Nat
deriving DecidableEq, Repr

/-- The C function `nfs_access_op`.  `supported_access` is `none` for a `NULL`
pointer and `some v` for a pointer to an object that holds `v` at entry. -/
def nfs_access_op (K : Hdr) (E : Env) (entry : cache_entry_t) (requested_access : Nat)
    (supported_access : Option Nat) (req_ctx : req_op_context) : access_result :=
  let granted_mask := granted_mask_of entry requested_access
  let access_mask := access_mask_of K entry requested_access
  let out := E.cache_inode_access_sw entry access_mask req_ctx
  let status := out.1
  let access_allowed := out.2.1
  if status = .CACHE_INODE_SUCCESS ∨ status = .CACHE_INODE_FSAL_EACCESS then
    { status := status
      granted_access := granted_bits K entry access_allowed &&& granted_mask
      supported_access := supported_access.map fun _ => granted_mask }
  else
    { status := status, granted_access := 0, supported_access := supported_access }

/-! ## `clean_credentials` -/

/-- The heap after `if (p != NULL) gsh_free(p)`: the object at `p` is no longer
live.  The pointers handed to it are those of the copy slots, which only ever
hold results of `gsh_malloc`. -/
def heap_free (h : Heap) (p : Option Nat) : Heap :=
  match p with
  | none => h
  | some a => h.set a none

/-- The C function `clean_credentials`: free the two copies, then
`init_credentials`.  `uid2grp_unref` acts on the reference count kept by the
group cache, which is not part of `State`. -/
def clean_credentials (K : Hdr) (s : State) : State :=
  let h1 := heap_free s.heap s.ctx.managed_garray_copy
  let h2 := heap_free h1 s.ctx.caller_garray_copy
  init_credentials K { s with heap := h2 }

/-! ## `squash_setattr` -/

/-- The fields of `struct attrlist` that `squash_setattr` reads or writes;
`rest` stands for all the other attributes. -/
structure attrlist where
  mask : Nat
  owner : Nat
  group : Nat
  rest : List Nat
deriving DecidableEq, Repr

/-- The C function `squash_setattr`.  The request context is only read; the
result is the attribute list the call leaves. -/
def squash_setattr (K : Hdr) (export_perms : export_perms_t) (req_ctx : req_op_context)
    (attr : attrlist) : attrlist :=
  let a1 :=
    if attr.mask &&& K.ATTR_OWNER ≠ 0 then
      if export_perms.options &&& K.EXPORT_OPTION_ALL_ANONYMOUS ≠ 0 then
        { attr with owner := export_perms.anonymous_uid }
      else if export_perms.options &&& K.EXPORT_OPTION_ROOT = 0 ∧ attr.owner = 0 ∧
          req_ctx.cred_flags &&& K.UID_SQUASHED ≠ 0 then
        { attr with owner := export_perms.anonymous_uid }
      else attr
    else attr
  if a1.mask &&& K.ATTR_GROUP ≠ 0 then
    if export_perms.options &&& K.EXPORT_OPTION_ALL_ANONYMOUS ≠ 0 then
      { a1 with group := export_perms.anonymous_gid }
    else if export_perms.options &&& K.EXPORT_OPTION_ROOT = 0 ∧ a1.group = 0 ∧
        req_ctx.cred_flags &&& (K.GID_SQUASHED ||| K.GARRAY_SQUASHED) ≠ 0 then
      { a1 with group := export_perms.anonymous_gid }
    else a1
  else a1

/-- The rule of the specification for attribute squashing, written from its
words: the owner becomes the anonymous uid when the export is all-anonymous,
else when root is not allowed, the requested owner is 0 and the uid was
squashed; the group likewise, triggered by a squashed gid or a squashed group
array; an attribute whose mask bit is absent keeps its value. -/
def squash_attrs_spec (K : Hdr) (export_perms : export_perms_t) (cred_flags : Nat)
    (attr : attrlist) : attrlist :=
  let all_anonymous := export_perms.options &&& K.EXPORT_OPTION_ALL_ANONYMOUS ≠ 0
  let root_allowed := export_perms.options &&& K.EXPORT_OPTION_ROOT ≠ 0
  let uid_squashed := cred_flags &&& K.UID_SQUASHED ≠ 0
  let gid_squashed := cred_flags &&& K.GID_SQUASHED ≠ 0
  let garray_squashed := cred_flags &&& K.GARRAY_SQUASHED ≠ 0
  { attr with
    owner :=
      if attr.mask &&& K.ATTR_OWNER ≠ 0 then
        if all_anonymous then export_perms.anonymous_uid
        else if ¬ root_allowed ∧ attr.owner = 0 ∧ uid_squashed then export_perms.anonymous_uid
        else attr.owner
      else attr.owner
    group :=
      if attr.mask &&& K.ATTR_GROUP ≠ 0 then
        if all_anonymous then export_perms.anonymous_gid
        else if ¬ root_allowed ∧ attr.group = 0 ∧ (gid_squashed ∨ garray_squashed) then
          export_perms.anonymous_gid
        else attr.group
      else attr.group }

/-! ## Client credentials -/

/-- Layout of the union `auth_union` of `nfs_client_cred_t`, which is declared
in a header: its size in bytes, the bound of the values of the type of
`aup_time`, and how each member that the file accesses is read from and stored
into the bytes of the union. -/
structure union_layout where
  size : Nat
  time_bound : Nat
  get_aup_uid : List Nat → Nat
  set_aup_uid : List Nat → Nat → List Nat
  get_aup_gid : List Nat → Nat
  set_aup_gid : List Nat → Nat → List Nat
  get_aup_time : List Nat → Nat
  set_aup_time : List Nat → Nat → List Nat
  set_svc : List Nat → Nat → List Nat
  set_qop : List Nat → Nat → List Nat
  set_gss_context_id : List Nat → Nat → List Nat

/-- What C guarantees for the members `aup_uid`, `aup_gid` and `aup_time` of
the one structure `auth_unix`: a store keeps the size of the union, a member
reads back the value stored in it, and a store to one member leaves the
others as they were. -/
def union_layout.members_ok (Y : union_layout) : Prop :=
  (∀ u v, u.length = Y.size → (Y.set_aup_uid u v).length = Y.size) ∧
  (∀ u v, u.length = Y.size → (Y.set_aup_gid u v).length = Y.size) ∧
  (∀ u v, u.length = Y.size → (Y.set_aup_time u v).length = Y.size) ∧
  (∀ u v, u.length = Y.size → v < 4294967296 → Y.get_aup_uid (Y.set_aup_uid u v) = v) ∧
  (∀ u v, u.length = Y.size → v < 4294967296 → Y.get_aup_gid (Y.set_aup_gid u v) = v) ∧
  (∀ u v, u.length = Y.size → v < Y.time_bound → Y.get_aup_time (Y.set_aup_time u v) = v) ∧
  (∀ u v, u.length = Y.size → Y.get_aup_uid (Y.set_aup_gid u v) = Y.get_aup_uid u) ∧
  (∀ u v, u.length = Y.size → Y.get_aup_uid (Y.set_aup_time u v) = Y.get_aup_uid u) ∧
  (∀ u v, u.length = Y.size → Y.get_aup_gid (Y.set_aup_time u v) = Y.get_aup_gid u)

/-- The C `nfs_client_cred_t`: flavor, length, and the bytes of `auth_union`. -/
structure nfs_client_cred_t where
  flavor : Nat
  length : Nat
  auth_union : List Nat
deriving DecidableEq, Repr

/-- Whether `memcmp(a, b, n)` is non-zero for two objects with bytes `a` and
`b`; `none` when `n` exceeds the size of one of them. -/
def memcmp_differs (a b : List Nat) (n : Nat) : Option Bool :=
  if n ≤ a.length ∧ n ≤ b.length then some (decide (a.take n ≠ b.take n)) else none

/-- The C function `nfs_compare_clientcred`; `none` as an argument is a `NULL`
pointer, `none` as a result a `memcmp` beyond the union. -/
def nfs_compare_clientcred (Y : union_layout) (cred1 cred2 : Option nfs_client_cred_t) :
    Option Bool :=
  match cred1 with
  | none => some false
  | some c1 =>
    match cred2 with
    | none => some false
    | some c2 =>
      if c1.flavor ≠ c2.flavor then some false
      else if c1.flavor = AUTH_UNIX then
        if Y.get_aup_uid c1.auth_union ≠ Y.get_aup_uid c2.auth_union then some false
        else if Y.get_aup_gid c1.auth_union ≠ Y.get_aup_gid c2.auth_union then some false
        else some true
      else
        match memcmp_differs c1.auth_union c2.auth_union c1.length with
        | none => none
        | some true => some false
        | some false => some true

/-- The C function `nfs_rpc_req2client_cred`: the returned `int` and the
object `pcred` points to after the call.  The RPCSEC_GSS case exists only when
`_HAVE_GSSAPI` is defined. -/
def nfs_rpc_req2client_cred (K : Hdr) (Y : union_layout) (req : svc_req)
    (pcred : nfs_client_cred_t) : Int × nfs_client_cred_t :=
  let p1 := { pcred with flavor := req.oa_flavor, length := req.oa_length }
  if req.oa_flavor = AUTH_NONE then
    (1, p1)
  else if req.oa_flavor = AUTH_UNIX then
    let u1 := Y.set_aup_uid p1.auth_union req.rq_clntcred.aup_uid
    let u2 := Y.set_aup_gid u1 req.rq_clntcred.aup_gid
    let u3 := Y.set_aup_time u2 req.rq_clntcred.aup_time
    (1, { p1 with auth_union := u3 })
  else if K.HAVE_GSSAPI = true ∧ req.oa_flavor = RPCSEC_GSS then
    let u1 := Y.set_svc p1.auth_union req.rq_auth.svc
    let u2 := Y.set_qop u1 req.rq_auth.qop
    let u3 := Y.set_gss_context_id u2 req.rq_auth.ctx
    (1, { p1 with auth_union := u3 })
  else
    (-1, p1)

/-! ## The states of a request context -/

/-- The states a request context goes through for one request `req`: it is
initialized by `init_credentials` on some state `s0`, and then `get_req_creds`
(for `req`, against any export, returning true or false) and
`clean_credentials` are called in any order. -/
inductive reachable (K : Hdr) (E : Env) (req : svc_req) (s0 : State) : State → Prop
  | init : reachable K E req s0 (init_credentials K s0)
  | call (s : State) (perms : export_perms_t) (b : Bool) (s1 : State) :
      reachable K E req s0 s → get_req_creds K E req perms s = some (b, s1) →
      reachable K E req s0 s1
  | clean (s : State) :
      reachable K E req s0 s → reachable K E req s0 (clean_credentials K s)

/-- The groups of a list given as a pointer `p` and a count `n`: the entries
`p[0 .. n)`, or `none` if `p` is not a live array with at least `n` entries.
A list of no groups needs no array. -/
def group_list (h : Heap) (p : Option Nat) (n : Nat) : Option (List Nat) :=
  if n = 0 then some [] else heap_block h p n

/-- The group list of the effective credentials of a state. -/
def effective_groups (s : State) : Option (List Nat) :=
  group_list s.heap s.ctx.creds.caller_garray s.ctx.creds.caller_glen

/-- What a caller of `get_req_creds` provides: the group array of an AUTH_SYS
credential holds `aup_len` entries, and so does, for its `nbgroups`, the group
array of every group data that `uid2grp` hands out. -/
def inputs_ok (E : Env) (req : svc_req) (h : Heap) : Prop :=
  (req.oa_flavor = AUTH_SYS →
    group_list h req.rq_clntcred.aup_gids req.rq_clntcred.aup_len ≠ none) ∧
  (∀ uid gd, E.uid2grp uid = some gd → group_list h gd.groups gd.nbgroups ≠ none)

/-- The flavor of the request is none of those the `switch` has a case for. -/
def unsupported (K : Hdr) (req : svc_req) : Prop :=
  req.oa_flavor ≠ AUTH_NONE ∧ req.oa_flavor ≠ AUTH_SYS ∧
    ¬ (K.HAVE_GSSAPI = true ∧ req.oa_flavor = RPCSEC_GSS)

/-- The list a copy slot holds a copy of: the client's list for
`caller_garray_copy`, the list of the cached group data for
`managed_garray_copy`. -/
def slot_source (req : svc_req) (c : req_op_context) :
    copy_slot → Option (Option Nat × Nat)
  | .caller => some (req.rq_clntcred.aup_gids, req.rq_clntcred.aup_len)
  | .managed => c.caller_gdata.map fun gd => (gd.groups, gd.nbgroups)

/-- The array at address `b` of the heap `h` is a copy of the list `(p, n)` of
the initial heap `h0`, made after initialization: it has `n` entries and
agrees with the list wherever the list is not 0. -/
def copy_ok (h0 h : Heap) (p : Option Nat) (n : Nat) (b : Nat) : Prop :=
  h0.length ≤ b ∧ ∃ C, h[b]? = some (some C) ∧ C.length = n ∧
    ∀ (L : List Nat), heap_block h0 p n = some L →
      ∀ (i g : Nat), L[i]? = some g → g ≠ 0 → C[i]? = some g

/-- Invariant of the heap and of the copy slots: the arrays that exist at
initialization are never written, each copy slot is empty or holds a copy of
its list, the two copies are distinct, and cached group data has a valid
array. -/
structure heap_inv (req : svc_req) (h0 : Heap) (s : State) : Prop where
  len : h0.length ≤ s.heap.length
  keep : ∀ a, a < h0.length → s.heap[a]? = h0[a]?
  copies : ∀ sl b, slot_get sl s.ctx = some b →
    ∃ p n, slot_source req s.ctx sl = some (p, n) ∧ copy_ok h0 s.heap p n b
  apart : ∀ a, s.ctx.caller_garray_copy = some a → s.ctx.managed_garray_copy ≠ some a
  gdata : ∀ gd, s.ctx.caller_gdata = some gd → group_list h0 gd.groups gd.nbgroups ≠ none

/-- Invariant of the request context between calls. -/
structure ctx_inv (K : Hdr) (req : svc_req) (h0 : Heap) (s : State) : Prop where
  mem : heap_inv req h0 s
  orig : req.oa_flavor = AUTH_SYS → s.ctx.cred_flags &&& K.CREDS_LOADED ≠ 0 →
    s.ctx.original_creds =
      { caller_uid := req.rq_clntcred.aup_uid, caller_gid := req.rq_clntcred.aup_gid
        caller_glen := req.rq_clntcred.aup_len, caller_garray := req.rq_clntcred.aup_gids }
  valid : effective_groups s ≠ none
  count : s.ctx.cred_flags &&& K.MANAGED_GIDS = 0 →
    s.ctx.creds.caller_glen ≤ s.ctx.original_creds.caller_glen
  unsup : unsupported K req → s.ctx.creds.caller_glen = 0

/-! ## Sample inputs -/

/-- An environment in which only uid 1000 has group data (two groups at
address 1), the principal `[114]` maps to uid 1000 and gid 100, allocation
succeeds, every export allows NFSv4 over TCP only with root squashing and
anonymous ids 65534, and the evaluator allows what is asked. -/
def sampleEnv : Env where
  principal2uid := fun gd => if gd.cname = [114] then some (1000, 100) else none
  uid2grp := fun uid => if uid = 1000 then some { nbgroups := 2, groups := some 1 } else none
  gsh_malloc := fun _ => true
  nfs_export_check_access := fun _ _ =>
    { anonymous_uid := 65534, anonymous_gid := 65534, options := 0x140 }
  nfs_export_check_security := fun _ _ _ => true
  svc_get_xprt_type := fun x => if x = 0 then .XPRT_UDP else .XPRT_TCP
  get_port := fun _ => 1000
  cache_inode_access_sw := fun _ m _ => (.CACHE_INODE_SUCCESS, m, 0)

/-- The environment `sampleEnv` with an allocator that always fails. -/
def noMemEnv : Env := { sampleEnv with gsh_malloc := fun _ => false }

/-- An AUTH_SYS request of uid `uid` and gid `gid` with `len` groups stored at
address 0, arriving over the transport with handle `xprt`. -/
def sysReq (uid gid len xprt : Nat) : svc_req where
  rq_xid := 1
  oa_flavor := AUTH_SYS
  oa_length := 32
  rq_clntcred := { aup_time := 0, aup_uid := uid, aup_gid := gid, aup_len := len
                   aup_gids := some 0 }
  rq_auth := { cname := [], svc := 0, qop := 0, ctx := 0 }
  rq_xprt := xprt

/-- A request of flavor `fl` that carries the principal `name`. -/
def gssReq (fl : Nat) (name : List Nat) : svc_req where
  rq_xid := 2
  oa_flavor := fl
  oa_length := 0
  rq_clntcred := { aup_time := 0, aup_uid := 0, aup_gid := 0, aup_len := 0
                   aup_gids := none }
  rq_auth := { cname := name, svc := 1, qop := 0, ctx := 7 }
  rq_xprt := 1

/-- A state with a freshly initialized context, the client's group list
`[5, 0, 7]` at address 0 and the group list `[0, 20]` of uid 1000 at
address 1. -/
def sampleState : State :=
  init_credentials sampleHdr
    { ctx := { creds := ⟨0, 0, 0, none⟩, original_creds := ⟨0, 0, 0, none⟩
               caller_gdata := none, caller_garray_copy := none
               managed_garray_copy := none, cred_flags := 0, caller_addr := 9 }
      heap := [some [5, 0, 7], some [0, 20]]
      uid2grp_calls := [] }

/-- Export permissions with the given options and anonymous ids 65534. -/
def samplePerms (options : Nat) : export_perms_t :=
  { anonymous_uid := 65534, anonymous_gid := 65534, options := options }

/-! ## Functions used to state the effect of the scan -/

/-- Whether one of `L[i], ..., L[i+n-1]` is 0. -/
def zero_in (L : List Nat) : Nat → Nat → Bool
  | _, 0 => false
  | i, n + 1 => (L[i]? == some 0) || zero_in L (i + 1) n

/-- The list `C` after every position `j` of `i, ..., i+n-1` with `L[j] = 0`
has been overwritten with `anon`. -/
def squash_range (anon : Nat) (L : List Nat) : List Nat → Nat → Nat → List Nat
  | C, _, 0 => C
  | C, i, n + 1 =>
    squash_range anon L (if L[i]? = some 0 then C.set i anon else C) (i + 1) n

/-! ## A sample layout of the credential union -/

/-- The four bytes at offset `off`, read as a little-endian number. -/
def rd32 (u : List Nat) (off : Nat) : Nat :=
  u.getD off 0 + 256 * u.getD (off + 1) 0 + 65536 * u.getD (off + 2) 0
    + 16777216 * u.getD (off + 3) 0

/-- The bytes after storing `v` at offset `off` as a little-endian number of
four bytes. -/
def wr32 (u : List Nat) (off v : Nat) : List Nat :=
  (((u.set off (v % 256)).set (off + 1) (v / 256 % 256)).set (off + 2)
    (v / 65536 % 256)).set (off + 3) (v / 16777216 % 256)

/-- A layout of 24 bytes with members of four bytes: `aup_time` at 0, `aup_uid`
at 8 and `aup_gid` at 12 for `auth_unix`; `svc` at 0, `qop` at 4 and the
context handle at 8 for `auth_gss`. -/
def sampleLayout : union_layout where
  size := 24
  time_bound := 4294967296
  get_aup_uid := fun u => rd32 u 8
  set_aup_uid := fun u v => wr32 u 8 v
  get_aup_gid := fun u => rd32 u 12
  set_aup_gid := fun u v => wr32 u 12 v
  get_aup_time := fun u => rd32 u 0
  set_aup_time := fun u v => wr32 u 0 v
  set_svc := fun u v => wr32 u 0 v
  set_qop := fun u v => wr32 u 4 v
  set_gss_context_id := fun u v => wr32 u 8 v

/-- A credential object whose union is 24 zero bytes. -/
def zeroCred : nfs_client_cred_t :=
  { flavor := 0, length := 0, auth_union := List.replicate 24 0 }

/-- The credential of an RPCSEC_GSS request of length `length` whose union holds
service 1, protection 0 and context handle 7, followed by the bytes `tail`
(twelve bytes that the members of `auth_gss` do not cover). -/
def gssCred (length : Nat) (tail : List Nat) : nfs_client_cred_t :=
  { flavor := RPCSEC_GSS, length := length
    auth_union := [1, 0, 0, 0, 0, 0, 0, 0, 7, 0, 0, 0] ++ tail }

/-! ## Bit masks -/

theorem mask_or_eq_zero {a b : Nat} : a ||| b = 0 ↔ a = 0 ∧ b = 0 := by
  constructor
  · intro h
    have hb : ∀ i, (a.testBit i || b.testBit i) = false := fun i => by
      rw [← Nat.testBit_or, h, Nat.zero_testBit]
    constructor <;> apply Nat.eq_of_testBit_eq <;> intro i <;> have := hb i <;> simp_all
  · rintro ⟨rfl, rfl⟩; simp

theorem mask_or_and (a b c : Nat) : (a ||| b) &&& c = (a &&& c) ||| (b &&& c) := by
  apply Nat.eq_of_testBit_eq; intro i
  simp [Bool.and_or_distrib_right]

theorem mask_and_and_zero (f : Nat) {k m : Nat} (h : k &&& m = 0) : (f &&& k) &&& m = 0 := by
  rw [Nat.and_assoc, h, Nat.and_zero]

theorem mask_or_ne_zero_left {f m : Nat} (x : Nat) (h : f &&& m ≠ 0) :
    (f ||| x) &&& m ≠ 0 := by
  rw [mask_or_and]; intro h0; exact h (mask_or_eq_zero.mp h0).1

theorem mask_or_ne_zero_right {x m : Nat} (f : Nat) (h : x &&& m ≠ 0) :
    (f ||| x) &&& m ≠ 0 := by
  rw [mask_or_and]; intro h0; exact h (mask_or_eq_zero.mp h0).2

theorem mask_or_clear {f x m : Nat} : (f ||| x) &&& m = 0 ↔ f &&& m = 0 ∧ x &&& m = 0 := by
  rw [mask_or_and]; exact mask_or_eq_zero

theorem mask_self_ne_zero {m : Nat} (h : m ≠ 0) : m &&& m ≠ 0 := by
  rwa [Nat.and_self]

/-! ## The squash-all branch -/

theorem flavor_switch_env (K : Hdr) (E E2 : Env) (req : svc_req) (perms : export_perms_t)
    (c : req_op_context) (h : E2.principal2uid = E.principal2uid) :
    flavor_switch K E2 req perms c = flavor_switch K E req perms c := by
  simp only [flavor_switch, h]

theorem resolve_creds_squash_all (K : Hdr) (E : Env) (perms : export_perms_t)
    (sl : copy_slot) (s : State) (h : squash_all K perms s.ctx) :
    resolve_creds K E perms sl s =
      some (true, { s with ctx := squash_all_creds K perms s.ctx }) := by
  simp only [resolve_creds, if_pos h]

/-- C1: whenever the flavor is supported and, after the flavor switch, the
context is anonymous, or the export is all-anonymous, or the export squashes
root and the original uid is 0, `get_req_creds` returns true with the
anonymous uid and gid, no groups, and `UID_SQUASHED` and `GID_SQUASHED` set;
the heap, the group data, the copy slots and the original credentials are
those left by the switch, `uid2grp` is not called, and the outcome is the same
under any other group lookup and allocator. -/
theorem get_req_creds_squash_all (K : Hdr) (E : Env) (req : svc_req)
    (perms : export_perms_t) (s : State) (c : req_op_context) (sl : copy_slot)
    (hU : K.UID_SQUASHED ≠ 0) (hG : K.GID_SQUASHED ≠ 0)
    (hsw : flavor_switch K E req perms (reset_flags K s).ctx = some (some (c, sl)))
    (hsq : c.cred_flags &&& K.CREDS_ANON ≠ 0 ∨
      perms.options &&& K.EXPORT_OPTION_ALL_ANONYMOUS ≠ 0 ∨
      (perms.options &&& K.EXPORT_OPTION_ROOT = 0 ∧ c.original_creds.caller_uid = 0)) :
    ∃ s1, get_req_creds K E req perms s = some (true, s1) ∧
      s1.ctx.creds.caller_uid = perms.anonymous_uid ∧
      s1.ctx.creds.caller_gid = perms.anonymous_gid ∧
      s1.ctx.creds.caller_glen = 0 ∧
      s1.ctx.cred_flags &&& K.UID_SQUASHED ≠ 0 ∧
      s1.ctx.cred_flags &&& K.GID_SQUASHED ≠ 0 ∧
      s1.uid2grp_calls = s.uid2grp_calls ∧ s1.heap = s.heap ∧
      s1.ctx.caller_gdata = c.caller_gdata ∧
      s1.ctx.caller_garray_copy = c.caller_garray_copy ∧
      s1.ctx.managed_garray_copy = c.managed_garray_copy ∧
      s1.ctx.original_creds = c.original_creds ∧
      ∀ E2 : Env, E2.principal2uid = E.principal2uid →
        get_req_creds K E2 req perms s = some (true, s1) := by
  have hres : ∀ E1 : Env, E1.principal2uid = E.principal2uid →
      get_req_creds K E1 req perms s =
        some (true, { reset_flags K s with ctx := squash_all_creds K perms c }) := by
    intro E1 hE1
    simp only [get_req_creds, flavor_switch_env K E E1 req perms _ hE1, hsw]
    exact resolve_creds_squash_all K E1 perms sl _ hsq
  refine ⟨_, hres E rfl, rfl, rfl, rfl, ?_, ?_, rfl, rfl, rfl, rfl, rfl, rfl, hres⟩
  · show (c.cred_flags ||| (K.UID_SQUASHED ||| K.GID_SQUASHED)) &&& K.UID_SQUASHED ≠ 0
    exact mask_or_ne_zero_right _ (mask_or_ne_zero_left _ (mask_self_ne_zero hU))
  · show (c.cred_flags ||| (K.UID_SQUASHED ||| K.GID_SQUASHED)) &&& K.GID_SQUASHED ≠ 0
    exact mask_or_ne_zero_right _ (mask_or_ne_zero_right _ (mask_self_ne_zero hG))

/-- Witness for C1: root over AUTH_SYS with three groups, on an export that
squashes root. -/
theorem get_req_creds_squash_all_witness :
    ∃ s1, get_req_creds sampleHdr sampleEnv (sysReq 0 0 3 1) (samplePerms 0x140) sampleState
        = some (true, s1) ∧
      s1.ctx.creds.caller_uid = 65534 ∧ s1.ctx.creds.caller_gid = 65534 ∧
      s1.ctx.creds.caller_glen = 0 ∧
      s1.ctx.cred_flags &&& sampleHdr.UID_SQUASHED ≠ 0 ∧
      s1.ctx.cred_flags &&& sampleHdr.GID_SQUASHED ≠ 0 ∧
      s1.uid2grp_calls = [] ∧ s1.heap = sampleState.heap := by
  obtain ⟨s1, h1, h2, h3, h4, h5, h6, h7, h8, _⟩ :=
    get_req_creds_squash_all sampleHdr sampleEnv (sysReq 0 0 3 1) (samplePerms 0x140)
      sampleState
      { creds := ⟨0, 0, 3, some 0⟩, original_creds := ⟨0, 0, 3, some 0⟩
        caller_gdata := none, caller_garray_copy := none, managed_garray_copy := none
        cred_flags := 1, caller_addr := 9 } .caller
      (by decide) (by decide) (by decide) (by decide)
  exact ⟨s1, h1, h2, h3, h4, h5, h6, h7, h8⟩

/-- C5: for an AUTH_NONE request, whatever the export and the prior state of
the context, `get_req_creds` returns true with `CREDS_ANON` and `CREDS_LOADED`
set, the export's anonymous uid and gid as effective ids, and no groups. -/
theorem get_req_creds_auth_none (K : Hdr) (E : Env) (req : svc_req)
    (perms : export_perms_t) (s : State)
    (hL : K.CREDS_LOADED ≠ 0) (hA : K.CREDS_ANON ≠ 0)
    (hfl : req.oa_flavor = AUTH_NONE) :
    ∃ s1, get_req_creds K E req perms s = some (true, s1) ∧
      s1.ctx.cred_flags &&& K.CREDS_ANON ≠ 0 ∧
      s1.ctx.cred_flags &&& K.CREDS_LOADED ≠ 0 ∧
      s1.ctx.creds.caller_uid = perms.anonymous_uid ∧
      s1.ctx.creds.caller_gid = perms.anonymous_gid ∧
      s1.ctx.creds.caller_glen = 0 := by
  have hsw : flavor_switch K E req perms (reset_flags K s).ctx =
      some (some (or_flags (reset_flags K s).ctx (K.CREDS_LOADED ||| K.CREDS_ANON), .caller)) := by
    simp only [flavor_switch, if_pos hfl]
  have hanon : (or_flags (reset_flags K s).ctx (K.CREDS_LOADED ||| K.CREDS_ANON)).cred_flags
      &&& K.CREDS_ANON ≠ 0 :=
    mask_or_ne_zero_right _ (mask_or_ne_zero_right _ (mask_self_ne_zero hA))
  have hload : (or_flags (reset_flags K s).ctx (K.CREDS_LOADED ||| K.CREDS_ANON)).cred_flags
      &&& K.CREDS_LOADED ≠ 0 :=
    mask_or_ne_zero_right _ (mask_or_ne_zero_left _ (mask_self_ne_zero hL))
  refine ⟨{ reset_flags K s with
      ctx := (squash_all_creds K perms
        (or_flags (reset_flags K s).ctx (K.CREDS_LOADED ||| K.CREDS_ANON))) },
    ?_, ?_, ?_, rfl, rfl, rfl⟩
  · simp only [get_req_creds, hsw]
    exact resolve_creds_squash_all K E perms _ _ (Or.inl hanon)
  · exact mask_or_ne_zero_left _ hanon
  · exact mask_or_ne_zero_left _ hload

/-- Witness for C5: an AUTH_NONE request on the sample state. -/
theorem get_req_creds_auth_none_witness :
    ∃ s1, get_req_creds sampleHdr sampleEnv (gssReq AUTH_NONE []) (samplePerms 0x141)
        sampleState = some (true, s1) ∧
      s1.ctx.cred_flags &&& sampleHdr.CREDS_ANON ≠ 0 ∧
      s1.ctx.cred_flags &&& sampleHdr.CREDS_LOADED ≠ 0 ∧
      s1.ctx.creds.caller_uid = 65534 ∧ s1.ctx.creds.caller_gid = 65534 ∧
      s1.ctx.creds.caller_glen = 0 :=
  get_req_creds_auth_none sampleHdr sampleEnv (gssReq AUTH_NONE []) (samplePerms 0x141)
    sampleState (by decide) (by decide) rfl

/-! ## The scan of the working group list -/

@[simp] theorem slot_get_slot_set (sl : copy_slot) (c : req_op_context) (p : Option Nat) :
    slot_get sl (slot_set sl c p) = p := by cases sl <;> rfl

@[simp] theorem slot_set_creds (sl : copy_slot) (c : req_op_context) (p : Option Nat) :
    (slot_set sl c p).creds = c.creds := by cases sl <;> rfl

@[simp] theorem slot_set_cred_flags (sl : copy_slot) (c : req_op_context) (p : Option Nat) :
    (slot_set sl c p).cred_flags = c.cred_flags := by cases sl <;> rfl

@[simp] theorem slot_get_or_flags (sl : copy_slot) (c : req_op_context) (m : Nat) :
    slot_get sl (or_flags c m) = slot_get sl c := by cases sl <;> rfl

@[simp] theorem or_flags_creds (c : req_op_context) (m : Nat) :
    (or_flags c m).creds = c.creds := rfl

@[simp] theorem or_flags_cred_flags (c : req_op_context) (m : Nat) :
    (or_flags c m).cred_flags = c.cred_flags ||| m := rfl

theorem or_flags_idem (c : req_op_context) (m : Nat) :
    or_flags (or_flags c m) m = or_flags c m := by
  simp only [or_flags, Nat.or_assoc, Nat.or_self]

theorem list_set_same {α : Type} (l : List α) (b : Nat) (x : α) (h : l[b]? = some x) :
    l.set b x = l := by
  apply List.ext_getElem?
  intro i
  by_cases hi : b = i
  · subst hi
    rw [List.getElem?_set_self (by
      rcases Nat.lt_or_ge b l.length with hlt | hge
      · exact hlt
      · rw [List.getElem?_eq_none hge] at h; cases h), h]
  · rw [List.getElem?_set_ne hi]

theorem list_lt_of_getElem? {α : Type} {l : List α} {b : Nat} {x : α} (h : l[b]? = some x) :
    b < l.length := by
  rcases Nat.lt_or_ge b l.length with hlt | hge
  · exact hlt
  · rw [List.getElem?_eq_none hge] at h; cases h

theorem heap_read_cell {h : Heap} {a : Nat} {L : List Nat} (ha : h[a]? = some (some L))
    (i : Nat) : heap_read h (some a) i = L[i]? := by
  simp only [heap_read, ha]

theorem heap_write_cell {h : Heap} {b : Nat} {C : List Nat} (hb : h[b]? = some (some C))
    {i : Nat} (hi : i < C.length) (v : Nat) :
    heap_write h (some b) i v = some (h.set b (some (C.set i v))) := by
  simp only [heap_write, hb, if_pos hi]

theorem heap_block_cell {h : Heap} {a : Nat} {L : List Nat} (ha : h[a]? = some (some L))
    {n : Nat} (hn : n ≤ L.length) : heap_block h (some a) n = some (L.take n) := by
  simp only [heap_block, ha, if_pos hn]

/-- The scan when `*garray_copy` already points to an array `C` other than
the working list `L`: it returns true, the copy becomes `squash_range`, and
`GARRAY_SQUASHED` is set when a zero was met. -/
theorem garray_scan_copy (K : Hdr) (E : Env) (perms : export_perms_t) (sl : copy_slot)
    (a b : Nat) (L : List Nat) (hab : a ≠ b) :
    ∀ (n i : Nat) (s : State) (C : List Nat),
      s.ctx.creds.caller_garray = some a → slot_get sl s.ctx = some b →
      s.heap[a]? = some (some L) → s.heap[b]? = some (some C) →
      i + n ≤ L.length → i + n ≤ C.length →
      garray_scan K E perms sl n i s = some (true,
        { s with
          heap := s.heap.set b (some (squash_range perms.anonymous_gid L C i n))
          ctx := if zero_in L i n = true then or_flags s.ctx K.GARRAY_SQUASHED else s.ctx })
  | 0, i, s, C, _, _, _, hb, _, _ => by
    simp only [garray_scan, squash_range, zero_in, Bool.false_eq_true, if_false,
      list_set_same _ _ _ hb]
  | n + 1, i, s, C, hg, hsl, ha, hb, hL, hC => by
    have hiL : i < L.length := by omega
    have hiC : i < C.length := by omega
    have hblt : b < s.heap.length := list_lt_of_getElem? hb
    rw [garray_scan, hg, heap_read_cell ha, List.getElem?_eq_getElem hiL]
    by_cases hz : L[i] = 0
    · have hz2 : L[i]? = some 0 := by rw [List.getElem?_eq_getElem hiL, hz]
      simp only [hz, if_true, ensure_copy, hsl, heap_write_cell hb hiC]
      have ih := garray_scan_copy K E perms sl a b L hab n (i + 1)
        { s with heap := s.heap.set b (some (C.set i perms.anonymous_gid))
                 ctx := or_flags s.ctx K.GARRAY_SQUASHED }
        (C.set i perms.anonymous_gid) hg (by simpa using hsl)
        (by show (s.heap.set b _)[a]? = _; rw [List.getElem?_set_ne (Ne.symm hab)]; exact ha)
        (by show (s.heap.set b _)[b]? = _; rw [List.getElem?_set_self hblt])
        (by omega) (by rw [List.length_set]; omega)
      rw [ih]
      simp only [squash_range, zero_in, hz2, if_true, beq_self_eq_true, Bool.true_or,
        List.set_set, or_flags_idem, ite_self]
    · have hz2 : L[i]? ≠ some 0 := by
        rw [List.getElem?_eq_getElem hiL]; intro h; exact hz (Option.some.inj h)
      simp only [hz, if_false]
      rw [garray_scan_copy K E perms sl a b L hab n (i + 1) s C hg hsl ha hb
        (by omega) (by omega)]
      simp [squash_range, zero_in, hz2]

/-- The scan when `*garray_copy` is `NULL` and allocation succeeds: nothing
changes if no zero is met; otherwise a new array holding `squash_range` of
the working list is appended to the heap, `*garray_copy` points to it and
`GARRAY_SQUASHED` is set. -/
theorem garray_scan_fresh (K : Hdr) (E : Env) (perms : export_perms_t) (sl : copy_slot)
    (a : Nat) (L : List Nat) :
    ∀ (n i : Nat) (s : State),
      s.ctx.creds.caller_garray = some a → slot_get sl s.ctx = none →
      s.heap[a]? = some (some L) → s.ctx.creds.caller_glen ≤ L.length →
      i + n ≤ s.ctx.creds.caller_glen →
      E.gsh_malloc (s.ctx.creds.caller_glen * 4) = true →
      garray_scan K E perms sl n i s = some (true,
        if zero_in L i n = true then
          { s with
            heap := s.heap ++ [some (squash_range perms.anonymous_gid L
              (L.take s.ctx.creds.caller_glen) i n)]
            ctx := or_flags (slot_set sl s.ctx (some s.heap.length)) K.GARRAY_SQUASHED }
        else s)
  | 0, i, s, _, _, _, _, _, _ => by
    simp only [garray_scan, zero_in, Bool.false_eq_true, if_false]
  | n + 1, i, s, hg, hsl, ha, hlen, hi, hm => by
    have hiL : i < L.length := by omega
    have halt : a < s.heap.length := list_lt_of_getElem? ha
    rw [garray_scan, hg, heap_read_cell ha, List.getElem?_eq_getElem hiL]
    by_cases hz : L[i] = 0
    · have hz2 : L[i]? = some 0 := by rw [List.getElem?_eq_getElem hiL, hz]
      have hT : (L.take s.ctx.creds.caller_glen).length = s.ctx.creds.caller_glen := by
        rw [List.length_take]; omega
      have hcell : (s.heap ++ [some (L.take s.ctx.creds.caller_glen)])[s.heap.length]? =
          some (some (L.take s.ctx.creds.caller_glen)) := by simp
      simp only [hz, if_true, ensure_copy, hsl, hm, hg, heap_block_cell ha hlen,
        slot_get_slot_set, heap_write_cell hcell (show i < _ by rw [hT]; omega)]
      have ih := garray_scan_copy K E perms sl a s.heap.length L (Nat.ne_of_lt halt) n (i + 1)
        { s with
          heap := (s.heap ++ [some (L.take s.ctx.creds.caller_glen)]).set s.heap.length
            (some ((L.take s.ctx.creds.caller_glen).set i perms.anonymous_gid))
          ctx := or_flags (slot_set sl s.ctx (some s.heap.length)) K.GARRAY_SQUASHED }
        ((L.take s.ctx.creds.caller_glen).set i perms.anonymous_gid)
        (by simpa using hg) (by simp)
        (by
          show ((s.heap ++ _).set _ _)[a]? = _
          rw [List.getElem?_set_ne (Ne.symm (Nat.ne_of_lt halt)),
            List.getElem?_append_left halt]; exact ha)
        (by simp) (by omega) (by rw [List.length_set, hT]; omega)
      rw [ih]
      simp only [squash_range, zero_in, hz2, if_true, beq_self_eq_true, Bool.true_or,
        List.set_set, or_flags_idem, ite_self]
      simp
    · have hz2 : L[i]? ≠ some 0 := by
        rw [List.getElem?_eq_getElem hiL]; intro h; exact hz (Option.some.inj h)
      simp only [hz, if_false]
      rw [garray_scan_fresh K E perms sl a L n (i + 1) s hg hsl ha hlen (by omega) hm]
      simp [squash_range, zero_in, hz2]

theorem zero_in_iff (L : List Nat) : ∀ (n i : Nat),
    zero_in L i n = true ↔ ∃ j, i ≤ j ∧ j < i + n ∧ L[j]? = some 0
  | 0, i => by
    simp only [zero_in, Bool.false_eq_true, false_iff]
    rintro ⟨j, h1, h2, _⟩; omega
  | n + 1, i => by
    simp only [zero_in, Bool.or_eq_true, beq_iff_eq, zero_in_iff L n (i + 1)]
    constructor
    · rintro (h | ⟨j, h1, h2, h3⟩)
      · exact ⟨i, Nat.le_refl _, by omega, h⟩
      · exact ⟨j, by omega, by omega, h3⟩
    · rintro ⟨j, h1, h2, h3⟩
      by_cases hj : j = i
      · subst hj; exact Or.inl h3
      · exact Or.inr ⟨j, by omega, by omega, h3⟩

theorem squash_range_getElem? (anon : Nat) (L : List Nat) : ∀ (n : Nat) (C : List Nat) (i j : Nat),
    (squash_range anon L C i n)[j]? =
      if i ≤ j ∧ j < i + n ∧ L[j]? = some 0 then (C[j]?).map (fun _ => anon) else C[j]?
  | 0, C, i, j => by
    have : ¬ (i ≤ j ∧ j < i + 0 ∧ L[j]? = some 0) := by rintro ⟨h1, h2, _⟩; omega
    simp only [squash_range, if_neg this]
  | n + 1, C, i, j => by
    rw [squash_range, squash_range_getElem? anon L n _ (i + 1) j]
    by_cases hj : i = j
    · subst hj
      have h1 : ¬ (i + 1 ≤ i ∧ i < i + 1 + n ∧ L[i]? = some 0) := by rintro ⟨h, _⟩; omega
      rw [if_neg h1]
      by_cases hz : L[i]? = some 0
      · rw [if_pos hz, if_pos ⟨Nat.le_refl _, by omega, hz⟩, List.getElem?_set]
        by_cases hlt : i < C.length
        · simp [hlt, List.getElem?_eq_getElem hlt]
        · simp [hlt, List.getElem?_eq_none (Nat.le_of_not_lt hlt)]
      · rw [if_neg hz, if_neg (by rintro ⟨_, _, h⟩; exact hz h)]
    · have hset : (if L[i]? = some 0 then C.set i anon else C)[j]? = C[j]? := by
        split
        · rw [List.getElem?_set_ne hj]
        · rfl
      rw [hset]
      by_cases hc : i + 1 ≤ j ∧ j < i + 1 + n ∧ L[j]? = some 0
      · rw [if_pos hc, if_pos ⟨by omega, by omega, hc.2.2⟩]
      · rw [if_neg hc, if_neg (by rintro ⟨h1, h2, h3⟩; exact hc ⟨by omega, by omega, h3⟩)]

/-- Squashing the whole of a copy of the first `n` entries of `L` replaces
each 0 by `anon` and keeps every other entry. -/
theorem squash_range_take (anon : Nat) (L : List Nat) (n : Nat) :
    squash_range anon L (L.take n) 0 n = (L.take n).map (fun g => if g = 0 then anon else g) := by
  apply List.ext_getElem?
  intro j
  rw [squash_range_getElem?, List.getElem?_map, List.getElem?_take]
  by_cases hj : j < n
  · simp only [hj, if_true, Nat.zero_le, Nat.zero_add, true_and]
    cases hL : L[j]? with
    | none => simp
    | some g =>
      by_cases hg : g = 0
      · subst hg; simp
      · simp [hg]
  · simp [hj]

theorem zero_in_take (L : List Nat) (n : Nat) (h : 0 ∈ L.take n) : zero_in L 0 n = true := by
  rw [zero_in_iff]
  obtain ⟨j, hj⟩ := List.mem_iff_getElem?.mp h
  rw [List.getElem?_take] at hj
  by_cases hlt : j < n
  · rw [if_pos hlt] at hj
    exact ⟨j, Nat.zero_le _, by omega, hj⟩
  · rw [if_neg hlt] at hj; cases hj

theorem heap_block_inv {h : Heap} {p : Option Nat} {n : Nat} {l : List Nat}
    (hb : heap_block h p n = some l) :
    ∃ a L, p = some a ∧ h[a]? = some (some L) ∧ n ≤ L.length ∧ l = L.take n := by
  cases p with
  | none => simp [heap_block] at hb
  | some a =>
    simp only [heap_block] at hb
    split at hb
    · rename_i L hL
      by_cases hn : n ≤ L.length
      · rw [if_pos hn] at hb
        exact ⟨a, L, rfl, hL, hn, (Option.some.inj hb).symm⟩
      · rw [if_neg hn] at hb; cases hb
    · cases hb

/-- The context left by the switch for an AUTH_SYS request on a freshly
initialized context, when the export does not manage gids. -/
theorem flavor_switch_sys_fresh (K : Hdr) (E : Env) (req : svc_req) (perms : export_perms_t)
    (s : State) (hfl : req.oa_flavor = AUTH_SYS)
    (hman : perms.options &&& K.EXPORT_OPTION_MANAGE_GIDS = 0) :
    flavor_switch K E req perms (reset_flags K (init_credentials K s)).ctx =
      some (some ({ (init_credentials K s).ctx with
        creds := ⟨req.rq_clntcred.aup_uid, req.rq_clntcred.aup_gid,
          req.rq_clntcred.aup_len, req.rq_clntcred.aup_gids⟩
        original_creds := ⟨req.rq_clntcred.aup_uid, req.rq_clntcred.aup_gid,
          req.rq_clntcred.aup_len, req.rq_clntcred.aup_gids⟩
        cred_flags := K.CREDS_LOADED }, .caller)) := by
  simp [flavor_switch, hfl, AUTH_SYS, AUTH_NONE, reset_flags, init_credentials, or_flags, hman]

/-- Amended C2: for an AUTH_SYS credential with non-zero uid and gid whose
group list holds a 0, resolved on a freshly initialized context against an
export without root access, all-anonymous or managed gids, and provided the
allocation of the copy succeeds: `get_req_creds` returns true, the effective
group list is a new array of the original length in which each 0 is replaced
by the anonymous gid and every other entry is kept, `GARRAY_SQUASHED` is set,
`UID_SQUASHED` and `GID_SQUASHED` are clear, the effective uid and gid are
the original ones, and the client's array is unchanged. -/
theorem get_req_creds_garray_squash (K : Hdr) (E : Env) (req : svc_req)
    (perms : export_perms_t) (s : State) (gids : List Nat)
    (hK : K.cred_flags_ok)
    (hfl : req.oa_flavor = AUTH_SYS)
    (huid : req.rq_clntcred.aup_uid ≠ 0) (hgid : req.rq_clntcred.aup_gid ≠ 0)
    (hmem : heap_block s.heap req.rq_clntcred.aup_gids req.rq_clntcred.aup_len = some gids)
    (hzero : 0 ∈ gids)
    (hroot : perms.options &&& K.EXPORT_OPTION_ROOT = 0)
    (hall : perms.options &&& K.EXPORT_OPTION_ALL_ANONYMOUS = 0)
    (hman : perms.options &&& K.EXPORT_OPTION_MANAGE_GIDS = 0)
    (hmalloc : E.gsh_malloc (req.rq_clntcred.aup_len * 4) = true) :
    ∃ s1, get_req_creds K E req perms (init_credentials K s) = some (true, s1) ∧
      s1.ctx.creds.caller_glen = req.rq_clntcred.aup_len ∧
      heap_block s1.heap s1.ctx.creds.caller_garray req.rq_clntcred.aup_len =
        some (gids.map fun g => if g = 0 then perms.anonymous_gid else g) ∧
      s1.ctx.cred_flags &&& K.GARRAY_SQUASHED ≠ 0 ∧
      s1.ctx.cred_flags &&& K.UID_SQUASHED = 0 ∧
      s1.ctx.cred_flags &&& K.GID_SQUASHED = 0 ∧
      s1.ctx.creds.caller_uid = req.rq_clntcred.aup_uid ∧
      s1.ctx.creds.caller_gid = req.rq_clntcred.aup_gid ∧
      heap_block s1.heap req.rq_clntcred.aup_gids req.rq_clntcred.aup_len = some gids ∧
      s1.ctx.creds.caller_garray = some s.heap.length ∧
      s1.heap = s.heap ++ [some (gids.map fun g => if g = 0 then perms.anonymous_gid else g)] := by
  obtain ⟨hL0, hA0, hU0, hG0, hGA0, hM0, hLA, hLU, hLG, hLGA, hLM, hAU, hAG, hAGA, hAM,
    hUG, hUGA, hUM, hGGA, hGM, hGAM⟩ := hK
  obtain ⟨a, L, hp, ha, hlen, hgids⟩ := heap_block_inv hmem
  have halt : a < s.heap.length := list_lt_of_getElem? ha
  have hn0 : req.rq_clntcred.aup_len ≠ 0 := by
    intro h0; rw [hgids, h0] at hzero; simp at hzero
  have hzin : zero_in L 0 req.rq_clntcred.aup_len = true := zero_in_take L _ (hgids ▸ hzero)
  have hsw : flavor_switch K E req perms (reset_flags K (init_credentials K s)).ctx =
      some (some (({
        creds := ⟨req.rq_clntcred.aup_uid, req.rq_clntcred.aup_gid,
          req.rq_clntcred.aup_len, some a⟩,
        original_creds := ⟨req.rq_clntcred.aup_uid, req.rq_clntcred.aup_gid,
          req.rq_clntcred.aup_len, some a⟩,
        caller_gdata := none, caller_garray_copy := none, managed_garray_copy := none,
        cred_flags := K.CREDS_LOADED, caller_addr := s.ctx.caller_addr } : req_op_context), .caller)) := by
    rw [flavor_switch_sys_fresh K E req perms s hfl hman, hp]; rfl
  have hsq : ¬ squash_all K perms ({
        creds := ⟨req.rq_clntcred.aup_uid, req.rq_clntcred.aup_gid,
          req.rq_clntcred.aup_len, some a⟩,
        original_creds := ⟨req.rq_clntcred.aup_uid, req.rq_clntcred.aup_gid,
          req.rq_clntcred.aup_len, some a⟩,
        caller_gdata := none, caller_garray_copy := none, managed_garray_copy := none,
        cred_flags := K.CREDS_LOADED, caller_addr := s.ctx.caller_addr } : req_op_context) := by
    simp [squash_all, hLA, hall, huid]
  have hscan := garray_scan_fresh K E perms .caller a L req.rq_clntcred.aup_len 0
    { ctx := ({
        creds := ⟨req.rq_clntcred.aup_uid, req.rq_clntcred.aup_gid,
          req.rq_clntcred.aup_len, some a⟩,
        original_creds := ⟨req.rq_clntcred.aup_uid, req.rq_clntcred.aup_gid,
          req.rq_clntcred.aup_len, some a⟩,
        caller_gdata := none, caller_garray_copy := none, managed_garray_copy := none,
        cred_flags := K.CREDS_LOADED, caller_addr := s.ctx.caller_addr } : req_op_context)
      heap := s.heap, uid2grp_calls := s.uid2grp_calls }
    rfl rfl ha hlen (by simp) hmalloc
  rw [if_pos hzin] at hscan
  have hcall : get_req_creds K E req perms (init_credentials K s) = some (true,
      { ctx :=
          { creds := ⟨req.rq_clntcred.aup_uid, req.rq_clntcred.aup_gid,
              req.rq_clntcred.aup_len, some s.heap.length⟩
            original_creds := ⟨req.rq_clntcred.aup_uid, req.rq_clntcred.aup_gid,
              req.rq_clntcred.aup_len, some a⟩
            caller_gdata := none
            caller_garray_copy := some s.heap.length
            managed_garray_copy := none
            cred_flags := K.CREDS_LOADED ||| K.GARRAY_SQUASHED
            caller_addr := s.ctx.caller_addr }
        heap := s.heap ++ [some (squash_range perms.anonymous_gid L
          (L.take req.rq_clntcred.aup_len) 0 req.rq_clntcred.aup_len)]
        uid2grp_calls := s.uid2grp_calls }) := by
    rw [get_req_creds, hsw]
    simp only [resolve_creds, if_neg hsq, squash_gid, hroot, hgid, and_false, if_false,
      select_groups, hLM, ne_eq, not_true_eq_false, squash_garray, hn0, or_self]
    simp only [reset_flags, init_credentials] at hscan ⊢
    rw [hscan]
    simp only [or_flags_cred_flags, slot_set_cred_flags, mask_or_and, Nat.and_self]
    rw [if_pos (by intro h; exact hGA0 (mask_or_eq_zero.mp h).2)]
    rfl
  refine ⟨_, hcall, rfl, ?_, ?_, ?_, ?_, rfl, rfl, ?_, rfl, ?_⟩
  · show heap_block (s.heap ++ [some (squash_range _ L (L.take _) 0 _)]) (some s.heap.length) _ = _
    rw [squash_range_take, ← hgids]
    simp [heap_block, ← hgids, hgids ▸ (List.length_take_of_le hlen)]
  · exact mask_or_ne_zero_right _ (mask_self_ne_zero hGA0)
  · exact mask_or_clear.mpr ⟨hLU, by rw [Nat.and_comm]; exact hUGA⟩
  · exact mask_or_clear.mpr ⟨hLG, by rw [Nat.and_comm]; exact hGGA⟩
  · rw [hp]; simp [heap_block, List.getElem?_append_left halt, ha, hlen, hgids]
  · show s.heap ++ [some (squash_range _ L (L.take _) 0 _)] = _
    rw [squash_range_take, ← hgids]

/-- Witness for the amended C2: uid 1000, gid 100 and the groups `[5, 0, 7]`
on the sample state. -/
theorem get_req_creds_garray_squash_witness :
    ∃ s1, get_req_creds sampleHdr sampleEnv (sysReq 1000 100 3 1) (samplePerms 0x140)
        (init_credentials sampleHdr sampleState) = some (true, s1) ∧
      s1.ctx.creds.caller_glen = 3 ∧
      heap_block s1.heap s1.ctx.creds.caller_garray 3 = some [5, 65534, 7] ∧
      s1.ctx.cred_flags &&& sampleHdr.GARRAY_SQUASHED ≠ 0 ∧
      s1.ctx.cred_flags &&& sampleHdr.UID_SQUASHED = 0 ∧
      s1.ctx.cred_flags &&& sampleHdr.GID_SQUASHED = 0 ∧
      s1.ctx.creds.caller_uid = 1000 ∧ s1.ctx.creds.caller_gid = 100 ∧
      heap_block s1.heap (some 0) 3 = some [5, 0, 7] := by
  obtain ⟨s1, h1, h2, h3, h4, h5, h6, h7, h8, h9, _⟩ :=
    get_req_creds_garray_squash sampleHdr sampleEnv (sysReq 1000 100 3 1) (samplePerms 0x140)
      sampleState [5, 0, 7] (by decide) rfl (by decide) (by decide) (by decide) (by decide)
      (by decide) (by decide) (by decide) rfl
  exact ⟨s1, h1, h2, h3, h4, h5, h6, h7, h8, h9⟩

/-- Counterexample to C2 as stated: the same credential, export and fresh
context, with an allocator that fails.  The premises of the claim hold and
`get_req_creds` returns false, with `GARRAY_SQUASHED` clear and the effective
group list still the client's array with its 0 entry. -/
theorem get_req_creds_garray_squash_no_memory :
    (sysReq 1000 100 3 1).oa_flavor = AUTH_SYS ∧
    heap_block sampleState.heap (sysReq 1000 100 3 1).rq_clntcred.aup_gids 3 = some [5, 0, 7] ∧
    (samplePerms 0x140).options &&& sampleHdr.EXPORT_OPTION_ROOT = 0 ∧
    (samplePerms 0x140).options &&& sampleHdr.EXPORT_OPTION_ALL_ANONYMOUS = 0 ∧
    (samplePerms 0x140).options &&& sampleHdr.EXPORT_OPTION_MANAGE_GIDS = 0 ∧
    ∃ s1, get_req_creds sampleHdr noMemEnv (sysReq 1000 100 3 1) (samplePerms 0x140)
        (init_credentials sampleHdr sampleState) = some (false, s1) ∧
      s1.ctx.cred_flags &&& sampleHdr.GARRAY_SQUASHED = 0 ∧
      heap_block s1.heap s1.ctx.creds.caller_garray 3 = some [5, 0, 7] :=
  ⟨rfl, by decide, by decide, by decide, by decide, _, rfl, by decide, by decide⟩

/-! ## The path without squashing of the group list -/

/-- The switch leaves the copy slots and the group data alone, and changes no
flag other than `CREDS_LOADED`, `CREDS_ANON` and `MANAGED_GIDS`. -/
theorem flavor_switch_frame (K : Hdr) (E : Env) (req : svc_req) (perms : export_perms_t)
    (c0 c : req_op_context) (sl : copy_slot)
    (h : flavor_switch K E req perms c0 = some (some (c, sl))) :
    c.caller_garray_copy = c0.caller_garray_copy ∧
    c.managed_garray_copy = c0.managed_garray_copy ∧
    c.caller_gdata = c0.caller_gdata ∧
    ∀ m, K.CREDS_LOADED &&& m = 0 → K.CREDS_ANON &&& m = 0 → K.MANAGED_GIDS &&& m = 0 →
      c.cred_flags &&& m = c0.cred_flags &&& m := by
  unfold flavor_switch at h
  split_ifs at h
  all_goals first
    | cases h
    | (split at h <;> cases h)
  all_goals
    refine ⟨rfl, rfl, rfl, ?_⟩
    intro m hL hA hM
    simp [or_flags, mask_or_and, hL, hA, hM]

/-- What `select_groups` does when it succeeds: the effective list is the
working list, and nothing else of the context or the heap changes. -/
theorem select_groups_true (K : Hdr) (E : Env) (s s2 : State)
    (h : select_groups K E s = (true, s2)) :
    working_groups K E s.ctx = some (s2.ctx.creds.caller_glen, s2.ctx.creds.caller_garray) ∧
    s2.heap = s.heap ∧ s2.ctx.cred_flags = s.ctx.cred_flags ∧
    s2.ctx.caller_garray_copy = s.ctx.caller_garray_copy ∧
    s2.ctx.managed_garray_copy = s.ctx.managed_garray_copy ∧
    s2.ctx.original_creds = s.ctx.original_creds ∧
    s2.ctx.creds.caller_uid = s.ctx.creds.caller_uid ∧
    s2.ctx.creds.caller_gid = s.ctx.creds.caller_gid := by
  unfold select_groups at h
  unfold working_groups
  by_cases hm : s.ctx.cred_flags &&& K.MANAGED_GIDS ≠ 0
  · rw [if_pos hm] at h ⊢
    cases hgd : s.ctx.caller_gdata with
    | some gd =>
      simp only [hgd, Prod.mk.injEq, true_and] at h
      subst h; exact ⟨rfl, rfl, rfl, rfl, rfl, rfl, rfl, rfl⟩
    | none =>
      simp only [hgd] at h
      cases hu : E.uid2grp s.ctx.original_creds.caller_uid with
      | none => simp [hu] at h
      | some gd =>
        simp only [hu, Prod.mk.injEq, true_and] at h
        subst h; exact ⟨rfl, rfl, rfl, rfl, rfl, rfl, rfl, rfl⟩
  · rw [if_neg hm] at h ⊢
    simp only [Prod.mk.injEq, true_and] at h
    subst h; exact ⟨rfl, rfl, rfl, rfl, rfl, rfl, rfl, rfl⟩

/-- A scan that meets no zero returns true and changes nothing. -/
theorem garray_scan_no_zero (K : Hdr) (E : Env) (perms : export_perms_t) (sl : copy_slot) :
    ∀ (n i : Nat) (s : State) (r : Bool × State),
      (∀ j, i ≤ j → j < i + n → heap_read s.heap s.ctx.creds.caller_garray j ≠ some 0) →
      garray_scan K E perms sl n i s = some r → r = (true, s)
  | 0, i, s, r, _, h => by
    simp only [garray_scan, Option.some.injEq] at h; exact h.symm
  | n + 1, i, s, r, hz, h => by
    rw [garray_scan] at h
    cases hr : heap_read s.heap s.ctx.creds.caller_garray i with
    | none => simp [hr] at h
    | some g =>
      have hg : g ≠ 0 := by
        intro h0; exact hz i (Nat.le_refl _) (by omega) (by rw [hr, h0])
      simp only [hr, hg, if_false] at h
      exact garray_scan_no_zero K E perms sl n (i + 1) s r
        (fun j h1 h2 => hz j (by omega) (by omega)) h

theorem squash_gid_frame (K : Hdr) (perms : export_perms_t) (c : req_op_context) :
    (squash_gid K perms c).original_creds = c.original_creds ∧
    (squash_gid K perms c).caller_gdata = c.caller_gdata ∧
    (squash_gid K perms c).caller_garray_copy = c.caller_garray_copy ∧
    (squash_gid K perms c).managed_garray_copy = c.managed_garray_copy ∧
    ((squash_gid K perms c).cred_flags = c.cred_flags ∨
      (squash_gid K perms c).cred_flags = c.cred_flags ||| K.GID_SQUASHED) := by
  by_cases h : perms.options &&& K.EXPORT_OPTION_ROOT = 0 ∧ c.original_creds.caller_gid = 0
  · simp [squash_gid, h, or_flags]
  · simp [squash_gid, h]

theorem squash_gid_flags_and (K : Hdr) (perms : export_perms_t) (c : req_op_context)
    (m : Nat) (hm : K.GID_SQUASHED &&& m = 0) :
    (squash_gid K perms c).cred_flags &&& m = c.cred_flags &&& m := by
  rcases (squash_gid_frame K perms c).2.2.2.2 with h | h
  · rw [h]
  · rw [h, mask_or_and, hm, Nat.or_zero]

theorem working_groups_squash_gid (K : Hdr) (E : Env) (perms : export_perms_t)
    (c : req_op_context) (hGM : K.GID_SQUASHED &&& K.MANAGED_GIDS = 0) :
    working_groups K E (squash_gid K perms c) = working_groups K E c := by
  obtain ⟨h1, h2, _, _, _⟩ := squash_gid_frame K perms c
  simp only [working_groups, h1, h2, squash_gid_flags_and K perms c _ hGM]

/-- C3: when a successful `get_req_creds` does not take the squash-all branch
and the export allows root or the working group list holds no 0, then
`GARRAY_SQUASHED` is clear, the effective group list is the working list
itself (same pointer, same count), both copy slots are as before the call,
and the heap is unchanged. -/
theorem get_req_creds_no_squash (K : Hdr) (E : Env) (req : svc_req)
    (perms : export_perms_t) (s s1 : State) (c : req_op_context) (sl : copy_slot)
    (n : Nat) (p : Option Nat)
    (hK : K.cred_flags_ok)
    (hcall : get_req_creds K E req perms s = some (true, s1))
    (hsw : flavor_switch K E req perms (reset_flags K s).ctx = some (some (c, sl)))
    (hns : ¬ squash_all K perms c)
    (hwg : working_groups K E c = some (n, p))
    (hz : perms.options &&& K.EXPORT_OPTION_ROOT ≠ 0 ∨
      ∀ i, i < n → heap_read s.heap p i ≠ some 0) :
    s1.ctx.cred_flags &&& K.GARRAY_SQUASHED = 0 ∧
    s1.ctx.creds.caller_garray = p ∧ s1.ctx.creds.caller_glen = n ∧
    s1.ctx.caller_garray_copy = s.ctx.caller_garray_copy ∧
    s1.ctx.managed_garray_copy = s.ctx.managed_garray_copy ∧
    s1.heap = s.heap := by
  obtain ⟨hL0, hA0, hU0, hG0, hGA0, hM0, hLA, hLU, hLG, hLGA, hLM, hAU, hAG, hAGA, hAM,
    hUG, hUGA, hUM, hGGA, hGM, hGAM⟩ := hK
  obtain ⟨hcc0, hmc0, _, hfl0⟩ := flavor_switch_frame K E req perms _ c sl hsw
  have hcG : c.cred_flags &&& K.GARRAY_SQUASHED = 0 := by
    rw [hfl0 _ hLGA hAGA (by rw [Nat.and_comm]; exact hGAM)]
    exact mask_and_and_zero _ (mask_or_clear.mpr ⟨hLGA, hAGA⟩)
  simp only [get_req_creds, hsw, resolve_creds, if_neg hns] at hcall
  cases hsel : select_groups K E { reset_flags K s with ctx := squash_gid K perms c } with
  | mk b s2 =>
    rw [hsel] at hcall
    cases b with
    | false => simp at hcall
    | true =>
      simp only at hcall
      obtain ⟨hw, hheap, hfl, hcc, hmc, _, _, _⟩ := select_groups_true K E _ _ hsel
      obtain ⟨_, _, hcc1, hmc1, _⟩ := squash_gid_frame K perms c
      have hw2 : (n, p) = (s2.ctx.creds.caller_glen, s2.ctx.creds.caller_garray) := by
        have := hw
        simp only at this
        rw [working_groups_squash_gid K E perms c hGM, hwg] at this
        exact Option.some.inj this
      have hn : s2.ctx.creds.caller_glen = n := (congrArg Prod.fst hw2).symm
      have hp : s2.ctx.creds.caller_garray = p := (congrArg Prod.snd hw2).symm
      have hs2G : s2.ctx.cred_flags &&& K.GARRAY_SQUASHED = 0 := by
        rw [hfl]; show (squash_gid K perms c).cred_flags &&& _ = 0
        rw [squash_gid_flags_and K perms c _ hGGA]; exact hcG
      have hfin : s1 = s2 := by
        unfold squash_garray at hcall
        by_cases hr : perms.options &&& K.EXPORT_OPTION_ROOT ≠ 0 ∨ s2.ctx.creds.caller_glen = 0
        · rw [if_pos hr] at hcall
          exact ((Prod.mk.inj (Option.some.inj hcall)).2).symm
        · rw [if_neg hr] at hcall
          have hnz : ∀ j, 0 ≤ j → j < 0 + s2.ctx.creds.caller_glen →
              heap_read s2.heap s2.ctx.creds.caller_garray j ≠ some 0 := by
            intro j _ hj
            rcases hz with hz | hz
            · exact absurd (Or.inl hz) hr
            · rw [hheap, hp]; exact hz j (by omega)
          cases hsc : garray_scan K E perms sl s2.ctx.creds.caller_glen 0 s2 with
          | none => simp [hsc] at hcall
          | some r =>
            have hr2 := garray_scan_no_zero K E perms sl _ 0 s2 r hnz hsc
            subst hr2
            simp only [hsc, hs2G, ne_eq, not_true_eq_false, if_false] at hcall
            exact ((Prod.mk.inj (Option.some.inj hcall)).2).symm
      subst hfin
      refine ⟨hs2G, hp, hn, ?_, ?_, hheap⟩
      · rw [hcc]; show (squash_gid K perms c).caller_garray_copy = _
        rw [hcc1, hcc0]; rfl
      · rw [hmc]; show (squash_gid K perms c).managed_garray_copy = _
        rw [hmc1, hmc0]; rfl

/-- Witness for C3: uid 1000 with the groups `[5, 0, 7]` on an export that
allows root; the effective list is the client's array at address 0. -/
theorem get_req_creds_no_squash_witness :
    ∃ s1, get_req_creds sampleHdr sampleEnv (sysReq 1000 100 3 1) (samplePerms 0x141)
        sampleState = some (true, s1) ∧
      s1.ctx.cred_flags &&& sampleHdr.GARRAY_SQUASHED = 0 ∧
      s1.ctx.creds.caller_garray = some 0 ∧ s1.ctx.creds.caller_glen = 3 ∧
      s1.ctx.caller_garray_copy = none ∧ s1.ctx.managed_garray_copy = none ∧
      s1.heap = sampleState.heap :=
  ⟨_, rfl, get_req_creds_no_squash sampleHdr sampleEnv (sysReq 1000 100 3 1)
    (samplePerms 0x141) sampleState _
    { creds := ⟨1000, 100, 3, some 0⟩, original_creds := ⟨1000, 100, 3, some 0⟩,
      caller_gdata := none, caller_garray_copy := none, managed_garray_copy := none,
      cred_flags := 1, caller_addr := 9 } .caller 3 (some 0)
    (by decide) rfl (by decide) (by decide) (by decide) (Or.inl (by decide))⟩

/-! ## `nfs4_MakeCred` -/

/-- C6: a request over UDP against an export whose permissions have the NFSv4
and TCP bits but not the UDP bit is answered with `NFS4ERR_ACCESS`, and the
state (request context, heap, record of group lookups) is exactly the one
before the call: `get_req_creds` is not run. -/
theorem nfs4_MakeCred_udp_denied (K : Hdr) (E : Env) (data : compound_data_t) (s : State)
    (hudp : E.svc_get_xprt_type data.req.rq_xprt = .XPRT_UDP)
    (hv4 : (E.nfs_export_check_access s.ctx.caller_addr data.export_ref).options
      &&& K.EXPORT_OPTION_NFSV4 ≠ 0)
    (_htcp : (E.nfs_export_check_access s.ctx.caller_addr data.export_ref).options
      &&& K.EXPORT_OPTION_TCP ≠ 0)
    (hnoudp : (E.nfs_export_check_access s.ctx.caller_addr data.export_ref).options
      &&& K.EXPORT_OPTION_UDP = 0) :
    nfs4_MakeCred K E data s = some (NFS4ERR_ACCESS,
      { data with
        export_perms := E.nfs_export_check_access s.ctx.caller_addr data.export_ref }, s) := by
  simp only [nfs4_MakeCred, if_neg hv4, hudp, hnoudp, and_self, true_or, if_true]

/-- Witness for C6: a UDP request (transport handle 0) on the sample
environment, whose exports allow NFSv4 over TCP only. -/
theorem nfs4_MakeCred_udp_denied_witness :
    nfs4_MakeCred sampleHdr sampleEnv
        { req := sysReq 1000 100 3 0, export_ref := 1, export_perms := samplePerms 0 }
        sampleState =
      some (NFS4ERR_ACCESS,
        { req := sysReq 1000 100 3 0, export_ref := 1, export_perms := samplePerms 0x140 },
        sampleState) :=
  nfs4_MakeCred_udp_denied sampleHdr sampleEnv
    { req := sysReq 1000 100 3 0, export_ref := 1, export_perms := samplePerms 0 }
    sampleState rfl (by decide) (by decide) (by decide)

/-- C7: the complete decision of `nfs4_MakeCred`.  It returns `NFS4_OK`
exactly when the NFSv4 bit is set, the transport is allowed, the port check
passes, the flavor check accepts and `get_req_creds` returns true;
`NFS4ERR_WRONGSEC` exactly when the first three checks pass and the flavor
check fails; `NFS4ERR_ACCESS` exactly when one of the first three checks fails
or all four pass and `get_req_creds` returns false.  Whenever one of the four
checks fails the state is the one before the call, so `get_req_creds` was not
run.  No result at all arises only from a memory fault inside
`get_req_creds`. -/
theorem nfs4_MakeCred_decision (K : Hdr) (E : Env) (data : compound_data_t) (s : State) :
    let perms := E.nfs_export_check_access s.ctx.caller_addr data.export_ref
    let xt := E.svc_get_xprt_type data.req.rq_xprt
    let v4 := perms.options &&& K.EXPORT_OPTION_NFSV4 ≠ 0
    let transport := ¬ ((xt = .XPRT_UDP ∧ perms.options &&& K.EXPORT_OPTION_UDP = 0) ∨
      (xt = .XPRT_TCP ∧ perms.options &&& K.EXPORT_OPTION_TCP = 0))
    let port := perms.options &&& K.EXPORT_OPTION_PRIVILEGED_PORT = 0 ∨
      E.get_port s.ctx.caller_addr < IPPORT_RESERVED
    let flavor := E.nfs_export_check_security data.req perms data.export_ref = true
    ((∃ d s1, nfs4_MakeCred K E data s = some (NFS4_OK, d, s1)) ↔
      v4 ∧ transport ∧ port ∧ flavor ∧
        ∃ s1, get_req_creds K E data.req perms s = some (true, s1)) ∧
    ((∃ d s1, nfs4_MakeCred K E data s = some (NFS4ERR_WRONGSEC, d, s1)) ↔
      v4 ∧ transport ∧ port ∧ ¬ flavor) ∧
    ((∃ d s1, nfs4_MakeCred K E data s = some (NFS4ERR_ACCESS, d, s1)) ↔
      ¬ v4 ∨ ¬ transport ∨ ¬ port ∨
        (flavor ∧ ∃ s1, get_req_creds K E data.req perms s = some (false, s1))) ∧
    (¬ (v4 ∧ transport ∧ port ∧ flavor) →
      ∃ code, nfs4_MakeCred K E data s = some (code, { data with export_perms := perms }, s)) ∧
    (nfs4_MakeCred K E data s = none ↔
      v4 ∧ transport ∧ port ∧ flavor ∧ get_req_creds K E data.req perms s = none) := by
  intro perms xt v4 transport port flavor
  by_cases h1 : perms.options &&& K.EXPORT_OPTION_NFSV4 = 0
  · simp [nfs4_MakeCred, perms, v4, h1, NFS4_OK, NFS4ERR_ACCESS, NFS4ERR_WRONGSEC]
  by_cases h2 : (xt = .XPRT_UDP ∧ perms.options &&& K.EXPORT_OPTION_UDP = 0) ∨
      (xt = .XPRT_TCP ∧ perms.options &&& K.EXPORT_OPTION_TCP = 0)
  · simp only [nfs4_MakeCred, perms, xt, v4, transport] at h1 h2 ⊢
    simp [h1, h2, NFS4_OK, NFS4ERR_ACCESS, NFS4ERR_WRONGSEC]
  by_cases h3 : perms.options &&& K.EXPORT_OPTION_PRIVILEGED_PORT ≠ 0 ∧
      E.get_port s.ctx.caller_addr ≥ IPPORT_RESERVED
  · have h3n : ¬ port := by
      simp only [port]; rintro (h | h)
      · exact h3.1 h
      · exact absurd h3.2 (not_le.mpr h)
    simp only [nfs4_MakeCred, perms, xt, v4, transport] at h1 h2 h3 h3n ⊢
    simp [h1, h2, h3, h3n, NFS4_OK, NFS4ERR_ACCESS, NFS4ERR_WRONGSEC]
  have h3p : port := by
    simp only [port]
    by_cases hp : perms.options &&& K.EXPORT_OPTION_PRIVILEGED_PORT = 0
    · exact Or.inl hp
    · exact Or.inr (lt_of_not_le fun hge => h3 ⟨hp, hge⟩)
  by_cases h4 : E.nfs_export_check_security data.req perms data.export_ref = false
  · simp only [nfs4_MakeCred, perms, xt, v4, transport, port, flavor] at h1 h2 h3 h3p h4 ⊢
    simp [h1, h2, h3, h3p, h4, NFS4_OK, NFS4ERR_ACCESS, NFS4ERR_WRONGSEC]
  have h4t : E.nfs_export_check_security data.req perms data.export_ref = true := by
    cases h : E.nfs_export_check_security data.req perms data.export_ref
    · exact absurd h h4
    · rfl
  simp only [nfs4_MakeCred, perms, xt, v4, transport, port, flavor] at h1 h2 h3 h3p h4 h4t ⊢
  cases hg : get_req_creds K E data.req
      (E.nfs_export_check_access s.ctx.caller_addr data.export_ref) s with
  | none => simp [h1, h2, h3, h3p, h4t, hg]
  | some r =>
    obtain ⟨b, s1⟩ := r
    cases b <;>
      simp [h1, h2, h3, h3p, h4t, hg, NFS4_OK, NFS4ERR_ACCESS, NFS4ERR_WRONGSEC]

/-! ## `nfs_access_op` -/

theorem mask_and_subset {a r : Nat} (n : Nat) (h : a &&& r = a) : (a &&& n) &&& r = a &&& n := by
  rw [Nat.and_assoc, Nat.and_comm n r, ← Nat.and_assoc, h]

theorem mask_and_keep (r : Nat) {k m : Nat} (h : k &&& m = m) : (r &&& k) &&& m = r &&& m := by
  rw [Nat.and_assoc, h]

theorem mask_and_full32 {r : Nat} (h : r < 4294967296) : r &&& 4294967295 = r := by
  have h2 : r < 2 ^ 32 := h
  exact Nat.and_pow_two_sub_one_of_lt_two_pow h2

/-- The adjusted requested mask is a subset of the requested mask. -/
theorem granted_mask_of_subset (entry : cache_entry_t) (requested_access : Nat) :
    granted_mask_of entry requested_access &&& requested_access =
      granted_mask_of entry requested_access := by
  unfold granted_mask_of
  simp only
  split_ifs <;>
    first
    | exact Nat.and_self _
    | exact mask_and_subset _ (Nat.and_self _)
    | exact mask_and_subset _ (mask_and_subset _ (Nat.and_self _))
    | exact mask_and_subset _ (mask_and_subset _ (mask_and_subset _ (Nat.and_self _)))

/-- When the evaluator answers success or access-denied, the granted bits are
the collected bits masked with the adjusted requested mask, and that mask is
stored through a non-null `supported_access`. -/
theorem nfs_access_op_answered (K : Hdr) (E : Env) (entry : cache_entry_t)
    (requested_access : Nat) (supported_access : Option Nat) (req_ctx : req_op_context)
    (hst : (nfs_access_op K E entry requested_access supported_access req_ctx).status
        = .CACHE_INODE_SUCCESS ∨
      (nfs_access_op K E entry requested_access supported_access req_ctx).status
        = .CACHE_INODE_FSAL_EACCESS) :
    (nfs_access_op K E entry requested_access supported_access req_ctx).granted_access =
      granted_bits K entry
        (E.cache_inode_access_sw entry (access_mask_of K entry requested_access) req_ctx).2.1
        &&& granted_mask_of entry requested_access ∧
    (nfs_access_op K E entry requested_access supported_access req_ctx).supported_access =
      supported_access.map (fun _ => granted_mask_of entry requested_access) := by
  simp only [nfs_access_op] at hst ⊢
  by_cases hok :
      (E.cache_inode_access_sw entry (access_mask_of K entry requested_access) req_ctx).1
        = .CACHE_INODE_SUCCESS ∨
      (E.cache_inode_access_sw entry (access_mask_of K entry requested_access) req_ctx).1
        = .CACHE_INODE_FSAL_EACCESS
  · rw [if_pos hok]
    exact ⟨rfl, rfl⟩
  · rw [if_neg hok] at hst
    exact absurd hst hok

/-- C8: when the evaluator returns `CACHE_INODE_SUCCESS` or
`CACHE_INODE_FSAL_EACCESS`, every granted bit is in the adjusted requested
mask, that mask is what is stored through a non-null `supported_access`, and
every bit of it is in `requested_access`. -/
theorem nfs_access_op_granted_subset (K : Hdr) (E : Env) (entry : cache_entry_t)
    (requested_access : Nat) (supported_access : Option Nat) (req_ctx : req_op_context)
    (hst : (nfs_access_op K E entry requested_access supported_access req_ctx).status
        = .CACHE_INODE_SUCCESS ∨
      (nfs_access_op K E entry requested_access supported_access req_ctx).status
        = .CACHE_INODE_FSAL_EACCESS) :
    (nfs_access_op K E entry requested_access supported_access req_ctx).granted_access
        &&& granted_mask_of entry requested_access =
      (nfs_access_op K E entry requested_access supported_access req_ctx).granted_access ∧
    (nfs_access_op K E entry requested_access supported_access req_ctx).supported_access =
      supported_access.map (fun _ => granted_mask_of entry requested_access) ∧
    granted_mask_of entry requested_access &&& requested_access =
      granted_mask_of entry requested_access ∧
    (nfs_access_op K E entry requested_access supported_access req_ctx).granted_access
        &&& requested_access =
      (nfs_access_op K E entry requested_access supported_access req_ctx).granted_access := by
  obtain ⟨hg, hs⟩ :=
    nfs_access_op_answered K E entry requested_access supported_access req_ctx hst
  refine ⟨?_, hs, granted_mask_of_subset _ _, ?_⟩
  · rw [hg, Nat.and_assoc, Nat.and_self]
  · rw [hg, Nat.and_assoc, granted_mask_of_subset]

/-- Witness for C8: all six bits requested on a regular file, the evaluator
allowing everything it is asked. -/
theorem nfs_access_op_granted_subset_witness :
    (nfs_access_op sampleHdr sampleEnv ⟨2, .NOT_DIRECTORY 1⟩ 0x3F (some 0)
        sampleState.ctx).granted_access &&& granted_mask_of ⟨2, .NOT_DIRECTORY 1⟩ 0x3F =
      (nfs_access_op sampleHdr sampleEnv ⟨2, .NOT_DIRECTORY 1⟩ 0x3F (some 0)
        sampleState.ctx).granted_access ∧
    (nfs_access_op sampleHdr sampleEnv ⟨2, .NOT_DIRECTORY 1⟩ 0x3F (some 0)
        sampleState.ctx).supported_access =
      (some 0).map (fun _ => granted_mask_of ⟨2, .NOT_DIRECTORY 1⟩ 0x3F) ∧
    granted_mask_of ⟨2, .NOT_DIRECTORY 1⟩ 0x3F &&& 0x3F =
      granted_mask_of ⟨2, .NOT_DIRECTORY 1⟩ 0x3F ∧
    (nfs_access_op sampleHdr sampleEnv ⟨2, .NOT_DIRECTORY 1⟩ 0x3F (some 0)
        sampleState.ctx).granted_access &&& 0x3F =
      (nfs_access_op sampleHdr sampleEnv ⟨2, .NOT_DIRECTORY 1⟩ 0x3F (some 0)
        sampleState.ctx).granted_access :=
  nfs_access_op_granted_subset sampleHdr sampleEnv ⟨2, .NOT_DIRECTORY 1⟩ 0x3F (some 0)
    sampleState.ctx (Or.inl rfl)

/-- On a non-directory the adjusted requested mask of a 32-bit request is the
request with `LOOKUP` and `DELETE` cleared. -/
theorem granted_mask_of_non_directory (entry : cache_entry_t) (requested_access : Nat)
    (hnd : entry.type ≠ .DIRECTORY) (hr : requested_access < 4294967296) :
    granted_mask_of entry requested_access =
      requested_access &&& not32 (ACCESS3_LOOKUP ||| ACCESS3_DELETE) := by
  have hfull := mask_and_full32 hr
  have e1 : not32 ACCESS3_LOOKUP &&& not32 ACCESS3_DELETE =
      not32 (ACCESS3_LOOKUP ||| ACCESS3_DELETE) := by decide
  have e2 : not32 ACCESS3_LOOKUP = not32 (ACCESS3_LOOKUP ||| ACCESS3_DELETE) ||| ACCESS3_DELETE := by
    decide
  have e3 : not32 ACCESS3_DELETE = not32 (ACCESS3_LOOKUP ||| ACCESS3_DELETE) ||| ACCESS3_LOOKUP := by
    decide
  have e4 : (4294967295 : Nat) =
      not32 (ACCESS3_LOOKUP ||| ACCESS3_DELETE) ||| ACCESS3_LOOKUP ||| ACCESS3_DELETE := by decide
  simp only [granted_mask_of, hnd, ne_eq, not_false_eq_true, and_true, and_false, if_false]
  by_cases hl : requested_access &&& ACCESS3_LOOKUP = 0 <;>
    by_cases hd : requested_access &&& ACCESS3_DELETE = 0
  · simp only [hl, hd, not_true_eq_false, if_false]
    conv_lhs => rw [← hfull, e4]
    rw [Nat.and_or_distrib_left, Nat.and_or_distrib_left, hl, hd, Nat.or_zero, Nat.or_zero]
  · simp only [hl, hd, not_true_eq_false, not_false_eq_true, if_false, if_true]
    rw [e3, Nat.and_or_distrib_left, hl, Nat.or_zero]
  · simp only [hl, hd, not_true_eq_false, not_false_eq_true, if_false, if_true]
    rw [e2, Nat.and_or_distrib_left, hd, Nat.or_zero]
  · simp only [hl, hd, not_false_eq_true, if_true]
    rw [Nat.and_assoc, e1]

/-- C9: on a non-directory, for a 32-bit request, the adjusted requested mask
(stored through `supported_access` when the evaluator answers success or
access-denied) is the request without `LOOKUP` and `DELETE`; the mask handed
to the evaluator is the one computed for the request with those two bits
cleared; and the granted bits never hold `LOOKUP` or `DELETE`. -/
theorem nfs_access_op_non_directory (K : Hdr) (E : Env) (entry : cache_entry_t)
    (requested_access : Nat) (supported_access : Option Nat) (req_ctx : req_op_context)
    (hnd : entry.type ≠ .DIRECTORY) (hr : requested_access < 4294967296) :
    granted_mask_of entry requested_access =
      requested_access &&& not32 (ACCESS3_LOOKUP ||| ACCESS3_DELETE) ∧
    granted_mask_of entry requested_access &&& ACCESS3_LOOKUP = 0 ∧
    granted_mask_of entry requested_access &&& ACCESS3_DELETE = 0 ∧
    access_mask_of K entry requested_access =
      access_mask_of K entry (requested_access &&& not32 (ACCESS3_LOOKUP ||| ACCESS3_DELETE)) ∧
    (nfs_access_op K E entry requested_access supported_access req_ctx).granted_access
      &&& ACCESS3_LOOKUP = 0 ∧
    (nfs_access_op K E entry requested_access supported_access req_ctx).granted_access
      &&& ACCESS3_DELETE = 0 ∧
    (((nfs_access_op K E entry requested_access supported_access req_ctx).status
          = .CACHE_INODE_SUCCESS ∨
        (nfs_access_op K E entry requested_access supported_access req_ctx).status
          = .CACHE_INODE_FSAL_EACCESS) →
      (nfs_access_op K E entry requested_access supported_access req_ctx).supported_access =
        supported_access.map (fun _ =>
          requested_access &&& not32 (ACCESS3_LOOKUP ||| ACCESS3_DELETE))) := by
  have hgm := granted_mask_of_non_directory entry requested_access hnd hr
  have hL : granted_mask_of entry requested_access &&& ACCESS3_LOOKUP = 0 := by
    rw [hgm]; exact mask_and_and_zero _ (by decide)
  have hD : granted_mask_of entry requested_access &&& ACCESS3_DELETE = 0 := by
    rw [hgm]; exact mask_and_and_zero _ (by decide)
  have hgr : ∀ m, granted_mask_of entry requested_access &&& m = 0 →
      (nfs_access_op K E entry requested_access supported_access req_ctx).granted_access
        &&& m = 0 := by
    intro m hm
    simp only [nfs_access_op]
    split_ifs
    · show (_ &&& _) &&& m = 0
      rw [Nat.and_assoc, hm, Nat.and_zero]
    · exact Nat.zero_and _
  refine ⟨hgm, hL, hD, ?_, hgr _ hL, hgr _ hD, ?_⟩
  · have k1 := mask_and_keep requested_access
      (show not32 (ACCESS3_LOOKUP ||| ACCESS3_DELETE) &&& ACCESS3_READ = ACCESS3_READ by decide)
    have k2 := mask_and_keep requested_access
      (show not32 (ACCESS3_LOOKUP ||| ACCESS3_DELETE) &&& ACCESS3_MODIFY = ACCESS3_MODIFY by decide)
    have k3 := mask_and_keep requested_access
      (show not32 (ACCESS3_LOOKUP ||| ACCESS3_DELETE) &&& ACCESS3_EXTEND = ACCESS3_EXTEND by decide)
    have k4 := mask_and_keep requested_access
      (show not32 (ACCESS3_LOOKUP ||| ACCESS3_DELETE) &&& ACCESS3_EXECUTE = ACCESS3_EXECUTE by decide)
    simp only [access_mask_of, hnd, and_false, if_false, k1, k2, k3, k4]
  · intro hst
    rw [← hgm]
    exact (nfs_access_op_answered K E entry requested_access supported_access req_ctx hst).2

/-- Witness for C9: all six bits requested on a regular file. -/
theorem nfs_access_op_non_directory_witness :
    granted_mask_of ⟨2, .NOT_DIRECTORY 1⟩ 0x3F = 0x2D ∧
    access_mask_of sampleHdr ⟨2, .NOT_DIRECTORY 1⟩ 0x3F =
      access_mask_of sampleHdr ⟨2, .NOT_DIRECTORY 1⟩ 0x2D ∧
    (nfs_access_op sampleHdr sampleEnv ⟨2, .NOT_DIRECTORY 1⟩ 0x3F (some 0)
      sampleState.ctx).granted_access &&& ACCESS3_LOOKUP = 0 ∧
    (nfs_access_op sampleHdr sampleEnv ⟨2, .NOT_DIRECTORY 1⟩ 0x3F (some 0)
      sampleState.ctx).granted_access &&& ACCESS3_DELETE = 0 := by
  obtain ⟨h1, _, _, h4, h5, h6, _⟩ :=
    nfs_access_op_non_directory sampleHdr sampleEnv ⟨2, .NOT_DIRECTORY 1⟩ 0x3F (some 0)
      sampleState.ctx (by decide) (by decide)
  exact ⟨h1, h4, h5, h6⟩

/-- Counterexample to C10 as stated: for `requested = {EXECUTE}` on a directory
the mask handed to the evaluator is 0, so it holds no execute permission, and
on a non-directory the adjusted requested mask still holds `EXECUTE`. -/
theorem access_execute_as_stated_fails :
    access_mask_of sampleHdr ⟨1, .DIRECTORY⟩ ACCESS3_EXECUTE = 0 ∧
    access_mask_of sampleHdr ⟨1, .DIRECTORY⟩ ACCESS3_EXECUTE &&& sampleHdr.FSAL_X_OK = 0 ∧
    access_mask_of sampleHdr ⟨1, .DIRECTORY⟩ ACCESS3_EXECUTE
      &&& sampleHdr.FSAL_ACE_PERM_EXECUTE = 0 ∧
    sampleHdr.FSAL_X_OK ≠ 0 ∧ sampleHdr.FSAL_ACE_PERM_EXECUTE ≠ 0 ∧
    granted_mask_of ⟨2, .NOT_DIRECTORY 1⟩ ACCESS3_EXECUTE = ACCESS3_EXECUTE ∧
    granted_mask_of ⟨2, .NOT_DIRECTORY 1⟩ ACCESS3_EXECUTE ≠ 0 := by
  decide

/-- Amended C10: for `requested = {EXECUTE}` on a non-directory the mask
handed to the evaluator holds `FSAL_X_OK` and `FSAL_ACE_PERM_EXECUTE` and the
adjusted requested mask is still `{EXECUTE}`; on a directory `EXECUTE` is
dropped from the adjusted requested mask, which becomes empty, and the mask
handed to the evaluator is 0. -/
theorem access_execute_translation (K : Hdr) (id n : Nat) :
    access_mask_of K ⟨id, .NOT_DIRECTORY n⟩ ACCESS3_EXECUTE
        &&& (K.FSAL_X_OK ||| K.FSAL_ACE_PERM_EXECUTE) =
      K.FSAL_X_OK ||| K.FSAL_ACE_PERM_EXECUTE ∧
    granted_mask_of ⟨id, .NOT_DIRECTORY n⟩ ACCESS3_EXECUTE = ACCESS3_EXECUTE ∧
    granted_mask_of ⟨id, .DIRECTORY⟩ ACCESS3_EXECUTE = 0 ∧
    access_mask_of K ⟨id, .DIRECTORY⟩ ACCESS3_EXECUTE = 0 := by
  refine ⟨?_, rfl, ?_, ?_⟩
  · have h1 : ACCESS3_EXECUTE &&& ACCESS3_READ = 0 := by decide
    have h2 : ACCESS3_EXECUTE &&& ACCESS3_LOOKUP = 0 := by decide
    have h3 : ACCESS3_EXECUTE &&& ACCESS3_MODIFY = 0 := by decide
    have h4 : ACCESS3_EXECUTE &&& ACCESS3_EXTEND = 0 := by decide
    have h5 : ACCESS3_EXECUTE &&& ACCESS3_DELETE = 0 := by decide
    have h6 : ACCESS3_EXECUTE &&& ACCESS3_EXECUTE ≠ 0 := by decide
    simp only [access_mask_of, h1, h2, h3, h4, h5, h6, ne_eq, not_true_eq_false,
      not_false_eq_true, false_and, true_and, if_false, if_true, Nat.zero_or, reduceCtorEq]
    split_ifs
    · exact Nat.and_self _
    · rw [mask_or_and, Nat.and_self]
      apply Nat.eq_of_testBit_eq; intro i
      simp only [Nat.testBit_or, Nat.testBit_and]
      cases (K.FSAL_X_OK.testBit i) <;> cases (K.FSAL_ACE_PERM_EXECUTE.testBit i) <;> simp
  · have h2 : ACCESS3_EXECUTE &&& ACCESS3_LOOKUP = 0 := by decide
    have h5 : ACCESS3_EXECUTE &&& ACCESS3_DELETE = 0 := by decide
    have h6 : ACCESS3_EXECUTE &&& not32 ACCESS3_EXECUTE = 0 := by decide
    simp [granted_mask_of, h2, h5, h6]
  · have h1 : ACCESS3_EXECUTE &&& ACCESS3_READ = 0 := by decide
    have h2 : ACCESS3_EXECUTE &&& ACCESS3_LOOKUP = 0 := by decide
    have h3 : ACCESS3_EXECUTE &&& ACCESS3_MODIFY = 0 := by decide
    have h4 : ACCESS3_EXECUTE &&& ACCESS3_EXTEND = 0 := by decide
    have h5 : ACCESS3_EXECUTE &&& ACCESS3_DELETE = 0 := by decide
    simp [access_mask_of, h1, h2, h3, h4, h5]

/-! ## Two calls in succession -/

/-- C4, at the input where the code departs from it: an RPCSEC_GSS request
whose principal has no mapping, resolved twice on a freshly initialized
context.  Both calls return true with the same effective identity, but the
first leaves `MANAGED_GIDS` clear (the failed mapping leaves the switch before
the flag is set) and the second sets it (`CREDS_LOADED` skips the mapping),
so the two flag sets differ. -/
theorem get_req_creds_twice_gss_unmapped :
    sampleEnv.principal2uid (gssReq RPCSEC_GSS [120]).rq_auth = none ∧
    ∃ s1 s2,
      get_req_creds sampleHdr sampleEnv (gssReq RPCSEC_GSS [120]) (samplePerms 0x140)
        (init_credentials sampleHdr sampleState) = some (true, s1) ∧
      get_req_creds sampleHdr sampleEnv (gssReq RPCSEC_GSS [120]) (samplePerms 0x140) s1
        = some (true, s2) ∧
      s2.ctx.creds = s1.ctx.creds ∧
      s1.ctx.cred_flags = 0x0F ∧ s2.ctx.cred_flags = 0x2F ∧
      s1.ctx.cred_flags &&& sampleHdr.MANAGED_GIDS = 0 ∧
      s2.ctx.cred_flags &&& sampleHdr.MANAGED_GIDS ≠ 0 ∧
      s2.ctx.cred_flags ≠ s1.ctx.cred_flags :=
  ⟨rfl, _, _, rfl, rfl, rfl, rfl, rfl, by decide, by decide, by decide⟩

/-! ## A second call with the same arguments -/

theorem mask_absorb_or (x y : Nat) : (x ||| y) &&& x = x := by
  apply Nat.eq_of_testBit_eq; intro i
  simp only [Nat.testBit_and, Nat.testBit_or]
  cases x.testBit i <;> cases y.testBit i <;> rfl

theorem mask_absorb_and (f x : Nat) : (f &&& x) ||| x = x := by
  apply Nat.eq_of_testBit_eq; intro i
  simp only [Nat.testBit_and, Nat.testBit_or]
  cases f.testBit i <;> cases x.testBit i <;> rfl

/-- Squashing a list that has already been squashed at the same positions
changes nothing. -/
theorem squash_range_idem (anon : Nat) (L C : List Nat) (n : Nat) :
    squash_range anon L (squash_range anon L C 0 n) 0 n = squash_range anon L C 0 n := by
  apply List.ext_getElem?
  intro j
  rw [squash_range_getElem? anon L n (squash_range anon L C 0 n) 0 j]
  by_cases hc : 0 ≤ j ∧ j < 0 + n ∧ L[j]? = some 0
  · rw [if_pos hc, squash_range_getElem?, if_pos hc]
    cases C[j]? <;> rfl
  · rw [if_neg hc]

theorem squash_range_length (anon : Nat) (L : List Nat) :
    ∀ (n : Nat) (C : List Nat) (i : Nat), (squash_range anon L C i n).length = C.length
  | 0, C, i => rfl
  | n + 1, C, i => by
    rw [squash_range, squash_range_length anon L n]
    split
    · rw [List.length_set]
    · rfl

/-- What a scan that starts with `*garray_copy` equal to `NULL` can do: leave
the state as it is (no zero met, or the allocation failed), or return true
after making the squashed copy. -/
theorem garray_scan_null (K : Hdr) (E : Env) (perms : export_perms_t) (sl : copy_slot) :
    ∀ (n i : Nat) (s : State) (b : Bool) (s1 : State),
      slot_get sl s.ctx = none → i + n ≤ s.ctx.creds.caller_glen →
      garray_scan K E perms sl n i s = some (b, s1) →
      s1 = s ∨
      (b = true ∧ ∃ a L, s.ctx.creds.caller_garray = some a ∧ s.heap[a]? = some (some L) ∧
        s.ctx.creds.caller_glen ≤ L.length ∧ zero_in L i n = true ∧
        s1 = { s with
          heap := s.heap ++ [some (squash_range perms.anonymous_gid L
            (L.take s.ctx.creds.caller_glen) i n)]
          ctx := or_flags (slot_set sl s.ctx (some s.heap.length)) K.GARRAY_SQUASHED })
  | 0, i, s, b, s1, _, _, h => by
    simp only [garray_scan, Option.some.injEq, Prod.mk.injEq] at h
    exact Or.inl h.2.symm
  | n + 1, i, s, b, s1, hsl, hi, h0 => by
    have h := h0
    rw [garray_scan] at h
    cases hr : heap_read s.heap s.ctx.creds.caller_garray i with
    | none => simp [hr] at h
    | some g =>
      simp only [hr] at h
      by_cases hg : g = 0
      · subst hg
        simp only [if_true, ensure_copy, hsl] at h
        by_cases hm : E.gsh_malloc (s.ctx.creds.caller_glen * 4) = true
        · cases hb : heap_block s.heap s.ctx.creds.caller_garray s.ctx.creds.caller_glen with
          | none => simp [hm, hb] at h
          | some l =>
            obtain ⟨a, L, hp, ha, hlen, _⟩ := heap_block_inv hb
            have hf := garray_scan_fresh K E perms sl a L (n + 1) i s hp hsl ha hlen hi hm
            have hz : zero_in L i (n + 1) = true := by
              rw [hp, heap_read_cell ha] at hr
              simp [zero_in, hr]
            rw [if_pos hz, h0] at hf
            simp only [Option.some.injEq, Prod.mk.injEq] at hf
            exact Or.inr ⟨hf.1, a, L, hp, ha, hlen, hz, hf.2⟩
        · simp only [hm, Bool.false_eq_true, if_false, Option.some.injEq, Prod.mk.injEq] at h
          exact Or.inl h.2.symm
      · simp only [hg, if_false] at h
        rcases garray_scan_null K E perms sl n (i + 1) s b s1 hsl (by omega) h with h1 | h1
        · exact Or.inl h1
        · obtain ⟨hb, a, L, hp, ha, hlen, hz, hs1⟩ := h1
          refine Or.inr ⟨hb, a, L, hp, ha, hlen, ?_, ?_⟩
          · simp [zero_in, hz]
          · rw [hs1]
            have hLi : L[i]? ≠ some 0 := by
              rw [hp, heap_read_cell ha] at hr
              rw [hr]; intro h0; exact hg (Option.some.inj h0)
            simp [squash_range, hLi]

/-- Running lines 365-406 again on the state they left, with the flags and
the effective credentials put back to what they were before the first run,
gives the same return value, the same context and the same heap, provided the
first run started with `*garray_copy` equal to `NULL` and `GARRAY_SQUASHED`
clear. -/
theorem squash_garray_again (K : Hdr) (E : Env) (perms : export_perms_t) (sl : copy_slot)
    (p : State) (b1 : Bool) (s1 : State)
    (hGA0 : K.GARRAY_SQUASHED ≠ 0)
    (hsl : slot_get sl p.ctx = none)
    (hfl : p.ctx.cred_flags &&& K.GARRAY_SQUASHED = 0)
    (h : squash_garray K E perms sl p = some (b1, s1)) :
    ∃ s2, squash_garray K E perms sl
        { s1 with ctx := { s1.ctx with
            cred_flags := p.ctx.cred_flags, creds := p.ctx.creds } } = some (b1, s2) ∧
      s2.ctx = s1.ctx ∧ s2.heap = s1.heap := by
  have h0 := h
  unfold squash_garray at h
  by_cases hr : perms.options &&& K.EXPORT_OPTION_ROOT ≠ 0 ∨ p.ctx.creds.caller_glen = 0
  · rw [if_pos hr] at h
    obtain ⟨rfl, rfl⟩ := Prod.mk.inj (Option.some.inj h)
    exact ⟨p, h0, rfl, rfl⟩
  · rw [if_neg hr] at h
    cases hsc : garray_scan K E perms sl p.ctx.creds.caller_glen 0 p with
    | none => simp [hsc] at h
    | some r =>
      obtain ⟨b, s'⟩ := r
      rcases garray_scan_null K E perms sl _ 0 p b s' hsl (by omega) hsc with hu | hc
      · subst hu
        have hs1 : b1 = b ∧ s1 = s' := by
          rw [hsc] at h
          cases b with
          | false =>
            obtain ⟨rfl, rfl⟩ := Prod.mk.inj (Option.some.inj h)
            exact ⟨rfl, rfl⟩
          | true =>
            simp only [hfl, ne_eq, not_true_eq_false, if_false] at h
            obtain ⟨rfl, rfl⟩ := Prod.mk.inj (Option.some.inj h)
            exact ⟨rfl, rfl⟩
        obtain ⟨rfl, rfl⟩ := hs1
        exact ⟨s1, h0, rfl, rfl⟩
      · obtain ⟨hb, a, L, hp, ha, hlen, hz, hs'⟩ := hc
        subst hb
        have halt : a < p.heap.length := list_lt_of_getElem? ha
        have hset : (or_flags (slot_set sl p.ctx (some p.heap.length)) K.GARRAY_SQUASHED).cred_flags
            &&& K.GARRAY_SQUASHED ≠ 0 :=
          mask_or_ne_zero_right _ (mask_self_ne_zero hGA0)
        rw [hsc, hs'] at h
        simp only [hset, ne_eq, not_false_eq_true, if_true] at h
        obtain ⟨rfl, rfl⟩ := Prod.mk.inj (Option.some.inj h)
        have hlenC : (squash_range perms.anonymous_gid L (L.take p.ctx.creds.caller_glen) 0
            p.ctx.creds.caller_glen).length = p.ctx.creds.caller_glen := by
          rw [squash_range_length, List.length_take]; omega
        have hcopy := garray_scan_copy K E perms sl a p.heap.length L (Nat.ne_of_lt halt)
          p.ctx.creds.caller_glen 0
          { p with
            heap := p.heap ++ [some (squash_range perms.anonymous_gid L
              (L.take p.ctx.creds.caller_glen) 0 p.ctx.creds.caller_glen)]
            ctx := slot_set sl p.ctx (some p.heap.length) }
          (squash_range perms.anonymous_gid L (L.take p.ctx.creds.caller_glen) 0
            p.ctx.creds.caller_glen)
          (by simpa using hp) (by simp)
          (by show (p.heap ++ _)[a]? = _; rw [List.getElem?_append_left halt]; exact ha)
          (by simp) (by omega) (by rw [hlenC]; omega)
        rw [if_pos hz, squash_range_idem, list_set_same _ _ _ (by simp)] at hcopy
        have hr2 : ¬ (perms.options &&& K.EXPORT_OPTION_ROOT ≠ 0 ∨
            p.ctx.creds.caller_glen = 0) := hr
        have hset2 : (p.ctx.cred_flags ||| K.GARRAY_SQUASHED) &&& K.GARRAY_SQUASHED ≠ 0 :=
          mask_or_ne_zero_right _ (mask_self_ne_zero hGA0)
        refine ⟨_, ?_, rfl, rfl⟩
        unfold squash_garray
        cases sl <;>
        · simp only [slot_set, slot_get, or_flags] at hcopy ⊢
          simp only [hr2, if_false, hcopy, hset2, ne_eq, not_false_eq_true, if_true]

/-- Lines 365-406 started with `*garray_copy` equal to `NULL` leave the
original credentials, the group data, the effective uid, gid and group count,
the caller address and the record of lookups as they were. -/
theorem squash_garray_frame (K : Hdr) (E : Env) (perms : export_perms_t) (sl : copy_slot)
    (p : State) (b1 : Bool) (s1 : State)
    (hsl : slot_get sl p.ctx = none)
    (h : squash_garray K E perms sl p = some (b1, s1)) :
    s1.ctx.original_creds = p.ctx.original_creds ∧
    s1.ctx.caller_gdata = p.ctx.caller_gdata ∧
    s1.ctx.caller_addr = p.ctx.caller_addr ∧
    s1.uid2grp_calls = p.uid2grp_calls := by
  unfold squash_garray at h
  by_cases hr : perms.options &&& K.EXPORT_OPTION_ROOT ≠ 0 ∨ p.ctx.creds.caller_glen = 0
  · rw [if_pos hr] at h
    obtain ⟨_, rfl⟩ := Prod.mk.inj (Option.some.inj h)
    exact ⟨rfl, rfl, rfl, rfl⟩
  · rw [if_neg hr] at h
    cases hsc : garray_scan K E perms sl p.ctx.creds.caller_glen 0 p with
    | none => simp [hsc] at h
    | some r =>
      obtain ⟨b, s'⟩ := r
      rw [hsc] at h
      have hs' : s'.ctx.original_creds = p.ctx.original_creds ∧
          s'.ctx.caller_gdata = p.ctx.caller_gdata ∧
          s'.ctx.caller_addr = p.ctx.caller_addr ∧
          s'.uid2grp_calls = p.uid2grp_calls := by
        rcases garray_scan_null K E perms sl _ 0 p b s' hsl (by omega) hsc with hu | hc
        · subst hu; exact ⟨rfl, rfl, rfl, rfl⟩
        · obtain ⟨_, a, L, _, _, _, _, rfl⟩ := hc
          cases sl <;> exact ⟨rfl, rfl, rfl, rfl⟩
      cases b with
      | false =>
        obtain ⟨_, rfl⟩ := Prod.mk.inj (Option.some.inj h)
        exact hs'
      | true =>
        simp only at h
        split_ifs at h <;>
        · obtain ⟨_, rfl⟩ := Prod.mk.inj (Option.some.inj h)
          exact hs'

/-- The result of `squash_gid` written out: only the effective uid and gid and
the flags change, and the new gid and flags are determined by the export, the
original credentials and the old flags. -/
theorem squash_gid_eq (K : Hdr) (perms : export_perms_t) (c : req_op_context) :
    squash_gid K perms c =
      { c with
        creds := { c.creds with
          caller_uid := c.original_creds.caller_uid
          caller_gid :=
            if perms.options &&& K.EXPORT_OPTION_ROOT = 0 ∧ c.original_creds.caller_gid = 0
            then perms.anonymous_gid else c.original_creds.caller_gid }
        cred_flags :=
          if perms.options &&& K.EXPORT_OPTION_ROOT = 0 ∧ c.original_creds.caller_gid = 0
          then c.cred_flags ||| K.GID_SQUASHED else c.cred_flags } := by
  by_cases h : perms.options &&& K.EXPORT_OPTION_ROOT = 0 ∧ c.original_creds.caller_gid = 0
  · simp only [squash_gid, if_pos h]; rfl
  · simp only [squash_gid, if_neg h]

/-- The three ways `select_groups` can run when no group data is cached: the
lookup fails; the lookup succeeds and its result is cached and used; or
`MANAGED_GIDS` is clear and the client's list is used. -/
theorem select_groups_cases (K : Hdr) (E : Env) (s : State) (b : Bool) (s2 : State)
    (hgd : s.ctx.caller_gdata = none)
    (h : select_groups K E s = (b, s2)) :
    (b = false ∧ s.ctx.cred_flags &&& K.MANAGED_GIDS ≠ 0 ∧
      E.uid2grp s.ctx.original_creds.caller_uid = none ∧
      s2 = { s with uid2grp_calls := s.ctx.original_creds.caller_uid :: s.uid2grp_calls }) ∨
    (b = true ∧ s.ctx.cred_flags &&& K.MANAGED_GIDS ≠ 0 ∧
      ∃ gd, E.uid2grp s.ctx.original_creds.caller_uid = some gd ∧
        s2 = { s with
          uid2grp_calls := s.ctx.original_creds.caller_uid :: s.uid2grp_calls
          ctx := { s.ctx with
            caller_gdata := some gd
            creds := { s.ctx.creds with
              caller_glen := gd.nbgroups, caller_garray := gd.groups } } }) ∨
    (b = true ∧ s.ctx.cred_flags &&& K.MANAGED_GIDS = 0 ∧
      s2 = { s with ctx := { s.ctx with creds := { s.ctx.creds with
        caller_glen := s.ctx.original_creds.caller_glen
        caller_garray := s.ctx.original_creds.caller_garray } } }) := by
  unfold select_groups at h
  by_cases hm : s.ctx.cred_flags &&& K.MANAGED_GIDS ≠ 0
  · rw [if_pos hm] at h
    simp only [hgd] at h
    cases hu : E.uid2grp s.ctx.original_creds.caller_uid with
    | none =>
      simp only [hu] at h
      obtain ⟨rfl, rfl⟩ := Prod.mk.inj h
      exact Or.inl ⟨rfl, hm, rfl, rfl⟩
    | some gd =>
      simp only [hu] at h
      obtain ⟨rfl, rfl⟩ := Prod.mk.inj h
      exact Or.inr (Or.inl ⟨rfl, hm, gd, rfl, rfl⟩)
  · rw [if_neg hm] at h
    obtain ⟨rfl, rfl⟩ := Prod.mk.inj h
    exact Or.inr (Or.inr ⟨rfl, not_not.mp hm, rfl⟩)

theorem resolve_creds_not_squash_all (K : Hdr) (E : Env) (perms : export_perms_t)
    (sl : copy_slot) (s : State) (h : ¬ squash_all K perms s.ctx) :
    resolve_creds K E perms sl s =
      match select_groups K E { s with ctx := squash_gid K perms s.ctx } with
      | (false, s1) => some (false, s1)
      | (true, s1) => squash_garray K E perms sl s1 := by
  simp only [resolve_creds, if_neg h]

/-- Running lines 304-425 again on the state they left, with the flags put
back to what they were before the first run and the effective credentials
either put back or left as the first run set them, gives the same return
value, the same context and the same heap, provided the first run started
with no group data, `*garray_copy` equal to `NULL` and `GARRAY_SQUASHED`
clear. -/
theorem resolve_creds_again (K : Hdr) (E : Env) (perms : export_perms_t) (sl : copy_slot)
    (p : State) (b1 : Bool) (s1 : State) (cr : user_cred)
    (hK : K.cred_flags_ok)
    (hsl : slot_get sl p.ctx = none) (hgd : p.ctx.caller_gdata = none)
    (hfl : p.ctx.cred_flags &&& K.GARRAY_SQUASHED = 0)
    (h : resolve_creds K E perms sl p = some (b1, s1))
    (hcr : cr = p.ctx.creds ∨ cr = s1.ctx.creds) :
    ∃ s2, resolve_creds K E perms sl
        { s1 with ctx := { s1.ctx with cred_flags := p.ctx.cred_flags, creds := cr } }
          = some (b1, s2) ∧
      s2.ctx = s1.ctx ∧ s2.heap = s1.heap := by
  obtain ⟨hL0, hA0, hU0, hG0, hGA0, hM0, hLA, hLU, hLG, hLGA, hLM, hAU, hAG, hAGA, hAM,
    hUG, hUGA, hUM, hGGA, hGM, hGAM⟩ := hK
  by_cases hsq : squash_all K perms p.ctx
  · rw [resolve_creds_squash_all K E perms sl p hsq] at h
    obtain ⟨rfl, rfl⟩ := Prod.mk.inj (Option.some.inj h)
    refine ⟨_, resolve_creds_squash_all K E perms sl _ hsq, ?_, rfl⟩
    rcases hcr with rfl | rfl <;> rfl
  · rw [resolve_creds_not_squash_all K E perms sl p hsq] at h
    have hcgsl : slot_get sl (squash_gid K perms p.ctx) = none := by
      rw [squash_gid_eq]; cases sl <;> exact hsl
    have hcgfl : (squash_gid K perms p.ctx).cred_flags &&& K.GARRAY_SQUASHED = 0 := by
      rw [squash_gid_flags_and K perms p.ctx _ hGGA]; exact hfl
    have hcggd : (squash_gid K perms p.ctx).caller_gdata = none := by
      rw [(squash_gid_frame K perms p.ctx).2.1]; exact hgd
    cases hsel : select_groups K E { p with ctx := squash_gid K perms p.ctx } with
    | mk b p2 =>
      rw [hsel] at h
      rcases select_groups_cases K E _ b p2 hcggd hsel with
        ⟨rfl, hm, hu, rfl⟩ | ⟨rfl, hm, gd, hu, rfl⟩ | ⟨rfl, hm, rfl⟩
      · -- the lookup fails
        simp only at h
        obtain ⟨rfl, rfl⟩ := Prod.mk.inj (Option.some.inj h)
        have hsq2 : ¬ squash_all K perms
            { squash_gid K perms p.ctx with cred_flags := p.ctx.cred_flags, creds := cr } := by
          unfold squash_all
          rw [show ({ squash_gid K perms p.ctx with
              cred_flags := p.ctx.cred_flags, creds := cr } : req_op_context).original_creds
            = p.ctx.original_creds from (squash_gid_frame K perms p.ctx).1]
          exact hsq
        have hcg2 : squash_gid K perms
            { squash_gid K perms p.ctx with cred_flags := p.ctx.cred_flags, creds := cr }
            = squash_gid K perms p.ctx := by
          rcases hcr with rfl | rfl
          · by_cases hc : perms.options &&& K.EXPORT_OPTION_ROOT = 0 ∧
                p.ctx.original_creds.caller_gid = 0
            · simp [squash_gid, hc, or_flags]
            · simp [squash_gid, hc]
          · by_cases hc : perms.options &&& K.EXPORT_OPTION_ROOT = 0 ∧
                p.ctx.original_creds.caller_gid = 0
            · simp [squash_gid, hc, or_flags]
            · simp [squash_gid, hc]
        refine ⟨{ p with
            ctx := squash_gid K perms p.ctx
            uid2grp_calls := p.ctx.original_creds.caller_uid ::
              p.ctx.original_creds.caller_uid :: p.uid2grp_calls }, ?_, rfl, rfl⟩
        rw [resolve_creds_not_squash_all K E perms sl _ hsq2]
        simp only [hcg2]
        have horig := (squash_gid_frame K perms p.ctx).1
        have hu2 : E.uid2grp p.ctx.original_creds.caller_uid = none := by
          rw [← horig]; exact hu
        have hm2 : (squash_gid K perms p.ctx).cred_flags &&& K.MANAGED_GIDS ≠ 0 := hm
        simp only [select_groups, hm2, hcggd, horig, hu2, ne_eq, not_false_eq_true, if_true]
      · -- the lookup succeeds
        simp only at h
        obtain ⟨s2, hs2, hctx, hheap⟩ := squash_garray_again K E perms sl _ b1 s1 hGA0
          (by cases sl <;> exact hcgsl) hcgfl h
        obtain ⟨ho, hg, _, _⟩ := squash_garray_frame K E perms sl _ b1 s1
          (by cases sl <;> exact hcgsl) h
        have horig := (squash_gid_frame K perms p.ctx).1
        have ho2 : s1.ctx.original_creds = p.ctx.original_creds := ho.trans horig
        have hg2 : s1.ctx.caller_gdata = some gd := hg
        have hsq2 : ¬ squash_all K perms
            { s1.ctx with cred_flags := p.ctx.cred_flags, creds := cr } := by
          unfold squash_all
          rw [show ({ s1.ctx with cred_flags := p.ctx.cred_flags, creds := cr }
            : req_op_context).original_creds = p.ctx.original_creds from ho2]
          exact hsq
        refine ⟨s2, ?_, hctx, hheap⟩
        rw [resolve_creds_not_squash_all K E perms sl _ hsq2, ← hs2]
        have hm2 : (squash_gid K perms p.ctx).cred_flags &&& K.MANAGED_GIDS ≠ 0 := hm
        have hsel2 : select_groups K E { s1 with ctx := (squash_gid K perms
              { s1.ctx with cred_flags := p.ctx.cred_flags, creds := cr }) } =
            (true, { s1 with ctx := { s1.ctx with
              cred_flags := (squash_gid K perms p.ctx).cred_flags
              creds := { (squash_gid K perms p.ctx).creds with
                caller_glen := gd.nbgroups, caller_garray := gd.groups } } }) := by
          rw [squash_gid_eq] at hm2 ⊢
          rw [squash_gid_eq K perms p.ctx]
          simp only [select_groups, ho2, hg2] at hm2 ⊢
          simp only [hm2, ne_eq, not_false_eq_true, if_true]
        simp only [hsel2]
      · -- the client's list is used
        simp only at h
        obtain ⟨s2, hs2, hctx, hheap⟩ := squash_garray_again K E perms sl _ b1 s1 hGA0
          (by cases sl <;> exact hcgsl) hcgfl h
        obtain ⟨ho, _, _, _⟩ := squash_garray_frame K E perms sl _ b1 s1
          (by cases sl <;> exact hcgsl) h
        have horig := (squash_gid_frame K perms p.ctx).1
        have ho2 : s1.ctx.original_creds = p.ctx.original_creds := ho.trans horig
        have hsq2 : ¬ squash_all K perms
            { s1.ctx with cred_flags := p.ctx.cred_flags, creds := cr } := by
          unfold squash_all
          rw [show ({ s1.ctx with cred_flags := p.ctx.cred_flags, creds := cr }
            : req_op_context).original_creds = p.ctx.original_creds from ho2]
          exact hsq
        refine ⟨s2, ?_, hctx, hheap⟩
        rw [resolve_creds_not_squash_all K E perms sl _ hsq2, ← hs2]
        have hm2 : (squash_gid K perms p.ctx).cred_flags &&& K.MANAGED_GIDS = 0 := hm
        have hsel2 : select_groups K E { s1 with ctx := (squash_gid K perms
              { s1.ctx with cred_flags := p.ctx.cred_flags, creds := cr }) } =
            (true, { s1 with ctx := { s1.ctx with
              cred_flags := (squash_gid K perms p.ctx).cred_flags
              creds := { (squash_gid K perms p.ctx).creds with
                caller_glen := p.ctx.original_creds.caller_glen
                caller_garray := p.ctx.original_creds.caller_garray } } }) := by
          rw [squash_gid_eq] at hm2 ⊢
          rw [squash_gid_eq K perms p.ctx]
          simp only [select_groups, ho2] at hm2 ⊢
          simp only [hm2, ne_eq, not_true_eq_false, if_false]
        simp only [hsel2, horig]

theorem select_groups_false (K : Hdr) (E : Env) (s s2 : State)
    (h : select_groups K E s = (false, s2)) : s2.ctx = s.ctx ∧ s2.heap = s.heap := by
  unfold select_groups at h
  by_cases hm : s.ctx.cred_flags &&& K.MANAGED_GIDS ≠ 0
  · rw [if_pos hm] at h
    cases hgd : s.ctx.caller_gdata with
    | some gd => simp [hgd] at h
    | none =>
      simp only [hgd] at h
      cases hu : E.uid2grp s.ctx.original_creds.caller_uid with
      | none =>
        simp only [hu, Prod.mk.injEq, true_and] at h
        subst h; exact ⟨rfl, rfl⟩
      | some gd => simp [hu] at h
  · rw [if_neg hm] at h
    simp at h

/-- Lines 304-425, started with `*garray_copy` equal to `NULL`, keep the
original credentials and change no flag other than `UID_SQUASHED`,
`GID_SQUASHED` and `GARRAY_SQUASHED`. -/
theorem resolve_creds_frame (K : Hdr) (E : Env) (perms : export_perms_t) (sl : copy_slot)
    (p : State) (b1 : Bool) (s1 : State)
    (hsl : slot_get sl p.ctx = none)
    (h : resolve_creds K E perms sl p = some (b1, s1)) :
    s1.ctx.original_creds = p.ctx.original_creds ∧
    ∀ m, K.UID_SQUASHED &&& m = 0 → K.GID_SQUASHED &&& m = 0 → K.GARRAY_SQUASHED &&& m = 0 →
      s1.ctx.cred_flags &&& m = p.ctx.cred_flags &&& m := by
  by_cases hsq : squash_all K perms p.ctx
  · rw [resolve_creds_squash_all K E perms sl p hsq] at h
    obtain ⟨_, rfl⟩ := Prod.mk.inj (Option.some.inj h)
    refine ⟨rfl, fun m hU hG _ => ?_⟩
    show (p.ctx.cred_flags ||| (K.UID_SQUASHED ||| K.GID_SQUASHED)) &&& m = _
    rw [mask_or_and, mask_or_and, hU, hG, Nat.or_zero, Nat.or_zero]
  · rw [resolve_creds_not_squash_all K E perms sl p hsq] at h
    obtain ⟨horig, _, hcc, hmc, _⟩ := squash_gid_frame K perms p.ctx
    have hcgsl : slot_get sl (squash_gid K perms p.ctx) = none := by
      cases sl
      · exact hcc.trans hsl
      · exact hmc.trans hsl
    cases hsel : select_groups K E { p with ctx := squash_gid K perms p.ctx } with
    | mk b p2 =>
      rw [hsel] at h
      cases b with
      | false =>
        simp only at h
        obtain ⟨_, rfl⟩ := Prod.mk.inj (Option.some.inj h)
        have hp2 : p2.ctx = squash_gid K perms p.ctx := (select_groups_false K E _ _ hsel).1
        rw [hp2]
        exact ⟨horig, fun m _ hG _ => squash_gid_flags_and K perms p.ctx m hG⟩
      | true =>
        simp only at h
        obtain ⟨_, _, hfl2, hcc2, hmc2, horig2, _, _⟩ := select_groups_true K E _ _ hsel
        have hp2sl : slot_get sl p2.ctx = none := by
          cases sl
          · exact hcc2.trans (hcc.trans hsl)
          · exact hmc2.trans (hmc.trans hsl)
        have hfr := squash_garray_frame K E perms sl p2 b1 s1 hp2sl h
        refine ⟨hfr.1.trans (horig2.trans horig), fun m hU hG hGA => ?_⟩
        have hp2fl : p2.ctx.cred_flags &&& m = p.ctx.cred_flags &&& m := by
          rw [hfl2]; exact squash_gid_flags_and K perms p.ctx m hG
        rw [← hp2fl]
        unfold squash_garray at h
        split_ifs at h
        · obtain ⟨_, rfl⟩ := Prod.mk.inj (Option.some.inj h); rfl
        · cases hsc : garray_scan K E perms sl p2.ctx.creds.caller_glen 0 p2 with
          | none => simp [hsc] at h
          | some r =>
            obtain ⟨b, s'⟩ := r
            rw [hsc] at h
            have hs' : s'.ctx.cred_flags &&& m = p2.ctx.cred_flags &&& m := by
              rcases garray_scan_null K E perms sl _ 0 p2 b s' hp2sl (by omega) hsc with hu | hc
              · rw [hu]
              · obtain ⟨_, a, L, _, _, _, _, rfl⟩ := hc
                show ((slot_set sl p2.ctx _).cred_flags ||| K.GARRAY_SQUASHED) &&& m = _
                rw [slot_set_cred_flags, mask_or_and, hGA, Nat.or_zero]
            cases b with
            | false =>
              obtain ⟨_, rfl⟩ := Prod.mk.inj (Option.some.inj h)
              exact hs'
            | true =>
              simp only at h
              split_ifs at h <;>
              · obtain ⟨_, rfl⟩ := Prod.mk.inj (Option.some.inj h)
                exact hs'

theorem flavor_switch_none_iff (K : Hdr) (E : Env) (req : svc_req) (perms : export_perms_t)
    (c : req_op_context) :
    flavor_switch K E req perms c = some none ↔
      req.oa_flavor ≠ AUTH_NONE ∧ req.oa_flavor ≠ AUTH_SYS ∧
        ¬ (K.HAVE_GSSAPI = true ∧ req.oa_flavor = RPCSEC_GSS) := by
  unfold flavor_switch
  by_cases h0 : req.oa_flavor = AUTH_NONE
  · simp [h0]
  by_cases h1 : req.oa_flavor = AUTH_SYS
  · rw [if_neg h0, if_pos h1]
    simp only [h1, ne_eq, not_true_eq_false, and_false, false_and, iff_false]
    split_ifs <;> simp
  by_cases h2 : K.HAVE_GSSAPI = true ∧ req.oa_flavor = RPCSEC_GSS
  · rw [if_neg h0, if_neg h1, if_pos h2]
    simp only [h0, h1, h2, ne_eq, not_false_eq_true, not_true_eq_false, and_false, and_self,
      iff_false]
    split_ifs
    · split <;> simp
    · simp
    · simp
  · rw [if_neg h0, if_neg h1, if_neg h2]
    simp [h0, h1, h2]

theorem reset_flags_idem (K : Hdr) (s : State) :
    reset_flags K (reset_flags K s) = reset_flags K s := by
  simp only [reset_flags, Nat.and_assoc, Nat.and_self]

/-- The switch of a second call.  If the first call, on a freshly initialized
context, left the switch with context `c` and slot `sl`, and the state `s1`
has the original credentials of `c` and its flags apart from the three squash
flags, then the switch on `s1` gives the same slot and the context of `s1`
with the flags of `c`, unless the request is RPCSEC_GSS with a principal that
has no mapping. -/
theorem flavor_switch_again (K : Hdr) (E : Env) (req : svc_req) (perms : export_perms_t)
    (s s1 : State) (c : req_op_context) (sl : copy_slot)
    (hK : K.cred_flags_ok)
    (hmap : ¬ (K.HAVE_GSSAPI = true ∧ req.oa_flavor = RPCSEC_GSS ∧
      E.principal2uid req.rq_auth = none))
    (hsw : flavor_switch K E req perms (reset_flags K (init_credentials K s)).ctx = some (some (c, sl)))
    (horig : s1.ctx.original_creds = c.original_creds)
    (hfl : ∀ m, K.UID_SQUASHED &&& m = 0 → K.GID_SQUASHED &&& m = 0 →
      K.GARRAY_SQUASHED &&& m = 0 → s1.ctx.cred_flags &&& m = c.cred_flags &&& m) :
    ∃ cr, (cr = c.creds ∨ cr = s1.ctx.creds) ∧
      flavor_switch K E req perms (reset_flags K s1).ctx =
        some (some ({ s1.ctx with cred_flags := c.cred_flags, creds := cr }, sl)) := by
  obtain ⟨hL0, hA0, hU0, hG0, hGA0, hM0, hLA, hLU, hLG, hLGA, hLM, hAU, hAG, hAGA, hAM,
    hUG, hUGA, hUM, hGGA, hGM, hGAM⟩ := hK
  have hUX : K.UID_SQUASHED &&& (K.CREDS_LOADED ||| K.CREDS_ANON) = 0 := by
    rw [Nat.and_or_distrib_left, Nat.and_comm, hLU, Nat.and_comm, hAU]; rfl
  have hGX : K.GID_SQUASHED &&& (K.CREDS_LOADED ||| K.CREDS_ANON) = 0 := by
    rw [Nat.and_or_distrib_left, Nat.and_comm, hLG, Nat.and_comm, hAG]; rfl
  have hGAX : K.GARRAY_SQUASHED &&& (K.CREDS_LOADED ||| K.CREDS_ANON) = 0 := by
    rw [Nat.and_or_distrib_left, Nat.and_comm, hLGA, Nat.and_comm, hAGA]; rfl
  have hMX : K.MANAGED_GIDS &&& (K.CREDS_LOADED ||| K.CREDS_ANON) = 0 := by
    rw [Nat.and_or_distrib_left, Nat.and_comm, hLM, Nat.and_comm, hAM]; rfl
  have hLX : K.CREDS_LOADED &&& (K.CREDS_LOADED ||| K.CREDS_ANON) = K.CREDS_LOADED := by
    rw [Nat.and_comm]; exact mask_absorb_or _ _
  have hs1X := hfl _ hUX hGX hGAX
  have hc0 : (reset_flags K (init_credentials K s)).ctx.cred_flags = 0 := Nat.zero_and _
  unfold flavor_switch at hsw ⊢
  by_cases h0 : req.oa_flavor = AUTH_NONE
  · rw [if_pos h0] at hsw ⊢
    obtain ⟨rfl, rfl⟩ := Prod.mk.inj (Option.some.inj (Option.some.inj hsw))
    refine ⟨s1.ctx.creds, Or.inr rfl, ?_⟩
    simp only [or_flags, reset_flags, init_credentials, Nat.zero_and, Nat.zero_or,
      mask_absorb_and]
  by_cases h1 : req.oa_flavor = AUTH_SYS
  · rw [if_neg h0, if_pos h1] at hsw ⊢
    simp only [reset_flags, init_credentials, Nat.zero_and, if_true, or_flags,
      Nat.zero_or] at hsw hs1X ⊢
    by_cases hman : perms.options &&& K.EXPORT_OPTION_MANAGE_GIDS ≠ 0
    · rw [if_pos hman] at hsw ⊢
      obtain ⟨rfl, rfl⟩ := Prod.mk.inj (Option.some.inj (Option.some.inj hsw))
      simp only [mask_or_and, hLX, hMX, Nat.or_zero] at hs1X horig
      refine ⟨_, Or.inl rfl, ?_⟩
      simp only [hs1X, Nat.and_self, hL0, if_false, horig]
    · rw [if_neg hman] at hsw ⊢
      obtain ⟨rfl, rfl⟩ := Prod.mk.inj (Option.some.inj (Option.some.inj hsw))
      simp only [hLX] at hs1X horig
      refine ⟨_, Or.inl rfl, ?_⟩
      simp only [hs1X, Nat.and_self, hL0, if_false, horig]
  by_cases h2 : K.HAVE_GSSAPI = true ∧ req.oa_flavor = RPCSEC_GSS
  · rw [if_neg h0, if_neg h1, if_pos h2] at hsw ⊢
    simp only [reset_flags, init_credentials, Nat.zero_and, if_true, or_flags,
      Nat.zero_or] at hsw hs1X ⊢
    by_cases hfit : req.rq_auth.cname.length ≤ K.MAXNAMLEN
    swap
    · rw [if_neg hfit] at hsw
      cases hsw
    rw [if_pos hfit] at hsw
    cases hp : E.principal2uid req.rq_auth with
    | none => exact absurd ⟨h2.1, h2.2, hp⟩ hmap
    | some ug =>
      obtain ⟨uid, gid⟩ := ug
      simp only [hp] at hsw
      obtain ⟨rfl, rfl⟩ := Prod.mk.inj (Option.some.inj (Option.some.inj hsw))
      simp only [mask_or_and, hLX, hMX, Nat.or_zero] at hs1X horig
      refine ⟨_, Or.inr rfl, ?_⟩
      simp only [hs1X, Nat.and_self, hL0, if_false]
  · rw [if_neg h0, if_neg h1, if_neg h2] at hsw
    cases hsw

/-- Two calls in succession on every other input.  On a freshly initialized
context, for every credential and export, with the same environment for both
calls, and unless the request is RPCSEC_GSS with a principal that has no
mapping: if the first call returns (without a memory fault), the second call
with the same arguments returns the same value and leaves the same request
context (effective and original identity, flags, group data, copy slots) and
the same heap. -/
theorem get_req_creds_again (K : Hdr) (E : Env) (req : svc_req) (perms : export_perms_t)
    (s : State) (b1 : Bool) (s1 : State)
    (hK : K.cred_flags_ok)
    (hmap : ¬ (K.HAVE_GSSAPI = true ∧ req.oa_flavor = RPCSEC_GSS ∧
      E.principal2uid req.rq_auth = none))
    (h : get_req_creds K E req perms (init_credentials K s) = some (b1, s1)) :
    ∃ s2, get_req_creds K E req perms s1 = some (b1, s2) ∧
      s2.ctx = s1.ctx ∧ s2.heap = s1.heap := by
  have hK2 := hK
  obtain ⟨hL0, hA0, hU0, hG0, hGA0, hM0, hLA, hLU, hLG, hLGA, hLM, hAU, hAG, hAGA, hAM,
    hUG, hUGA, hUM, hGGA, hGM, hGAM⟩ := hK
  simp only [get_req_creds] at h ⊢
  cases hsw : flavor_switch K E req perms (reset_flags K (init_credentials K s)).ctx with
  | none =>
    rw [hsw] at h
    cases h
  | some r0 =>
  cases r0 with
  | none =>
    rw [hsw] at h
    obtain ⟨rfl, rfl⟩ := Prod.mk.inj (Option.some.inj h)
    have hsw2 : flavor_switch K E req perms
        (reset_flags K (reset_flags K (init_credentials K s))).ctx = some none :=
      (flavor_switch_none_iff K E req perms _).mpr
        ((flavor_switch_none_iff K E req perms _).mp hsw)
    rw [hsw2]
    exact ⟨_, rfl, by rw [reset_flags_idem], by rw [reset_flags_idem]⟩
  | some r =>
    obtain ⟨c, sl⟩ := r
    rw [hsw] at h
    simp only at h
    obtain ⟨hcc, hmc, hgd, hflm⟩ := flavor_switch_frame K E req perms _ c sl hsw
    have hsl : slot_get sl c = none := by
      cases sl
      · exact hcc
      · exact hmc
    have hcG : c.cred_flags &&& K.GARRAY_SQUASHED = 0 := by
      rw [hflm _ hLGA hAGA (by rw [Nat.and_comm]; exact hGAM)]
      exact mask_and_and_zero _ (mask_or_clear.mpr ⟨hLGA, hAGA⟩)
    obtain ⟨horig, hflr⟩ := resolve_creds_frame K E perms sl _ b1 s1 hsl h
    obtain ⟨cr, hcr, hsw2⟩ := flavor_switch_again K E req perms s s1 c sl hK2 hmap hsw horig hflr
    obtain ⟨s2, hs2, hctx, hheap⟩ :=
      resolve_creds_again K E perms sl _ b1 s1 cr hK2 hsl hgd hcG h hcr
    rw [hsw2]
    exact ⟨s2, hs2, hctx, hheap⟩

/-! ## The status of the evaluator -/

/-- C11: `nfs_access_op` returns exactly the status `cache_inode_access_sw`
returned for the computed access mask; when that status is neither success
nor access-denied, the granted access is 0 and the object behind
`supported_access` is left as it was; when it is success or access-denied, a
non-null `supported_access` receives the adjusted requested mask. -/
theorem nfs_access_op_status (K : Hdr) (E : Env) (entry : cache_entry_t)
    (requested_access : Nat) (supported_access : Option Nat) (req_ctx : req_op_context) :
    (nfs_access_op K E entry requested_access supported_access req_ctx).status =
      (E.cache_inode_access_sw entry (access_mask_of K entry requested_access) req_ctx).1 ∧
    (((E.cache_inode_access_sw entry (access_mask_of K entry requested_access) req_ctx).1
          ≠ .CACHE_INODE_SUCCESS ∧
        (E.cache_inode_access_sw entry (access_mask_of K entry requested_access) req_ctx).1
          ≠ .CACHE_INODE_FSAL_EACCESS) →
      (nfs_access_op K E entry requested_access supported_access req_ctx).granted_access = 0 ∧
      (nfs_access_op K E entry requested_access supported_access req_ctx).supported_access
        = supported_access) ∧
    (((E.cache_inode_access_sw entry (access_mask_of K entry requested_access) req_ctx).1
          = .CACHE_INODE_SUCCESS ∨
        (E.cache_inode_access_sw entry (access_mask_of K entry requested_access) req_ctx).1
          = .CACHE_INODE_FSAL_EACCESS) →
      (nfs_access_op K E entry requested_access supported_access req_ctx).supported_access
        = supported_access.map (fun _ => granted_mask_of entry requested_access)) := by
  simp only [nfs_access_op]
  by_cases hok :
      (E.cache_inode_access_sw entry (access_mask_of K entry requested_access) req_ctx).1
        = .CACHE_INODE_SUCCESS ∨
      (E.cache_inode_access_sw entry (access_mask_of K entry requested_access) req_ctx).1
        = .CACHE_INODE_FSAL_EACCESS
  · rw [if_pos hok]
    refine ⟨rfl, ?_, fun _ => rfl⟩
    rintro ⟨h1, h2⟩
    rcases hok with h | h
    · exact absurd h h1
    · exact absurd h h2
  · rw [if_neg hok]
    exact ⟨rfl, fun _ => ⟨rfl, rfl⟩, fun h => absurd h hok⟩

/-! ## Attribute squashing -/

/-- A flag word meets the union of two masks exactly when it meets one of them. -/
theorem mask_or_ne_zero_iff (f a b : Nat) :
    f &&& (a ||| b) ≠ 0 ↔ f &&& a ≠ 0 ∨ f &&& b ≠ 0 := by
  rw [Nat.and_or_distrib_left]
  constructor
  · intro h
    by_contra hc
    push_neg at hc
    apply h
    rw [hc.1, hc.2]
    rfl
  · intro h hc
    have hz := mask_or_eq_zero.mp hc
    rcases h with h | h
    · exact h hz.1
    · exact h hz.2

/-- C12: `squash_setattr` computes the rule of the specification on the
credential flags of the request context: the owner and the group follow the
rule, an attribute whose mask bit is absent keeps its value, and the mask and
all the other attributes are those of the argument. -/
theorem squash_setattr_refines (K : Hdr) (export_perms : export_perms_t)
    (req_ctx : req_op_context) (attr : attrlist) :
    squash_setattr K export_perms req_ctx attr =
      squash_attrs_spec K export_perms req_ctx.cred_flags attr ∧
    (squash_setattr K export_perms req_ctx attr).mask = attr.mask ∧
    (squash_setattr K export_perms req_ctx attr).rest = attr.rest ∧
    (attr.mask &&& K.ATTR_OWNER = 0 →
      (squash_setattr K export_perms req_ctx attr).owner = attr.owner) ∧
    (attr.mask &&& K.ATTR_GROUP = 0 →
      (squash_setattr K export_perms req_ctx attr).group = attr.group) := by
  have hspec : squash_setattr K export_perms req_ctx attr =
      squash_attrs_spec K export_perms req_ctx.cred_flags attr := by
    simp only [squash_setattr, squash_attrs_spec, mask_or_ne_zero_iff]
    cases attr with
    | mk mask owner group rest =>
      by_cases ho : mask &&& K.ATTR_OWNER = 0 <;>
      by_cases hg : mask &&& K.ATTR_GROUP = 0 <;>
      by_cases ha : export_perms.options &&& K.EXPORT_OPTION_ALL_ANONYMOUS = 0 <;>
      by_cases hr : export_perms.options &&& K.EXPORT_OPTION_ROOT = 0 <;>
      by_cases h1 : owner = 0 <;>
      by_cases h2 : group = 0 <;>
      by_cases hu : req_ctx.cred_flags &&& K.UID_SQUASHED = 0 <;>
      by_cases hgs : req_ctx.cred_flags &&& K.GID_SQUASHED = 0 <;>
      by_cases hga : req_ctx.cred_flags &&& K.GARRAY_SQUASHED = 0 <;>
      simp [ho, hg, ha, hr, h1, h2, hu, hgs, hga]
  refine ⟨hspec, ?_, ?_, ?_, ?_⟩
  · rw [hspec]
    rfl
  · rw [hspec]
    rfl
  · intro h
    rw [hspec]
    simp only [squash_attrs_spec]
    rw [if_neg (not_not.mpr h)]
  · intro h
    rw [hspec]
    simp only [squash_attrs_spec]
    rw [if_neg (not_not.mpr h)]

/-! ## A principal without a mapping -/

/-- The anonymous fallback for a principal that fits the local buffer: in a
build with `_HAVE_GSSAPI`, for an RPCSEC_GSS request on a context without
`CREDS_LOADED` whose client name has at most `MAXNAMLEN` bytes and which
`principal2uid` cannot map, whatever the export, `get_req_creds` returns true
with `CREDS_ANON` and `CREDS_LOADED` set, the export's anonymous uid and gid
as effective ids, no groups, and `UID_SQUASHED` and `GID_SQUASHED` set. -/
theorem get_req_creds_gss_unmapped (K : Hdr) (E : Env) (req : svc_req)
    (perms : export_perms_t) (s : State)
    (hgss : K.HAVE_GSSAPI = true)
    (hL : K.CREDS_LOADED ≠ 0) (hA : K.CREDS_ANON ≠ 0)
    (hU : K.UID_SQUASHED ≠ 0) (hG : K.GID_SQUASHED ≠ 0)
    (hfl : req.oa_flavor = RPCSEC_GSS)
    (hnl : s.ctx.cred_flags &&& K.CREDS_LOADED = 0)
    (hfit : req.rq_auth.cname.length ≤ K.MAXNAMLEN)
    (hmap : E.principal2uid req.rq_auth = none) :
    ∃ s1, get_req_creds K E req perms s = some (true, s1) ∧
      s1.ctx.cred_flags &&& K.CREDS_ANON ≠ 0 ∧
      s1.ctx.cred_flags &&& K.CREDS_LOADED ≠ 0 ∧
      s1.ctx.creds.caller_uid = perms.anonymous_uid ∧
      s1.ctx.creds.caller_gid = perms.anonymous_gid ∧
      s1.ctx.creds.caller_glen = 0 ∧
      s1.ctx.cred_flags &&& K.UID_SQUASHED ≠ 0 ∧
      s1.ctx.cred_flags &&& K.GID_SQUASHED ≠ 0 := by
  have hnl0 : (reset_flags K s).ctx.cred_flags &&& K.CREDS_LOADED = 0 := by
    show (s.ctx.cred_flags &&& (K.CREDS_LOADED ||| K.CREDS_ANON)) &&& K.CREDS_LOADED = 0
    rw [Nat.and_assoc, mask_absorb_or, hnl]
  have hsw : flavor_switch K E req perms (reset_flags K s).ctx =
      some (some (or_flags (reset_flags K s).ctx (K.CREDS_ANON ||| K.CREDS_LOADED), .caller)) := by
    simp only [flavor_switch, hfl]
    rw [if_neg (by decide : ¬ RPCSEC_GSS = AUTH_NONE),
      if_neg (by decide : ¬ RPCSEC_GSS = AUTH_SYS), if_pos ⟨hgss, trivial⟩, if_pos hnl0,
      if_pos hfit, hmap]
  have hanon : (or_flags (reset_flags K s).ctx (K.CREDS_ANON ||| K.CREDS_LOADED)).cred_flags
      &&& K.CREDS_ANON ≠ 0 :=
    mask_or_ne_zero_right _ (mask_or_ne_zero_left _ (mask_self_ne_zero hA))
  have hload : (or_flags (reset_flags K s).ctx (K.CREDS_ANON ||| K.CREDS_LOADED)).cred_flags
      &&& K.CREDS_LOADED ≠ 0 :=
    mask_or_ne_zero_right _ (mask_or_ne_zero_right _ (mask_self_ne_zero hL))
  refine ⟨{ reset_flags K s with
      ctx := (squash_all_creds K perms
        (or_flags (reset_flags K s).ctx (K.CREDS_ANON ||| K.CREDS_LOADED))) },
    ?_, ?_, ?_, rfl, rfl, rfl, ?_, ?_⟩
  · simp only [get_req_creds, hsw]
    exact resolve_creds_squash_all K E perms _ _ (Or.inl hanon)
  · exact mask_or_ne_zero_left _ hanon
  · exact mask_or_ne_zero_left _ hload
  · exact mask_or_ne_zero_right _ (mask_or_ne_zero_left _ (mask_self_ne_zero hU))
  · exact mask_or_ne_zero_right _ (mask_or_ne_zero_right _ (mask_self_ne_zero hG))

/-- The anonymous fallback at a sample input: the principal `[121]`, which the
sample environment cannot map, on the sample state and an export that allows
root. -/
theorem get_req_creds_gss_unmapped_witness :
    ∃ s1, get_req_creds sampleHdr sampleEnv (gssReq RPCSEC_GSS [121]) (samplePerms 0x141)
        sampleState = some (true, s1) ∧
      s1.ctx.cred_flags &&& sampleHdr.CREDS_ANON ≠ 0 ∧
      s1.ctx.cred_flags &&& sampleHdr.CREDS_LOADED ≠ 0 ∧
      s1.ctx.creds.caller_uid = 65534 ∧ s1.ctx.creds.caller_gid = 65534 ∧
      s1.ctx.creds.caller_glen = 0 ∧
      s1.ctx.cred_flags &&& sampleHdr.UID_SQUASHED ≠ 0 ∧
      s1.ctx.cred_flags &&& sampleHdr.GID_SQUASHED ≠ 0 :=
  get_req_creds_gss_unmapped sampleHdr sampleEnv (gssReq RPCSEC_GSS [121]) (samplePerms 0x141)
    sampleState rfl (by decide) (by decide) (by decide) (by decide) rfl rfl (by decide) rfl

/-- In a build with `_HAVE_GSSAPI`, an RPCSEC_GSS request on a context without
`CREDS_LOADED` whose client name has more than `MAXNAMLEN` bytes makes
`get_req_creds` write past the end of the local buffer `principal`, whatever
`principal2uid` would answer. -/
theorem get_req_creds_gss_overflow (K : Hdr) (E : Env) (req : svc_req)
    (perms : export_perms_t) (s : State)
    (hgss : K.HAVE_GSSAPI = true) (hfl : req.oa_flavor = RPCSEC_GSS)
    (hnl : s.ctx.cred_flags &&& K.CREDS_LOADED = 0)
    (hlong : K.MAXNAMLEN < req.rq_auth.cname.length) :
    get_req_creds K E req perms s = none := by
  have hnl0 : (reset_flags K s).ctx.cred_flags &&& K.CREDS_LOADED = 0 := by
    show (s.ctx.cred_flags &&& (K.CREDS_LOADED ||| K.CREDS_ANON)) &&& K.CREDS_LOADED = 0
    rw [Nat.and_assoc, mask_absorb_or, hnl]
  have hsw : flavor_switch K E req perms (reset_flags K s).ctx = none := by
    simp only [flavor_switch, hfl]
    rw [if_neg (by decide : ¬ RPCSEC_GSS = AUTH_NONE),
      if_neg (by decide : ¬ RPCSEC_GSS = AUTH_SYS), if_pos ⟨hgss, trivial⟩, if_pos hnl0,
      if_neg (Nat.not_le.mpr hlong)]
  simp only [get_req_creds, hsw]

/-- C13, at an input where the code departs from it: an RPCSEC_GSS request on
a freshly initialized context whose client name has 300 bytes and no mapping,
with `MAXNAMLEN` 255.  The call does not return true with the anonymous ids:
the copy of the name into `char principal[MAXNAMLEN + 1]` writes past the end
of the buffer before `principal2uid` is asked. -/
theorem get_req_creds_gss_long_principal :
    (gssReq RPCSEC_GSS (List.replicate 300 65)).rq_auth.cname.length = 300 ∧
    sampleHdr.MAXNAMLEN = 255 ∧
    sampleEnv.principal2uid (gssReq RPCSEC_GSS (List.replicate 300 65)).rq_auth = none ∧
    sampleState.ctx.cred_flags &&& sampleHdr.CREDS_LOADED = 0 ∧
    get_req_creds sampleHdr sampleEnv (gssReq RPCSEC_GSS (List.replicate 300 65))
      (samplePerms 0x140) sampleState = none :=
  have hlen : (gssReq RPCSEC_GSS (List.replicate 300 65)).rq_auth.cname.length = 300 :=
    List.length_replicate 300 65
  ⟨hlen, rfl, by decide, by decide,
    get_req_creds_gss_overflow sampleHdr sampleEnv (gssReq RPCSEC_GSS (List.replicate 300 65))
      (samplePerms 0x140) sampleState rfl rfl (by decide)
      (by rw [hlen]; decide)⟩

/-! ## Conversion of the RPC credential -/

theorem wr32_length (u : List Nat) (off v : Nat) : (wr32 u off v).length = u.length := by
  simp [wr32]

theorem rd32_wr32_same (u : List Nat) (off v : Nat) (h : off + 4 ≤ u.length)
    (hv : v < 4294967296) : rd32 (wr32 u off v) off = v := by
  have h0 : off < u.length := by omega
  have h1 : off + 1 < u.length := by omega
  have h2 : off + 2 < u.length := by omega
  have h3 : off + 3 < u.length := by omega
  simp [rd32, wr32, List.getD_eq_getElem?_getD, List.getElem?_set, h0, h1, h2, h3]
  omega

theorem rd32_wr32_other (u : List Nat) (off1 off2 v : Nat)
    (h : off1 + 4 ≤ off2 ∨ off2 + 4 ≤ off1) : rd32 (wr32 u off2 v) off1 = rd32 u off1 := by
  have e : ∀ i j, i < 4 → j < 4 → off2 + i ≠ off1 + j := by
    intro i j hi hj; omega
  have e00 := e 0 0 (by omega) (by omega)
  have e01 := e 0 1 (by omega) (by omega)
  have e02 := e 0 2 (by omega) (by omega)
  have e03 := e 0 3 (by omega) (by omega)
  have e10 := e 1 0 (by omega) (by omega)
  have e11 := e 1 1 (by omega) (by omega)
  have e12 := e 1 2 (by omega) (by omega)
  have e13 := e 1 3 (by omega) (by omega)
  have e20 := e 2 0 (by omega) (by omega)
  have e21 := e 2 1 (by omega) (by omega)
  have e22 := e 2 2 (by omega) (by omega)
  have e23 := e 2 3 (by omega) (by omega)
  have e30 := e 3 0 (by omega) (by omega)
  have e31 := e 3 1 (by omega) (by omega)
  have e32 := e 3 2 (by omega) (by omega)
  have e33 := e 3 3 (by omega) (by omega)
  simp only [Nat.add_zero] at e00 e01 e02 e03 e10 e20 e30
  simp only [rd32, wr32, List.getD_eq_getElem?_getD]
  rw [List.getElem?_set_ne e30, List.getElem?_set_ne e20, List.getElem?_set_ne e10,
    List.getElem?_set_ne e00,
    List.getElem?_set_ne e31, List.getElem?_set_ne e21, List.getElem?_set_ne e11,
    List.getElem?_set_ne e01,
    List.getElem?_set_ne e32, List.getElem?_set_ne e22, List.getElem?_set_ne e12,
    List.getElem?_set_ne e02,
    List.getElem?_set_ne e33, List.getElem?_set_ne e23, List.getElem?_set_ne e13,
    List.getElem?_set_ne e03]

/-- The sample layout keeps the members of `auth_unix` apart. -/
theorem sampleLayout_members_ok : sampleLayout.members_ok := by
  refine ⟨?_, ?_, ?_, ?_, ?_, ?_, ?_, ?_, ?_⟩
  · intro u v h
    exact (wr32_length u 8 v).trans h
  · intro u v h
    exact (wr32_length u 12 v).trans h
  · intro u v h
    exact (wr32_length u 0 v).trans h
  · intro u v h hv
    have h24 : u.length = 24 := h
    exact rd32_wr32_same u 8 v (by omega) hv
  · intro u v h hv
    have h24 : u.length = 24 := h
    exact rd32_wr32_same u 12 v (by omega) hv
  · intro u v h hv
    have h24 : u.length = 24 := h
    exact rd32_wr32_same u 0 v (by omega) hv
  · intro u v _
    exact rd32_wr32_other u 8 12 v (by omega)
  · intro u v _
    exact rd32_wr32_other u 8 0 v (by omega)
  · intro u v _
    exact rd32_wr32_other u 12 0 v (by omega)

/-- C14: `nfs_rpc_req2client_cred` returns -1 exactly when the flavor is none
of AUTH_NONE, AUTH_UNIX and (in a build with `_HAVE_GSSAPI`) RPCSEC_GSS, and 1
otherwise; when it returns 1 the output holds the flavor and the length of the
request, for AUTH_UNIX its uid, gid and time read back as those of the
request's credential, and for AUTH_NONE the union is left as it was. -/
theorem nfs_rpc_req2client_cred_result (K : Hdr) (Y : union_layout) (req : svc_req)
    (pcred : nfs_client_cred_t)
    (hY : Y.members_ok) (hsz : pcred.auth_union.length = Y.size)
    (huid : req.rq_clntcred.aup_uid < 4294967296)
    (hgid : req.rq_clntcred.aup_gid < 4294967296)
    (htime : req.rq_clntcred.aup_time < Y.time_bound) :
    ((nfs_rpc_req2client_cred K Y req pcred).1 = -1 ↔
      ¬ (req.oa_flavor = AUTH_NONE ∨ req.oa_flavor = AUTH_UNIX ∨
        (K.HAVE_GSSAPI = true ∧ req.oa_flavor = RPCSEC_GSS))) ∧
    ((req.oa_flavor = AUTH_NONE ∨ req.oa_flavor = AUTH_UNIX ∨
        (K.HAVE_GSSAPI = true ∧ req.oa_flavor = RPCSEC_GSS)) →
      (nfs_rpc_req2client_cred K Y req pcred).1 = 1 ∧
      (nfs_rpc_req2client_cred K Y req pcred).2.flavor = req.oa_flavor ∧
      (nfs_rpc_req2client_cred K Y req pcred).2.length = req.oa_length) ∧
    (req.oa_flavor = AUTH_UNIX →
      Y.get_aup_uid (nfs_rpc_req2client_cred K Y req pcred).2.auth_union
        = req.rq_clntcred.aup_uid ∧
      Y.get_aup_gid (nfs_rpc_req2client_cred K Y req pcred).2.auth_union
        = req.rq_clntcred.aup_gid ∧
      Y.get_aup_time (nfs_rpc_req2client_cred K Y req pcred).2.auth_union
        = req.rq_clntcred.aup_time) ∧
    (req.oa_flavor = AUTH_NONE →
      (nfs_rpc_req2client_cred K Y req pcred).2.auth_union = pcred.auth_union) := by
  obtain ⟨lu, lg, _, ruu, rgg, rtt, rug, rut, rgt⟩ := hY
  by_cases h0 : req.oa_flavor = AUTH_NONE
  · have hne : ¬ req.oa_flavor = AUTH_UNIX := by
      rw [h0]; decide
    have hres : nfs_rpc_req2client_cred K Y req pcred =
        (1, { pcred with flavor := req.oa_flavor, length := req.oa_length }) := by
      simp only [nfs_rpc_req2client_cred, if_pos h0]
    rw [hres]
    refine ⟨?_, fun _ => ⟨rfl, rfl, rfl⟩, fun h => absurd h hne, fun _ => rfl⟩
    constructor
    · intro h; exact absurd h (show ¬ (1 : Int) = -1 by decide)
    · intro h; exact absurd (Or.inl h0) h
  · by_cases h1 : req.oa_flavor = AUTH_UNIX
    · have hres : nfs_rpc_req2client_cred K Y req pcred =
          (1, { flavor := req.oa_flavor, length := req.oa_length
                auth_union := Y.set_aup_time (Y.set_aup_gid
                  (Y.set_aup_uid pcred.auth_union req.rq_clntcred.aup_uid)
                  req.rq_clntcred.aup_gid) req.rq_clntcred.aup_time }) := by
        simp only [nfs_rpc_req2client_cred, if_neg h0, if_pos h1]
      rw [hres]
      refine ⟨?_, fun _ => ⟨rfl, rfl, rfl⟩, fun _ => ?_, fun h => absurd h h0⟩
      · constructor
        · intro h; exact absurd h (show ¬ (1 : Int) = -1 by decide)
        · intro h; exact absurd (Or.inr (Or.inl h1)) h
      · have s1 := lu pcred.auth_union req.rq_clntcred.aup_uid hsz
        have s2 := lg _ req.rq_clntcred.aup_gid s1
        refine ⟨?_, ?_, ?_⟩
        · show Y.get_aup_uid (Y.set_aup_time _ _) = _
          rw [rut _ _ s2, rug _ _ s1, ruu _ _ hsz huid]
        · show Y.get_aup_gid (Y.set_aup_time _ _) = _
          rw [rgt _ _ s2, rgg _ _ s1 hgid]
        · show Y.get_aup_time (Y.set_aup_time _ _) = _
          rw [rtt _ _ s2 htime]
    · by_cases h2 : K.HAVE_GSSAPI = true ∧ req.oa_flavor = RPCSEC_GSS
      · have hres : nfs_rpc_req2client_cred K Y req pcred =
            (1, { flavor := req.oa_flavor, length := req.oa_length
                  auth_union := Y.set_gss_context_id (Y.set_qop
                    (Y.set_svc pcred.auth_union req.rq_auth.svc)
                    req.rq_auth.qop) req.rq_auth.ctx }) := by
          simp only [nfs_rpc_req2client_cred, if_neg h0, if_neg h1, if_pos h2]
        rw [hres]
        refine ⟨?_, fun _ => ⟨rfl, rfl, rfl⟩, fun h => absurd h h1, fun h => absurd h h0⟩
        constructor
        · intro h; exact absurd h (show ¬ (1 : Int) = -1 by decide)
        · intro h; exact absurd (Or.inr (Or.inr h2)) h
      · have hres : nfs_rpc_req2client_cred K Y req pcred =
            (-1, { pcred with flavor := req.oa_flavor, length := req.oa_length }) := by
          simp only [nfs_rpc_req2client_cred, if_neg h0, if_neg h1, if_neg h2]
        rw [hres]
        refine ⟨?_, ?_, fun h => absurd h h1, fun h => absurd h h0⟩
        · constructor
          · intro _ h
            rcases h with h | h | h
            · exact h0 h
            · exact h1 h
            · exact h2 h
          · intro _; rfl
        · intro h
          rcases h with h | h | h
          · exact absurd h h0
          · exact absurd h h1
          · exact absurd h h2

/-- Witness for C14: an AUTH_UNIX request of uid 1000 and gid 100, converted
into a zeroed credential object under the sample layout. -/
theorem nfs_rpc_req2client_cred_result_witness :
    (nfs_rpc_req2client_cred sampleHdr sampleLayout (sysReq 1000 100 3 1) zeroCred).1 = 1 ∧
    rd32 (nfs_rpc_req2client_cred sampleHdr sampleLayout (sysReq 1000 100 3 1)
      zeroCred).2.auth_union 8 = 1000 ∧
    rd32 (nfs_rpc_req2client_cred sampleHdr sampleLayout (sysReq 1000 100 3 1)
      zeroCred).2.auth_union 12 = 100 :=
  have h := nfs_rpc_req2client_cred_result sampleHdr sampleLayout (sysReq 1000 100 3 1)
    zeroCred sampleLayout_members_ok rfl (by decide) (by decide) (by decide)
  ⟨(h.2.1 (Or.inr (Or.inl rfl))).1, (h.2.2.1 rfl).1, (h.2.2.1 rfl).2.1⟩

/-! ## Release of the credentials -/

/-- C15: whatever the state, `clean_credentials` leaves the context that
`init_credentials` produces: the effective uid and gid are `ANON_UID` and
`ANON_GID`, there are no groups, the original credentials are zeroed, the
flags are 0, there is no group data and both copy slots are empty; a second
`clean_credentials` changes nothing. -/
theorem clean_credentials_fresh (K : Hdr) (s : State) :
    (clean_credentials K s).ctx = (init_credentials K s).ctx ∧
    (clean_credentials K s).ctx.creds =
      { caller_uid := to_u32 K.ANON_UID, caller_gid := to_u32 K.ANON_GID
        caller_glen := 0, caller_garray := none } ∧
    (clean_credentials K s).ctx.original_creds =
      { caller_uid := 0, caller_gid := 0, caller_glen := 0, caller_garray := none } ∧
    (clean_credentials K s).ctx.cred_flags = 0 ∧
    (clean_credentials K s).ctx.caller_gdata = none ∧
    (clean_credentials K s).ctx.caller_garray_copy = none ∧
    (clean_credentials K s).ctx.managed_garray_copy = none ∧
    clean_credentials K (clean_credentials K s) = clean_credentials K s :=
  ⟨rfl, rfl, rfl, rfl, rfl, rfl, rfl, rfl⟩

/-! ## Comparison of client credentials -/

/-- A `NULL` argument makes `nfs_compare_clientcred` return false. -/
theorem nfs_compare_clientcred_null (Y : union_layout) (c : Option nfs_client_cred_t) :
    nfs_compare_clientcred Y none c = some false ∧
    nfs_compare_clientcred Y c none = some false := by
  cases c <;> exact ⟨rfl, rfl⟩

/-- Two credentials of the same length compare the same in both orders. -/
theorem nfs_compare_clientcred_comm_of_length (Y : union_layout)
    (c1 c2 : nfs_client_cred_t) (hlen : c1.length = c2.length) :
    nfs_compare_clientcred Y (some c1) (some c2) =
      nfs_compare_clientcred Y (some c2) (some c1) := by
  simp only [nfs_compare_clientcred]
  by_cases hf : c1.flavor = c2.flavor
  · rw [if_neg (not_not.mpr hf), if_neg (not_not.mpr hf.symm), ← hf, ← hlen]
    by_cases hu : c1.flavor = AUTH_UNIX
    · rw [if_pos hu, if_pos hu]
      by_cases h1 : Y.get_aup_uid c1.auth_union = Y.get_aup_uid c2.auth_union
      · rw [if_neg (not_not.mpr h1), if_neg (not_not.mpr h1.symm)]
        by_cases h2 : Y.get_aup_gid c1.auth_union = Y.get_aup_gid c2.auth_union
        · rw [if_neg (not_not.mpr h2), if_neg (not_not.mpr h2.symm)]
        · rw [if_pos h2, if_pos (fun h => h2 h.symm)]
      · rw [if_pos h1, if_pos (fun h => h1 h.symm)]
    · rw [if_neg hu, if_neg hu]
      have hm : memcmp_differs c1.auth_union c2.auth_union c1.length =
          memcmp_differs c2.auth_union c1.auth_union c1.length := by
        simp only [memcmp_differs]
        by_cases hb : c1.length ≤ c1.auth_union.length ∧ c1.length ≤ c2.auth_union.length
        · rw [if_pos hb, if_pos ⟨hb.2, hb.1⟩]
          congr 1
          by_cases he : List.take c1.length c1.auth_union = List.take c1.length c2.auth_union
          · simp [he]
          · have he2 : ¬ List.take c1.length c2.auth_union =
                List.take c1.length c1.auth_union := fun h => he h.symm
            simp [he, he2]
        · rw [if_neg hb, if_neg (fun h => hb ⟨h.2, h.1⟩)]
      rw [hm]
  · rw [if_pos hf, if_pos (fun h => hf h.symm)]

/-- C16, at an input where the code departs from it: two RPCSEC_GSS
credentials whose unions agree on the first 20 bytes and differ after them,
one of length 20 and one of length 24.  `memcmp` runs over the length of the
first argument only, so the call answers true in one order and false in the
other. -/
theorem nfs_compare_clientcred_order :
    nfs_compare_clientcred sampleLayout
      (some (gssCred 20 [0, 0, 0, 0, 0, 0, 0, 0, 0, 0, 0, 0]))
      (some (gssCred 24 [0, 0, 0, 0, 0, 0, 0, 0, 9, 0, 0, 0])) = some true ∧
    nfs_compare_clientcred sampleLayout
      (some (gssCred 24 [0, 0, 0, 0, 0, 0, 0, 0, 9, 0, 0, 0]))
      (some (gssCred 20 [0, 0, 0, 0, 0, 0, 0, 0, 0, 0, 0, 0])) = some false := by
  constructor <;> decide

/-! ## The primary ids outside the squash-all branch -/

theorem ensure_copy_frame (E : Env) (sl : copy_slot) (s : State) (b : Bool) (s1 : State)
    (h : ensure_copy E sl s = some (b, s1)) :
    s1.ctx.creds = s.ctx.creds ∧ s1.ctx.original_creds = s.ctx.original_creds ∧
    s1.ctx.cred_flags = s.ctx.cred_flags ∧ s1.ctx.caller_gdata = s.ctx.caller_gdata ∧
    s1.uid2grp_calls = s.uid2grp_calls := by
  simp only [ensure_copy] at h
  cases hs : slot_get sl s.ctx with
  | some p =>
    simp only [hs, Option.some.injEq, Prod.mk.injEq] at h
    rw [← h.2]
    exact ⟨rfl, rfl, rfl, rfl, rfl⟩
  | none =>
    simp only [hs] at h
    by_cases hm : E.gsh_malloc (s.ctx.creds.caller_glen * 4) = true
    · rw [if_pos hm] at h
      cases hb : heap_block s.heap s.ctx.creds.caller_garray s.ctx.creds.caller_glen with
      | none => simp [hb] at h
      | some l =>
        simp only [hb, Option.some.injEq, Prod.mk.injEq] at h
        rw [← h.2]
        cases sl <;> exact ⟨rfl, rfl, rfl, rfl, rfl⟩
    · rw [if_neg hm] at h
      simp only [Option.some.injEq, Prod.mk.injEq] at h
      rw [← h.2]
      exact ⟨rfl, rfl, rfl, rfl, rfl⟩

/-- The scan leaves the effective and the original credentials, the group data
and the lookup log as they were, and changes no flag but `GARRAY_SQUASHED`. -/
theorem garray_scan_frame (K : Hdr) (E : Env) (perms : export_perms_t) (sl : copy_slot) :
    ∀ (n i : Nat) (s : State) (b : Bool) (s1 : State),
      garray_scan K E perms sl n i s = some (b, s1) →
      s1.ctx.creds = s.ctx.creds ∧ s1.ctx.original_creds = s.ctx.original_creds ∧
      s1.ctx.caller_gdata = s.ctx.caller_gdata ∧ s1.uid2grp_calls = s.uid2grp_calls ∧
      ∀ m, K.GARRAY_SQUASHED &&& m = 0 → s1.ctx.cred_flags &&& m = s.ctx.cred_flags &&& m
  | 0, i, s, b, s1, h => by
    simp only [garray_scan, Option.some.injEq, Prod.mk.injEq] at h
    rw [← h.2]
    exact ⟨rfl, rfl, rfl, rfl, fun _ _ => rfl⟩
  | n + 1, i, s, b, s1, h => by
    rw [garray_scan] at h
    cases hr : heap_read s.heap s.ctx.creds.caller_garray i with
    | none => simp [hr] at h
    | some g =>
      simp only [hr] at h
      by_cases hg : g = 0
      · rw [if_pos hg] at h
        cases he : ensure_copy E sl s with
        | none => simp [he] at h
        | some r =>
          obtain ⟨b2, s2⟩ := r
          have hf := ensure_copy_frame E sl s b2 s2 he
          cases b2 with
          | false =>
            simp only [he, Option.some.injEq, Prod.mk.injEq] at h
            rw [← h.2]
            exact ⟨hf.1, hf.2.1, hf.2.2.2.1, hf.2.2.2.2, fun m _ => by rw [hf.2.2.1]⟩
          | true =>
            simp only [he] at h
            cases hw : heap_write s2.heap (slot_get sl s2.ctx) i perms.anonymous_gid with
            | none => simp [hw] at h
            | some h2 =>
              simp only [hw] at h
              have ih := garray_scan_frame K E perms sl n (i + 1)
                { s2 with heap := h2, ctx := or_flags s2.ctx K.GARRAY_SQUASHED } b s1 h
              refine ⟨ih.1.trans hf.1, ih.2.1.trans hf.2.1, ih.2.2.1.trans hf.2.2.2.1,
                ih.2.2.2.1.trans hf.2.2.2.2, fun m hm => ?_⟩
              rw [ih.2.2.2.2 m hm]
              show (s2.ctx.cred_flags ||| K.GARRAY_SQUASHED) &&& m = _
              rw [mask_or_and, hm, Nat.or_zero, hf.2.2.1]
      · rw [if_neg hg] at h
        exact garray_scan_frame K E perms sl n (i + 1) s b s1 h

/-- The squashing of the group list leaves the effective uid, gid and count,
the original credentials, the group data and the lookup log as they were, and
changes no flag but `GARRAY_SQUASHED`. -/
theorem squash_garray_ids (K : Hdr) (E : Env) (perms : export_perms_t) (sl : copy_slot)
    (p : State) (b1 : Bool) (s1 : State)
    (h : squash_garray K E perms sl p = some (b1, s1)) :
    s1.ctx.creds.caller_uid = p.ctx.creds.caller_uid ∧
    s1.ctx.creds.caller_gid = p.ctx.creds.caller_gid ∧
    s1.ctx.creds.caller_glen = p.ctx.creds.caller_glen ∧
    s1.ctx.original_creds = p.ctx.original_creds ∧
    s1.ctx.caller_gdata = p.ctx.caller_gdata ∧ s1.uid2grp_calls = p.uid2grp_calls ∧
    ∀ m, K.GARRAY_SQUASHED &&& m = 0 → s1.ctx.cred_flags &&& m = p.ctx.cred_flags &&& m := by
  simp only [squash_garray] at h
  by_cases hc : perms.options &&& K.EXPORT_OPTION_ROOT ≠ 0 ∨ p.ctx.creds.caller_glen = 0
  · rw [if_pos hc] at h
    simp only [Option.some.injEq, Prod.mk.injEq] at h
    rw [← h.2]
    exact ⟨rfl, rfl, rfl, rfl, rfl, rfl, fun _ _ => rfl⟩
  · rw [if_neg hc] at h
    cases hs : garray_scan K E perms sl p.ctx.creds.caller_glen 0 p with
    | none => simp [hs] at h
    | some r =>
      obtain ⟨b2, s2⟩ := r
      have hf := garray_scan_frame K E perms sl _ 0 p b2 s2 hs
      cases b2 with
      | false =>
        simp only [hs, Option.some.injEq, Prod.mk.injEq] at h
        rw [← h.2, hf.1]
        exact ⟨rfl, rfl, rfl, hf.2.1, hf.2.2.1, hf.2.2.2.1, hf.2.2.2.2⟩
      | true =>
        simp only [hs] at h
        by_cases hga : s2.ctx.cred_flags &&& K.GARRAY_SQUASHED ≠ 0
        · rw [if_pos hga] at h
          simp only [Option.some.injEq, Prod.mk.injEq] at h
          rw [← h.2]
          refine ⟨?_, ?_, ?_, hf.2.1, hf.2.2.1, hf.2.2.2.1, hf.2.2.2.2⟩
          · show s2.ctx.creds.caller_uid = _
            rw [hf.1]
          · show s2.ctx.creds.caller_gid = _
            rw [hf.1]
          · show s2.ctx.creds.caller_glen = _
            rw [hf.1]
        · rw [if_neg hga] at h
          simp only [Option.some.injEq, Prod.mk.injEq] at h
          rw [← h.2, hf.1]
          exact ⟨rfl, rfl, rfl, hf.2.1, hf.2.2.1, hf.2.2.2.1, hf.2.2.2.2⟩

/-- C17: when `get_req_creds` returns without taking the squash-all branch
(after the switch `CREDS_ANON` is clear, the export is not all-anonymous, and
it is not the case that root is squashed and the original uid is 0), the
effective uid is the original uid and `UID_SQUASHED` is clear; the effective
gid is the export's anonymous gid with `GID_SQUASHED` set if root is not
allowed and the original gid is 0, and otherwise the original gid with
`GID_SQUASHED` clear. -/
theorem get_req_creds_primary_ids (K : Hdr) (E : Env) (req : svc_req)
    (perms : export_perms_t) (s s1 : State) (c : req_op_context) (sl : copy_slot)
    (b1 : Bool)
    (hK : K.cred_flags_ok)
    (hsw : flavor_switch K E req perms (reset_flags K s).ctx = some (some (c, sl)))
    (hanon : c.cred_flags &&& K.CREDS_ANON = 0)
    (hall : perms.options &&& K.EXPORT_OPTION_ALL_ANONYMOUS = 0)
    (hroot : ¬ (perms.options &&& K.EXPORT_OPTION_ROOT = 0 ∧ c.original_creds.caller_uid = 0))
    (hcall : get_req_creds K E req perms s = some (b1, s1)) :
    s1.ctx.creds.caller_uid = c.original_creds.caller_uid ∧
    s1.ctx.cred_flags &&& K.UID_SQUASHED = 0 ∧
    ((perms.options &&& K.EXPORT_OPTION_ROOT = 0 ∧ c.original_creds.caller_gid = 0) →
      s1.ctx.creds.caller_gid = perms.anonymous_gid ∧
      s1.ctx.cred_flags &&& K.GID_SQUASHED ≠ 0) ∧
    (¬ (perms.options &&& K.EXPORT_OPTION_ROOT = 0 ∧ c.original_creds.caller_gid = 0) →
      s1.ctx.creds.caller_gid = c.original_creds.caller_gid ∧
      s1.ctx.cred_flags &&& K.GID_SQUASHED = 0) := by
  obtain ⟨hL0, hA0, hU0, hG0, hGA0, hM0, hLA, hLU, hLG, hLGA, hLM, hAU, hAG, hAGA, hAM,
    hUG, hUGA, hUM, hGGA, hGM, hGAM⟩ := hK
  have hns : ¬ squash_all K perms c := by
    intro h
    rcases h with h | h | h
    · exact h hanon
    · exact h hall
    · exact hroot h
  have hMU : K.MANAGED_GIDS &&& K.UID_SQUASHED = 0 := by rw [Nat.and_comm]; exact hUM
  have hMG : K.MANAGED_GIDS &&& K.GID_SQUASHED = 0 := by rw [Nat.and_comm]; exact hGM
  have hGU : K.GID_SQUASHED &&& K.UID_SQUASHED = 0 := by rw [Nat.and_comm]; exact hUG
  have hGAU : K.GARRAY_SQUASHED &&& K.UID_SQUASHED = 0 := by rw [Nat.and_comm]; exact hUGA
  have hGAG : K.GARRAY_SQUASHED &&& K.GID_SQUASHED = 0 := by rw [Nat.and_comm]; exact hGGA
  obtain ⟨_, _, _, hfl0⟩ := flavor_switch_frame K E req perms _ c sl hsw
  have hcU : c.cred_flags &&& K.UID_SQUASHED = 0 := by
    rw [hfl0 _ hLU hAU hMU]
    exact mask_and_and_zero _ (mask_or_clear.mpr ⟨hLU, hAU⟩)
  have hcG : c.cred_flags &&& K.GID_SQUASHED = 0 := by
    rw [hfl0 _ hLG hAG hMG]
    exact mask_and_and_zero _ (mask_or_clear.mpr ⟨hLG, hAG⟩)
  have key : s1.ctx.creds.caller_uid = (squash_gid K perms c).creds.caller_uid ∧
      s1.ctx.creds.caller_gid = (squash_gid K perms c).creds.caller_gid ∧
      ∀ m, K.GARRAY_SQUASHED &&& m = 0 →
        s1.ctx.cred_flags &&& m = (squash_gid K perms c).cred_flags &&& m := by
    simp only [get_req_creds, hsw, resolve_creds, if_neg hns] at hcall
    cases hsel : select_groups K E { reset_flags K s with ctx := squash_gid K perms c } with
    | mk b s2 =>
      rw [hsel] at hcall
      cases b with
      | false =>
        simp only [Option.some.injEq, Prod.mk.injEq] at hcall
        have h2 := (select_groups_false K E _ _ hsel).1
        rw [← hcall.2, h2]
        exact ⟨rfl, rfl, fun _ _ => rfl⟩
      | true =>
        simp only at hcall
        obtain ⟨_, _, hfl, _, _, _, hu, hg⟩ := select_groups_true K E _ _ hsel
        obtain ⟨iu, ig, _, _, _, _, ifl⟩ := squash_garray_ids K E perms sl s2 b1 s1 hcall
        refine ⟨iu.trans hu, ig.trans hg, fun m hm => ?_⟩
        rw [ifl m hm, hfl]
  obtain ⟨ku, kg, kf⟩ := key
  refine ⟨?_, ?_, ?_, ?_⟩
  · rw [ku, squash_gid_eq]
  · rw [kf _ hGAU, squash_gid_flags_and K perms c _ hGU]
    exact hcU
  · intro hg
    rw [kg, kf _ hGAG, squash_gid_eq]
    simp only [if_pos hg]
    exact ⟨trivial, mask_or_ne_zero_right _ (mask_self_ne_zero hG0)⟩
  · intro hg
    rw [kg, kf _ hGAG, squash_gid_eq]
    simp only [if_neg hg]
    exact ⟨trivial, hcG⟩

/-- Witness for C17: an AUTH_SYS request of uid 1000 and gid 0 with three
groups on an export that squashes root: the uid stays 1000, the gid becomes
65534. -/
theorem get_req_creds_primary_ids_witness :
    ∃ s1, get_req_creds sampleHdr sampleEnv (sysReq 1000 0 3 1) (samplePerms 0x140)
        sampleState = some (true, s1) ∧
      s1.ctx.creds.caller_uid = 1000 ∧
      s1.ctx.cred_flags &&& sampleHdr.UID_SQUASHED = 0 ∧
      s1.ctx.creds.caller_gid = 65534 ∧
      s1.ctx.cred_flags &&& sampleHdr.GID_SQUASHED ≠ 0 :=
  have hsw : flavor_switch sampleHdr sampleEnv (sysReq 1000 0 3 1) (samplePerms 0x140)
      (reset_flags sampleHdr sampleState).ctx = some _ := rfl
  have hcall : get_req_creds sampleHdr sampleEnv (sysReq 1000 0 3 1) (samplePerms 0x140)
      sampleState = some (true, _) := rfl
  have h := get_req_creds_primary_ids sampleHdr sampleEnv (sysReq 1000 0 3 1)
    (samplePerms 0x140) sampleState _ _ _ true (by decide) hsw (by decide) (by decide)
    (by decide) hcall
  ⟨_, hcall, h.1, h.2.1, (h.2.2.1 (by decide)).1, (h.2.2.1 (by decide)).2⟩

/-! ## The source of the supplementary groups -/

/-- C18: for a call that does not take the squash-all branch.  If
`MANAGED_GIDS` is set, no group data is cached and `uid2grp` fails for the
original uid, `get_req_creds` returns false.  If `MANAGED_GIDS` is set and
group data is cached or the lookup succeeds, the list handed to the scan, and
its count, are those of the group data (a cached one is used without a new
lookup), and the count is the effective count on return.  If `MANAGED_GIDS`
is clear, they are the original list and count of the client. -/
theorem get_req_creds_group_source (K : Hdr) (E : Env) (req : svc_req)
    (perms : export_perms_t) (s : State) (c : req_op_context) (sl : copy_slot)
    (hGM : K.GID_SQUASHED &&& K.MANAGED_GIDS = 0)
    (hsw : flavor_switch K E req perms (reset_flags K s).ctx = some (some (c, sl)))
    (hns : ¬ squash_all K perms c) :
    (c.cred_flags &&& K.MANAGED_GIDS ≠ 0 → c.caller_gdata = none →
      E.uid2grp c.original_creds.caller_uid = none →
      ∃ s1, get_req_creds K E req perms s = some (false, s1)) ∧
    (∀ gd, c.cred_flags &&& K.MANAGED_GIDS ≠ 0 →
      (c.caller_gdata = some gd ∨
        (c.caller_gdata = none ∧ E.uid2grp c.original_creds.caller_uid = some gd)) →
      ∃ p, get_req_creds K E req perms s = squash_garray K E perms sl p ∧
        p.ctx.creds.caller_glen = gd.nbgroups ∧ p.ctx.creds.caller_garray = gd.groups ∧
        p.heap = s.heap ∧
        (c.caller_gdata = some gd → p.uid2grp_calls = s.uid2grp_calls) ∧
        ∀ b1 s1, get_req_creds K E req perms s = some (b1, s1) →
          s1.ctx.creds.caller_glen = gd.nbgroups) ∧
    (c.cred_flags &&& K.MANAGED_GIDS = 0 →
      ∃ p, get_req_creds K E req perms s = squash_garray K E perms sl p ∧
        p.ctx.creds.caller_glen = c.original_creds.caller_glen ∧
        p.ctx.creds.caller_garray = c.original_creds.caller_garray ∧
        p.heap = s.heap ∧ p.uid2grp_calls = s.uid2grp_calls ∧
        ∀ b1 s1, get_req_creds K E req perms s = some (b1, s1) →
          s1.ctx.creds.caller_glen = c.original_creds.caller_glen) := by
  obtain ⟨ho, hgd, _, _, _⟩ := squash_gid_frame K perms c
  have hfl := squash_gid_flags_and K perms c _ hGM
  have hcall : get_req_creds K E req perms s =
      match select_groups K E { reset_flags K s with ctx := squash_gid K perms c } with
      | (false, s1) => some (false, s1)
      | (true, s1) => squash_garray K E perms sl s1 := by
    simp only [get_req_creds, hsw]
    exact resolve_creds_not_squash_all K E perms sl _ hns
  refine ⟨?_, ?_, ?_⟩
  · intro hm hnone hfail
    have hsel : select_groups K E { reset_flags K s with ctx := squash_gid K perms c } =
        (false, { reset_flags K s with
          ctx := squash_gid K perms c
          uid2grp_calls := c.original_creds.caller_uid :: s.uid2grp_calls }) := by
      simp only [select_groups]
      rw [if_pos (by rw [hfl]; exact hm)]
      simp only [hgd, hnone, ho, hfail]
      rfl
    rw [hcall, hsel]
    exact ⟨_, rfl⟩
  · intro gd hm hsrc
    rcases hsrc with hc | ⟨hnone, hok⟩
    · have hsel : select_groups K E { reset_flags K s with ctx := squash_gid K perms c } =
          (true, { reset_flags K s with
            ctx := { squash_gid K perms c with
              creds := { (squash_gid K perms c).creds with
                caller_glen := gd.nbgroups, caller_garray := gd.groups } } }) := by
        simp only [select_groups]
        rw [if_pos (by rw [hfl]; exact hm)]
        simp only [hgd, hc]
      rw [hcall, hsel]
      refine ⟨_, rfl, rfl, rfl, rfl, fun _ => rfl, fun b1 s1 h => ?_⟩
      exact (squash_garray_ids K E perms sl _ b1 s1 h).2.2.1
    · have hsel : select_groups K E { reset_flags K s with ctx := squash_gid K perms c } =
          (true, { reset_flags K s with
            uid2grp_calls := c.original_creds.caller_uid :: s.uid2grp_calls
            ctx := { squash_gid K perms c with
              caller_gdata := some gd
              creds := { (squash_gid K perms c).creds with
                caller_glen := gd.nbgroups, caller_garray := gd.groups } } }) := by
        simp only [select_groups]
        rw [if_pos (by rw [hfl]; exact hm)]
        simp only [hgd, hnone, ho, hok]
        rfl
      rw [hcall, hsel]
      refine ⟨_, rfl, rfl, rfl, rfl, fun h => ?_, fun b1 s1 h => ?_⟩
      · rw [hnone] at h
        cases h
      · exact (squash_garray_ids K E perms sl _ b1 s1 h).2.2.1
  · intro hm
    have hsel : select_groups K E { reset_flags K s with ctx := squash_gid K perms c } =
        (true, { reset_flags K s with
          ctx := { squash_gid K perms c with
            creds := { (squash_gid K perms c).creds with
              caller_glen := c.original_creds.caller_glen
              caller_garray := c.original_creds.caller_garray } } }) := by
      simp only [select_groups]
      rw [if_neg (by rw [hfl]; exact not_not.mpr hm)]
      simp only [ho]
    rw [hcall, hsel]
    refine ⟨_, rfl, rfl, rfl, rfl, rfl, fun b1 s1 h => ?_⟩
    exact (squash_garray_ids K E perms sl _ b1 s1 h).2.2.1

/-- Witness for C18: an AUTH_SYS request of uid 1000 on an export that manages
the groups: the list handed to the scan is the looked-up one, two groups at
address 1, and not the three groups of the client. -/
theorem get_req_creds_group_source_witness :
    ∃ p, get_req_creds sampleHdr sampleEnv (sysReq 1000 100 3 1) (samplePerms 0x144)
        sampleState = squash_garray sampleHdr sampleEnv (samplePerms 0x144) .managed p ∧
      p.ctx.creds.caller_glen = 2 ∧ p.ctx.creds.caller_garray = some 1 :=
  have hsw : flavor_switch sampleHdr sampleEnv (sysReq 1000 100 3 1) (samplePerms 0x144)
      (reset_flags sampleHdr sampleState).ctx = some (some (_, .managed)) := rfl
  have h := get_req_creds_group_source sampleHdr sampleEnv (sysReq 1000 100 3 1)
    (samplePerms 0x144) sampleState _ .managed (by decide) hsw (by decide)
  match h.2.1 { nbgroups := 2, groups := some 1 } (by decide) (Or.inr ⟨rfl, rfl⟩) with
  | ⟨p, hp, hn, hg, _⟩ => ⟨p, hp, hn, hg⟩

/-! ## The managed-groups mark of an RPCSEC_GSS request -/

/-- For an RPCSEC_GSS request whose principal is mapped on this call, or whose
mapping is skipped because the credentials are already loaded,
`MANAGED_GIDS` is set when `get_req_creds` returns. -/
theorem get_req_creds_gss_managed (K : Hdr) (E : Env) (req : svc_req)
    (perms : export_perms_t) (s s1 : State) (b1 : Bool)
    (hK : K.cred_flags_ok)
    (hgss : K.HAVE_GSSAPI = true) (hfl : req.oa_flavor = RPCSEC_GSS)
    (hmap : s.ctx.cred_flags &&& K.CREDS_LOADED ≠ 0 ∨ E.principal2uid req.rq_auth ≠ none)
    (hcall : get_req_creds K E req perms s = some (b1, s1)) :
    s1.ctx.cred_flags &&& K.MANAGED_GIDS ≠ 0 := by
  obtain ⟨hL0, hA0, hU0, hG0, hGA0, hM0, hLA, hLU, hLG, hLGA, hLM, hAU, hAG, hAGA, hAM,
    hUG, hUGA, hUM, hGGA, hGM, hGAM⟩ := hK
  have hres : (reset_flags K s).ctx.cred_flags &&& K.CREDS_LOADED
      = s.ctx.cred_flags &&& K.CREDS_LOADED := by
    show (s.ctx.cred_flags &&& (K.CREDS_LOADED ||| K.CREDS_ANON)) &&& K.CREDS_LOADED = _
    rw [Nat.and_assoc, mask_absorb_or]
  have hsw : ∃ c, flavor_switch K E req perms (reset_flags K s).ctx
        = some (some (c, .managed)) ∧
      c.cred_flags &&& K.MANAGED_GIDS ≠ 0 := by
    by_cases hl : (reset_flags K s).ctx.cred_flags &&& K.CREDS_LOADED = 0
    · by_cases hfit : req.rq_auth.cname.length ≤ K.MAXNAMLEN
      · simp only [flavor_switch, hfl]
        rw [if_neg (by decide : ¬ RPCSEC_GSS = AUTH_NONE),
          if_neg (by decide : ¬ RPCSEC_GSS = AUTH_SYS), if_pos ⟨hgss, trivial⟩, if_pos hl,
          if_pos hfit]
        rw [hres] at hl
        rcases hmap with h | h
        · exact absurd hl h
        · cases hp : E.principal2uid req.rq_auth with
          | none => exact absurd hp h
          | some r =>
            exact ⟨_, rfl, mask_or_ne_zero_right _ (mask_self_ne_zero hM0)⟩
      · exfalso
        rw [hres] at hl
        rw [get_req_creds_gss_overflow K E req perms s hgss hfl hl (Nat.not_le.mp hfit)]
          at hcall
        cases hcall
    · simp only [flavor_switch, hfl]
      rw [if_neg (by decide : ¬ RPCSEC_GSS = AUTH_NONE),
        if_neg (by decide : ¬ RPCSEC_GSS = AUTH_SYS), if_pos ⟨hgss, trivial⟩, if_neg hl]
      exact ⟨_, rfl, mask_or_ne_zero_right _ (mask_self_ne_zero hM0)⟩
  obtain ⟨c, hsw, hcM⟩ := hsw
  simp only [get_req_creds, hsw, resolve_creds] at hcall
  by_cases hsq : squash_all K perms c
  · rw [if_pos hsq] at hcall
    simp only [Option.some.injEq, Prod.mk.injEq] at hcall
    rw [← hcall.2]
    exact mask_or_ne_zero_left _ hcM
  · rw [if_neg hsq] at hcall
    have hgM : (squash_gid K perms c).cred_flags &&& K.MANAGED_GIDS ≠ 0 := by
      rw [squash_gid_flags_and K perms c _ hGM]
      exact hcM
    cases hsel : select_groups K E { reset_flags K s with ctx := squash_gid K perms c } with
    | mk b s2 =>
      rw [hsel] at hcall
      cases b with
      | false =>
        simp only [Option.some.injEq, Prod.mk.injEq] at hcall
        rw [← hcall.2, (select_groups_false K E _ _ hsel).1]
        exact hgM
      | true =>
        simp only at hcall
        obtain ⟨_, _, hf2, _⟩ := select_groups_true K E _ _ hsel
        rw [(squash_garray_ids K E perms .managed s2 b1 s1 hcall).2.2.2.2.2.2 _ hGAM, hf2]
        exact hgM

/-- C19, at the input where the code departs from it: an RPCSEC_GSS request
whose principal has no mapping, on a freshly initialized context.  The call
returns true with `CREDS_ANON` set and `MANAGED_GIDS` clear: the failed
mapping leaves the switch before the flag is set. -/
theorem get_req_creds_gss_unmapped_not_managed :
    sampleEnv.principal2uid (gssReq RPCSEC_GSS [122]).rq_auth = none ∧
    ∃ s1, get_req_creds sampleHdr sampleEnv (gssReq RPCSEC_GSS [122]) (samplePerms 0x140)
        sampleState = some (true, s1) ∧
      s1.ctx.cred_flags &&& sampleHdr.CREDS_ANON ≠ 0 ∧
      s1.ctx.cred_flags &&& sampleHdr.MANAGED_GIDS = 0 :=
  ⟨rfl, _, rfl, by decide, by decide⟩

/-! ## The write-class bits -/

theorem mask_incl_or {a y : Nat} (z : Nat) (h : a &&& y = y) : (a ||| z) &&& y = y := by
  rw [mask_or_and, h, Nat.or_comm, mask_absorb_and]

theorem mask_incl_self (a y : Nat) : (a ||| y) &&& y = y := by
  rw [Nat.or_comm, mask_absorb_or]

theorem mask_incl_ite (c : Prop) [Decidable c] {a y : Nat} (z : Nat) (h : a &&& y = y) :
    (if c then a ||| z else a) &&& y = y := by
  by_cases hc : c
  · rw [if_pos hc]; exact mask_incl_or z h
  · rw [if_neg hc]; exact h

theorem mask_incl_and {b g y : Nat} (h : b &&& y = y) : (b &&& g) &&& y = g &&& y := by
  rw [Nat.and_comm b g, Nat.and_assoc, h]

/-- For a directory, a request for MODIFY or for DELETE puts `FSAL_W_OK` and
the delete-child permission into the access mask. -/
theorem access_mask_of_directory_delete_child (K : Hdr) (entry : cache_entry_t)
    (requested_access : Nat) (hdir : entry.type = .DIRECTORY)
    (hreq : requested_access &&& ACCESS3_MODIFY ≠ 0 ∨ requested_access &&& ACCESS3_DELETE ≠ 0) :
    access_mask_of K entry requested_access &&& (K.FSAL_W_OK ||| K.FSAL_ACE_PERM_DELETE_CHILD)
      = K.FSAL_W_OK ||| K.FSAL_ACE_PERM_DELETE_CHILD := by
  simp only [access_mask_of]
  apply mask_incl_ite
  apply mask_incl_ite
  by_cases hd : requested_access &&& ACCESS3_DELETE ≠ 0
  · rw [if_pos ⟨hd, hdir⟩]
    exact mask_incl_self _ _
  · have hm : requested_access &&& ACCESS3_MODIFY ≠ 0 := hreq.resolve_right hd
    apply mask_incl_ite
    rw [if_pos hdir]
    by_cases he : requested_access &&& ACCESS3_EXTEND ≠ 0
    · rw [if_pos he]
      apply mask_incl_or
      rw [if_pos hm, if_pos hdir]
      exact mask_incl_self _ _
    · rw [if_neg he, if_pos hm, if_pos hdir]
      exact mask_incl_self _ _

/-- For a non-directory, a request for EXTEND puts `FSAL_W_OK` and the
append-data permission into the access mask. -/
theorem access_mask_of_file_append (K : Hdr) (entry : cache_entry_t)
    (requested_access : Nat) (hnd : entry.type ≠ .DIRECTORY)
    (he : requested_access &&& ACCESS3_EXTEND ≠ 0) :
    access_mask_of K entry requested_access &&& (K.FSAL_W_OK ||| K.FSAL_ACE_PERM_APPEND_DATA)
      = K.FSAL_W_OK ||| K.FSAL_ACE_PERM_APPEND_DATA := by
  simp only [access_mask_of]
  apply mask_incl_ite
  apply mask_incl_ite
  apply mask_incl_ite
  rw [if_pos he, if_neg hnd]
  exact mask_incl_self _ _

/-- For a directory, an allowed delete-child permission collects MODIFY and
DELETE. -/
theorem granted_bits_directory_delete_child (K : Hdr) (entry : cache_entry_t)
    (access_allowed : Nat) (hdir : entry.type = .DIRECTORY)
    (hdc : access_allowed &&& K.FSAL_ACE_PERM_DELETE_CHILD ≠ 0) :
    granted_bits K entry access_allowed &&& (ACCESS3_MODIFY ||| ACCESS3_DELETE)
      = ACCESS3_MODIFY ||| ACCESS3_DELETE := by
  simp only [granted_bits]
  apply mask_incl_ite
  rw [if_pos hdir]
  apply mask_incl_ite
  apply mask_incl_ite
  rw [if_pos hdc]
  exact mask_incl_self _ _

/-- For a non-directory, an allowed append-data permission collects EXTEND. -/
theorem granted_bits_file_append (K : Hdr) (entry : cache_entry_t)
    (access_allowed : Nat) (hnd : entry.type ≠ .DIRECTORY)
    (hap : access_allowed &&& K.FSAL_ACE_PERM_APPEND_DATA ≠ 0) :
    granted_bits K entry access_allowed &&& ACCESS3_EXTEND = ACCESS3_EXTEND := by
  simp only [granted_bits]
  apply mask_incl_ite
  rw [if_neg hnd, if_pos hap]
  exact mask_incl_self _ _

/-- The adjustment of the requested mask never touches MODIFY or EXTEND, and
for a directory it does not touch DELETE. -/
theorem granted_mask_of_write_bits (entry : cache_entry_t) (requested_access : Nat) :
    granted_mask_of entry requested_access &&& ACCESS3_EXTEND
      = requested_access &&& ACCESS3_EXTEND ∧
    (entry.type = .DIRECTORY →
      granted_mask_of entry requested_access &&& (ACCESS3_MODIFY ||| ACCESS3_DELETE)
        = requested_access &&& (ACCESS3_MODIFY ||| ACCESS3_DELETE)) := by
  have k1 : not32 ACCESS3_LOOKUP &&& ACCESS3_EXTEND = ACCESS3_EXTEND := by decide
  have k2 : not32 ACCESS3_DELETE &&& ACCESS3_EXTEND = ACCESS3_EXTEND := by decide
  have k3 : not32 ACCESS3_EXECUTE &&& ACCESS3_EXTEND = ACCESS3_EXTEND := by decide
  have k4 : not32 ACCESS3_EXECUTE &&& (ACCESS3_MODIFY ||| ACCESS3_DELETE)
      = ACCESS3_MODIFY ||| ACCESS3_DELETE := by decide
  constructor
  · unfold granted_mask_of
    simp only
    split_ifs <;>
      simp only [mask_and_keep _ k1, mask_and_keep _ k2, mask_and_keep _ k3]
  · intro hdir
    have hnn : ¬ entry.type ≠ .DIRECTORY := not_not.mpr hdir
    unfold granted_mask_of
    simp only
    have hl : ¬ (requested_access &&& ACCESS3_LOOKUP ≠ 0 ∧ entry.type ≠ .DIRECTORY) :=
      fun h => hnn h.2
    have hd : ¬ (requested_access &&& ACCESS3_DELETE ≠ 0 ∧ entry.type ≠ .DIRECTORY) :=
      fun h => hnn h.2
    rw [if_neg hl, if_neg hd]
    split_ifs
    · exact mask_and_keep _ k4
    · rfl

/-- C20: for a directory, a request for MODIFY or for DELETE puts `FSAL_W_OK`
and the delete-child permission into the mask handed to the evaluator, and
when the evaluator answers and allows delete-child, the granted ones among
MODIFY and DELETE are exactly the requested ones; for a non-directory, a
request for EXTEND puts `FSAL_W_OK` and the append-data permission into the
mask, and when the evaluator answers and allows append-data, EXTEND is
granted exactly when it was requested. -/
theorem nfs_access_op_write_bits (K : Hdr) (E : Env) (entry : cache_entry_t)
    (requested_access : Nat) (supported_access : Option Nat) (req_ctx : req_op_context)
    (hst : (nfs_access_op K E entry requested_access supported_access req_ctx).status
        = .CACHE_INODE_SUCCESS ∨
      (nfs_access_op K E entry requested_access supported_access req_ctx).status
        = .CACHE_INODE_FSAL_EACCESS) :
    (entry.type = .DIRECTORY →
      ((requested_access &&& ACCESS3_MODIFY ≠ 0 ∨ requested_access &&& ACCESS3_DELETE ≠ 0) →
        access_mask_of K entry requested_access
            &&& (K.FSAL_W_OK ||| K.FSAL_ACE_PERM_DELETE_CHILD)
          = K.FSAL_W_OK ||| K.FSAL_ACE_PERM_DELETE_CHILD) ∧
      ((E.cache_inode_access_sw entry (access_mask_of K entry requested_access) req_ctx).2.1
          &&& K.FSAL_ACE_PERM_DELETE_CHILD ≠ 0 →
        (nfs_access_op K E entry requested_access supported_access req_ctx).granted_access
            &&& (ACCESS3_MODIFY ||| ACCESS3_DELETE)
          = requested_access &&& (ACCESS3_MODIFY ||| ACCESS3_DELETE))) ∧
    (entry.type ≠ .DIRECTORY →
      (requested_access &&& ACCESS3_EXTEND ≠ 0 →
        access_mask_of K entry requested_access
            &&& (K.FSAL_W_OK ||| K.FSAL_ACE_PERM_APPEND_DATA)
          = K.FSAL_W_OK ||| K.FSAL_ACE_PERM_APPEND_DATA) ∧
      ((E.cache_inode_access_sw entry (access_mask_of K entry requested_access) req_ctx).2.1
          &&& K.FSAL_ACE_PERM_APPEND_DATA ≠ 0 →
        (nfs_access_op K E entry requested_access supported_access req_ctx).granted_access
            &&& ACCESS3_EXTEND
          = requested_access &&& ACCESS3_EXTEND)) := by
  have hg := (nfs_access_op_answered K E entry requested_access supported_access req_ctx hst).1
  have hw := granted_mask_of_write_bits entry requested_access
  refine ⟨fun hdir => ⟨access_mask_of_directory_delete_child K entry requested_access hdir,
      fun hdc => ?_⟩,
    fun hnd => ⟨access_mask_of_file_append K entry requested_access hnd, fun hap => ?_⟩⟩
  · rw [hg, mask_incl_and (granted_bits_directory_delete_child K entry _ hdir hdc)]
    exact hw.2 hdir
  · rw [hg, mask_incl_and (granted_bits_file_append K entry _ hnd hap)]
    exact hw.1

/-- Witness for C20: MODIFY and DELETE requested on a directory, with the
sample evaluator, which allows what is asked: both are granted, and the mask
holds `FSAL_W_OK` and delete-child. -/
theorem nfs_access_op_write_bits_witness :
    access_mask_of sampleHdr { id := 1, type := .DIRECTORY }
        (ACCESS3_MODIFY ||| ACCESS3_DELETE)
        &&& (sampleHdr.FSAL_W_OK ||| sampleHdr.FSAL_ACE_PERM_DELETE_CHILD)
      = sampleHdr.FSAL_W_OK ||| sampleHdr.FSAL_ACE_PERM_DELETE_CHILD ∧
    (nfs_access_op sampleHdr sampleEnv { id := 1, type := .DIRECTORY }
        (ACCESS3_MODIFY ||| ACCESS3_DELETE) none sampleState.ctx).granted_access
        &&& (ACCESS3_MODIFY ||| ACCESS3_DELETE)
      = (ACCESS3_MODIFY ||| ACCESS3_DELETE) &&& (ACCESS3_MODIFY ||| ACCESS3_DELETE) :=
  have h := (nfs_access_op_write_bits sampleHdr sampleEnv { id := 1, type := .DIRECTORY }
    (ACCESS3_MODIFY ||| ACCESS3_DELETE) none sampleState.ctx (Or.inl rfl)).1 rfl
  ⟨h.1 (Or.inl (by decide)), h.2 (by decide)⟩

/-! ## Everything asked is allowed -/

theorem mask_incl_sub {a y z : Nat} (h : a &&& y = y) (hz : y &&& z = z) : a &&& z = z := by
  rw [← hz, ← Nat.and_assoc, h]

theorem mask_incl_ne_zero {a y : Nat} (h : a &&& y = y) (hy : y ≠ 0) : a &&& y ≠ 0 := by
  rw [h]; exact hy

theorem mask_incl_or_left (a y z : Nat) : (a ||| (y ||| z)) &&& y = y :=
  mask_incl_sub (mask_incl_self a (y ||| z)) (mask_absorb_or y z)

theorem mask_incl_ite2 (c d : Prop) [Decidable c] [Decidable d] {a y : Nat} (z1 z2 : Nat)
    (h : a &&& y = y) :
    (if c then (if d then a ||| z1 else a ||| z2) else a) &&& y = y := by
  by_cases hc : c
  · rw [if_pos hc]
    by_cases hd : d
    · rw [if_pos hd]; exact mask_incl_or z1 h
    · rw [if_neg hd]; exact mask_incl_or z2 h
  · rw [if_neg hc]; exact h

/-- A single bit of a mask is either absent or present. -/
theorem mask_bit_cases (x i : Nat) : x &&& 2 ^ i = 0 ∨ x &&& 2 ^ i = 2 ^ i := by
  have h := Nat.and_two_pow x i
  cases hb : x.testBit i
  · left; rw [h, hb]; simp
  · right; rw [h, hb]; simp

/-- A mask that holds every bit of `g` that lies in `y` and in `z` holds every
bit of `g` that lies in `y ||| z`. -/
theorem mask_incl_join {b g y z : Nat} (hy : b &&& (g &&& y) = g &&& y)
    (hz : b &&& (g &&& z) = g &&& z) : b &&& (g &&& (y ||| z)) = g &&& (y ||| z) := by
  rw [Nat.and_or_distrib_left, Nat.and_or_distrib_left, hy, hz]

/-- If a mask holds the bit `2 ^ i` whenever `g` does, it holds the part of `g`
in that bit. -/
theorem mask_incl_bit {b g : Nat} (i : Nat) (h : g &&& 2 ^ i ≠ 0 → b &&& 2 ^ i = 2 ^ i) :
    b &&& (g &&& 2 ^ i) = g &&& 2 ^ i := by
  rcases mask_bit_cases g i with h0 | h1
  · rw [h0]; exact Nat.and_zero b
  · rw [h1]
    exact h (by rw [h1]; exact Nat.pos_iff_ne_zero.mp (Nat.two_pow_pos i))

/-- The access mask holds `FSAL_R_OK` when READ is requested. -/
theorem access_mask_of_read (K : Hdr) (entry : cache_entry_t) (requested_access : Nat)
    (h : requested_access &&& ACCESS3_READ ≠ 0) :
    access_mask_of K entry requested_access &&& K.FSAL_R_OK = K.FSAL_R_OK := by
  simp only [access_mask_of]
  apply mask_incl_ite
  apply mask_incl_ite
  apply mask_incl_ite
  apply mask_incl_ite2
  apply mask_incl_ite2
  apply mask_incl_ite
  rw [if_pos h]
  exact mask_incl_or_left _ _ _

/-- The access mask holds `FSAL_W_OK` when MODIFY or EXTEND is requested, or
DELETE on a directory. -/
theorem access_mask_of_write (K : Hdr) (entry : cache_entry_t) (requested_access : Nat)
    (h : requested_access &&& ACCESS3_MODIFY ≠ 0 ∨ requested_access &&& ACCESS3_EXTEND ≠ 0 ∨
      (requested_access &&& ACCESS3_DELETE ≠ 0 ∧ entry.type = .DIRECTORY)) :
    access_mask_of K entry requested_access &&& K.FSAL_W_OK = K.FSAL_W_OK := by
  simp only [access_mask_of]
  apply mask_incl_ite
  apply mask_incl_ite
  by_cases hd : requested_access &&& ACCESS3_DELETE ≠ 0 ∧ entry.type = .DIRECTORY
  · rw [if_pos hd]
    exact mask_incl_or_left _ _ _
  · apply mask_incl_ite
    by_cases he : requested_access &&& ACCESS3_EXTEND ≠ 0
    · rw [if_pos he]
      by_cases hdir : entry.type = .DIRECTORY
      · rw [if_pos hdir, Nat.or_assoc]
        exact mask_incl_or_left _ _ _
      · rw [if_neg hdir]
        exact mask_incl_or_left _ _ _
    · have hm : requested_access &&& ACCESS3_MODIFY ≠ 0 := by
        rcases h with h | h | h
        · exact h
        · exact absurd h he
        · exact absurd h hd
      rw [if_neg he, if_pos hm]
      by_cases hdir : entry.type = .DIRECTORY
      · rw [if_pos hdir]
        exact mask_incl_or_left _ _ _
      · rw [if_neg hdir]
        exact mask_incl_or_left _ _ _

/-- The access mask holds `FSAL_X_OK` when LOOKUP is requested on a directory
or EXECUTE on another entry. -/
theorem access_mask_of_exec (K : Hdr) (entry : cache_entry_t) (requested_access : Nat)
    (h : (requested_access &&& ACCESS3_LOOKUP ≠ 0 ∧ entry.type = .DIRECTORY) ∨
      (requested_access &&& ACCESS3_EXECUTE ≠ 0 ∧ entry.type ≠ .DIRECTORY)) :
    access_mask_of K entry requested_access &&& K.FSAL_X_OK = K.FSAL_X_OK := by
  simp only [access_mask_of]
  apply mask_incl_ite
  by_cases hx : requested_access &&& ACCESS3_EXECUTE ≠ 0 ∧ entry.type ≠ .DIRECTORY
  · rw [if_pos hx]
    exact mask_incl_or_left _ _ _
  · have hl : requested_access &&& ACCESS3_LOOKUP ≠ 0 ∧ entry.type = .DIRECTORY :=
      h.resolve_right hx
    apply mask_incl_ite
    apply mask_incl_ite
    apply mask_incl_ite2
    apply mask_incl_ite2
    rw [if_pos hl]
    exact mask_incl_or_left _ _ _

/-- What `FSAL_R_OK`, `FSAL_W_OK` and `FSAL_X_OK` in the allowed mask
collect. -/
theorem granted_bits_mode (K : Hdr) (entry : cache_entry_t) (access_allowed : Nat) :
    (access_allowed &&& K.FSAL_R_OK ≠ 0 →
      granted_bits K entry access_allowed &&& ACCESS3_READ = ACCESS3_READ) ∧
    (access_allowed &&& K.FSAL_W_OK ≠ 0 →
      granted_bits K entry access_allowed &&& (ACCESS3_MODIFY ||| ACCESS3_EXTEND ||| ACCESS3_DELETE)
        = ACCESS3_MODIFY ||| ACCESS3_EXTEND ||| ACCESS3_DELETE) ∧
    (access_allowed &&& K.FSAL_X_OK ≠ 0 →
      granted_bits K entry access_allowed &&& (ACCESS3_LOOKUP ||| ACCESS3_EXECUTE)
        = ACCESS3_LOOKUP ||| ACCESS3_EXECUTE) := by
  refine ⟨fun h => ?_, fun h => ?_, fun h => ?_⟩
  · simp only [granted_bits]
    apply mask_incl_ite
    by_cases hdir : entry.type = .DIRECTORY
    · rw [if_pos hdir]
      apply mask_incl_ite
      apply mask_incl_ite
      apply mask_incl_ite
      apply mask_incl_ite
      apply mask_incl_ite
      apply mask_incl_ite
      rw [if_pos h]
      exact mask_incl_self _ _
    · rw [if_neg hdir]
      apply mask_incl_ite
      apply mask_incl_ite
      apply mask_incl_ite
      apply mask_incl_ite
      apply mask_incl_ite
      rw [if_pos h]
      exact mask_incl_self _ _
  · simp only [granted_bits]
    apply mask_incl_ite
    by_cases hdir : entry.type = .DIRECTORY
    · rw [if_pos hdir]
      apply mask_incl_ite
      apply mask_incl_ite
      apply mask_incl_ite
      apply mask_incl_ite
      apply mask_incl_ite
      rw [if_pos h]
      exact mask_incl_self _ _
    · rw [if_neg hdir]
      apply mask_incl_ite
      apply mask_incl_ite
      apply mask_incl_ite
      apply mask_incl_ite
      rw [if_pos h]
      exact mask_incl_self _ _
  · simp only [granted_bits]
    apply mask_incl_ite
    by_cases hdir : entry.type = .DIRECTORY
    · rw [if_pos hdir]
      apply mask_incl_ite
      apply mask_incl_ite
      apply mask_incl_ite
      apply mask_incl_ite
      rw [if_pos h]
      exact mask_incl_self _ _
    · rw [if_neg hdir]
      apply mask_incl_ite
      apply mask_incl_ite
      apply mask_incl_ite
      rw [if_pos h]
      exact mask_incl_self _ _

/-- On a directory the adjusted requested mask of a 32-bit request is the
request with `EXECUTE` cleared. -/
theorem granted_mask_of_directory (entry : cache_entry_t) (requested_access : Nat)
    (hdir : entry.type = .DIRECTORY) (hr : requested_access < 4294967296) :
    granted_mask_of entry requested_access = requested_access &&& not32 ACCESS3_EXECUTE := by
  have hnn : ¬ entry.type ≠ .DIRECTORY := not_not.mpr hdir
  have hl : ¬ (requested_access &&& ACCESS3_LOOKUP ≠ 0 ∧ entry.type ≠ .DIRECTORY) :=
    fun h => hnn h.2
  have hd : ¬ (requested_access &&& ACCESS3_DELETE ≠ 0 ∧ entry.type ≠ .DIRECTORY) :=
    fun h => hnn h.2
  unfold granted_mask_of
  simp only
  rw [if_neg hl, if_neg hd]
  by_cases hx : requested_access &&& ACCESS3_EXECUTE ≠ 0
  · rw [if_pos ⟨hx, hdir⟩]
  · rw [if_neg (fun h => hx h.1)]
    have e : (4294967295 : Nat) = not32 ACCESS3_EXECUTE ||| ACCESS3_EXECUTE := by decide
    conv_lhs => rw [← mask_and_full32 hr, e]
    rw [Nat.and_or_distrib_left, not_not.mp hx, Nat.or_zero]

theorem mask_sub_ne_zero {g r : Nat} (y : Nat) (h : g &&& r = g) (hy : g &&& y ≠ 0) :
    r &&& y ≠ 0 := by
  intro h0
  apply hy
  rw [← h, Nat.and_assoc, h0, Nat.and_zero]

/-- C23: for a request made only of the six ACCESS3 bits and any entry, when
the evaluator returns success and allows every bit of the access mask it was
given, the granted access is the adjusted requested mask: the request without
LOOKUP and DELETE for a non-directory, without EXECUTE for a directory. -/
theorem nfs_access_op_complete (K : Hdr) (E : Env) (entry : cache_entry_t)
    (requested_access : Nat) (supported_access : Option Nat) (req_ctx : req_op_context)
    (hR : K.FSAL_R_OK ≠ 0) (hW : K.FSAL_W_OK ≠ 0) (hX : K.FSAL_X_OK ≠ 0)
    (hsix : requested_access &&& (ACCESS3_READ ||| ACCESS3_LOOKUP ||| ACCESS3_MODIFY |||
      ACCESS3_EXTEND ||| ACCESS3_DELETE ||| ACCESS3_EXECUTE) = requested_access)
    (hst : (E.cache_inode_access_sw entry (access_mask_of K entry requested_access) req_ctx).1
      = .CACHE_INODE_SUCCESS)
    (hall : (E.cache_inode_access_sw entry (access_mask_of K entry requested_access) req_ctx).2.1
        &&& access_mask_of K entry requested_access = access_mask_of K entry requested_access) :
    (nfs_access_op K E entry requested_access supported_access req_ctx).granted_access
      = granted_mask_of entry requested_access ∧
    (entry.type ≠ .DIRECTORY →
      (nfs_access_op K E entry requested_access supported_access req_ctx).granted_access
        = requested_access &&& not32 (ACCESS3_LOOKUP ||| ACCESS3_DELETE)) ∧
    (entry.type = .DIRECTORY →
      (nfs_access_op K E entry requested_access supported_access req_ctx).granted_access
        = requested_access &&& not32 ACCESS3_EXECUTE) := by
  have hr : requested_access < 4294967296 := by
    have h63 : requested_access ≤ 63 := by
      rw [← hsix]; exact Nat.and_le_right
    omega
  have hst2 : (nfs_access_op K E entry requested_access supported_access req_ctx).status
      = .CACHE_INODE_SUCCESS := by
    simp only [nfs_access_op]
    rw [if_pos (Or.inl hst)]
    exact hst
  have hg := (nfs_access_op_answered K E entry requested_access supported_access req_ctx
    (Or.inl hst2)).1
  have hsub := granted_mask_of_subset entry requested_access
  have hmode := granted_bits_mode K entry
    (E.cache_inode_access_sw entry (access_mask_of K entry requested_access) req_ctx).2.1
  have bR : granted_mask_of entry requested_access &&& 2 ^ 0 ≠ 0 →
      granted_bits K entry
        (E.cache_inode_access_sw entry (access_mask_of K entry requested_access) req_ctx).2.1
        &&& 2 ^ 0 = 2 ^ 0 := by
    intro h
    have hreq : requested_access &&& ACCESS3_READ ≠ 0 := mask_sub_ne_zero _ hsub h
    exact hmode.1 (mask_incl_ne_zero
      (mask_incl_sub hall (access_mask_of_read K entry requested_access hreq)) hR)
  have wbit : ∀ i, (2 : Nat) ^ i = ACCESS3_MODIFY ∨ 2 ^ i = ACCESS3_EXTEND ∨
        2 ^ i = ACCESS3_DELETE →
      (granted_mask_of entry requested_access &&& 2 ^ i ≠ 0 →
        requested_access &&& ACCESS3_MODIFY ≠ 0 ∨ requested_access &&& ACCESS3_EXTEND ≠ 0 ∨
          (requested_access &&& ACCESS3_DELETE ≠ 0 ∧ entry.type = .DIRECTORY)) →
      granted_mask_of entry requested_access &&& 2 ^ i ≠ 0 →
      granted_bits K entry
        (E.cache_inode_access_sw entry (access_mask_of K entry requested_access) req_ctx).2.1
        &&& 2 ^ i = 2 ^ i := by
    intro i hi hreq h
    have hw := hmode.2.1 (mask_incl_ne_zero
      (mask_incl_sub hall (access_mask_of_write K entry requested_access (hreq h))) hW)
    refine mask_incl_sub hw ?_
    rcases hi with e | e | e <;> rw [e] <;> decide
  have xbit : ∀ i, (2 : Nat) ^ i = ACCESS3_LOOKUP ∨ 2 ^ i = ACCESS3_EXECUTE →
      (granted_mask_of entry requested_access &&& 2 ^ i ≠ 0 →
        (requested_access &&& ACCESS3_LOOKUP ≠ 0 ∧ entry.type = .DIRECTORY) ∨
          (requested_access &&& ACCESS3_EXECUTE ≠ 0 ∧ entry.type ≠ .DIRECTORY)) →
      granted_mask_of entry requested_access &&& 2 ^ i ≠ 0 →
      granted_bits K entry
        (E.cache_inode_access_sw entry (access_mask_of K entry requested_access) req_ctx).2.1
        &&& 2 ^ i = 2 ^ i := by
    intro i hi hreq h
    have hx := hmode.2.2 (mask_incl_ne_zero
      (mask_incl_sub hall (access_mask_of_exec K entry requested_access (hreq h))) hX)
    refine mask_incl_sub hx ?_
    rcases hi with e | e <;> rw [e] <;> decide
  have bM := wbit 2 (Or.inl rfl)
    (fun h => Or.inl (mask_sub_ne_zero _ hsub h))
  have bE := wbit 3 (Or.inr (Or.inl rfl))
    (fun h => Or.inr (Or.inl (mask_sub_ne_zero _ hsub h)))
  have key : granted_bits K entry
        (E.cache_inode_access_sw entry (access_mask_of K entry requested_access) req_ctx).2.1
        &&& granted_mask_of entry requested_access = granted_mask_of entry requested_access := by
    have h63 : granted_mask_of entry requested_access &&&
        (2 ^ 0 ||| 2 ^ 1 ||| 2 ^ 2 ||| 2 ^ 3 ||| 2 ^ 4 ||| 2 ^ 5)
          = granted_mask_of entry requested_access := by
      have hsix2 : requested_access &&& (2 ^ 0 ||| 2 ^ 1 ||| 2 ^ 2 ||| 2 ^ 3 ||| 2 ^ 4 ||| 2 ^ 5)
          = requested_access := hsix
      calc granted_mask_of entry requested_access &&&
            (2 ^ 0 ||| 2 ^ 1 ||| 2 ^ 2 ||| 2 ^ 3 ||| 2 ^ 4 ||| 2 ^ 5)
          = (granted_mask_of entry requested_access &&& requested_access) &&&
            (2 ^ 0 ||| 2 ^ 1 ||| 2 ^ 2 ||| 2 ^ 3 ||| 2 ^ 4 ||| 2 ^ 5) := by rw [hsub]
        _ = granted_mask_of entry requested_access &&& (requested_access &&&
            (2 ^ 0 ||| 2 ^ 1 ||| 2 ^ 2 ||| 2 ^ 3 ||| 2 ^ 4 ||| 2 ^ 5)) := Nat.and_assoc _ _ _
        _ = granted_mask_of entry requested_access := by rw [hsix2, hsub]
    by_cases hdir : entry.type = .DIRECTORY
    · have hform := granted_mask_of_directory entry requested_access hdir hr
      have bL := xbit 1 (Or.inl rfl)
        (fun h => Or.inl ⟨mask_sub_ne_zero _ hsub h, hdir⟩)
      have bD := wbit 4 (Or.inr (Or.inr rfl))
        (fun h => Or.inr (Or.inr ⟨mask_sub_ne_zero _ hsub h, hdir⟩))
      have bX : granted_mask_of entry requested_access &&& 2 ^ 5 ≠ 0 →
          granted_bits K entry
            (E.cache_inode_access_sw entry (access_mask_of K entry requested_access)
              req_ctx).2.1 &&& 2 ^ 5 = 2 ^ 5 := by
        intro h
        exfalso
        apply h
        rw [hform]
        exact mask_and_and_zero _ (by decide)
      rw [← h63]
      exact mask_incl_join (mask_incl_join (mask_incl_join (mask_incl_join (mask_incl_join
        (mask_incl_bit 0 bR) (mask_incl_bit 1 bL)) (mask_incl_bit 2 bM)) (mask_incl_bit 3 bE))
        (mask_incl_bit 4 bD)) (mask_incl_bit 5 bX)
    · have hform := granted_mask_of_non_directory entry requested_access hdir hr
      have bL : granted_mask_of entry requested_access &&& 2 ^ 1 ≠ 0 →
          granted_bits K entry
            (E.cache_inode_access_sw entry (access_mask_of K entry requested_access)
              req_ctx).2.1 &&& 2 ^ 1 = 2 ^ 1 := by
        intro h
        exfalso
        apply h
        rw [hform]
        exact mask_and_and_zero _ (by decide)
      have bD : granted_mask_of entry requested_access &&& 2 ^ 4 ≠ 0 →
          granted_bits K entry
            (E.cache_inode_access_sw entry (access_mask_of K entry requested_access)
              req_ctx).2.1 &&& 2 ^ 4 = 2 ^ 4 := by
        intro h
        exfalso
        apply h
        rw [hform]
        exact mask_and_and_zero _ (by decide)
      have bX := xbit 5 (Or.inr rfl)
        (fun h => Or.inr ⟨mask_sub_ne_zero _ hsub h, hdir⟩)
      rw [← h63]
      exact mask_incl_join (mask_incl_join (mask_incl_join (mask_incl_join (mask_incl_join
        (mask_incl_bit 0 bR) (mask_incl_bit 1 bL)) (mask_incl_bit 2 bM)) (mask_incl_bit 3 bE))
        (mask_incl_bit 4 bD)) (mask_incl_bit 5 bX)
  have hfin : (nfs_access_op K E entry requested_access supported_access req_ctx).granted_access
      = granted_mask_of entry requested_access := by
    rw [hg]; exact key
  refine ⟨hfin, fun hnd => ?_, fun hdir => ?_⟩
  · rw [hfin]; exact granted_mask_of_non_directory entry requested_access hnd hr
  · rw [hfin]; exact granted_mask_of_directory entry requested_access hdir hr

/-- Witness for C23: all six bits requested on a directory, with the sample
evaluator, which allows what is asked: everything but EXECUTE is granted. -/
theorem nfs_access_op_complete_witness :
    (nfs_access_op sampleHdr sampleEnv { id := 1, type := .DIRECTORY } 63 none
      sampleState.ctx).granted_access = 63 &&& not32 ACCESS3_EXECUTE :=
  (nfs_access_op_complete sampleHdr sampleEnv { id := 1, type := .DIRECTORY } 63 none
    sampleState.ctx (by decide) (by decide) (by decide) (by decide) rfl (by decide)).2.2 rfl

/-! ## Invariant of the request context -/

theorem heap_block_congr {h h2 : Heap} {a : Nat} (e : h2[a]? = h[a]?) (n : Nat) :
    heap_block h2 (some a) n = heap_block h (some a) n := by
  simp only [heap_block, e]

theorem heap_read_congr {h h2 : Heap} {a : Nat} (e : h2[a]? = h[a]?) (i : Nat) :
    heap_read h2 (some a) i = heap_read h (some a) i := by
  simp only [heap_read, e]

/-- A non-empty valid list is an array of the heap with enough entries. -/
theorem group_list_inv {h : Heap} {p : Option Nat} {n : Nat} (hn : n ≠ 0)
    (hv : group_list h p n ≠ none) :
    ∃ a L, p = some a ∧ h[a]? = some (some L) ∧ n ≤ L.length := by
  simp only [group_list, if_neg hn] at hv
  cases hb : heap_block h p n with
  | none => exact absurd hb hv
  | some l =>
    obtain ⟨a, L, hp, ha, hlen, _⟩ := heap_block_inv hb
    exact ⟨a, L, hp, ha, hlen⟩

theorem group_list_length {h : Heap} {p : Option Nat} {n : Nat} {l : List Nat}
    (hv : group_list h p n = some l) : l.length = n := by
  by_cases hn : n = 0
  · simp only [group_list, if_pos hn, Option.some.injEq] at hv
    rw [← hv, hn]; rfl
  · simp only [group_list, if_neg hn] at hv
    obtain ⟨a, L, _, _, hlen, hl⟩ := heap_block_inv hv
    rw [hl, List.length_take]
    omega

/-- A list that is valid in the initial heap is the same list in every heap
that keeps the initial arrays. -/
theorem group_list_keep {h0 h : Heap} (hk : ∀ a, a < h0.length → h[a]? = h0[a]?)
    {p : Option Nat} {n : Nat} (hv : group_list h0 p n ≠ none) :
    group_list h p n = group_list h0 p n := by
  by_cases hn : n = 0
  · simp only [group_list, if_pos hn]
  · obtain ⟨a, L, hp, ha, _⟩ := group_list_inv hn hv
    simp only [group_list, if_neg hn, hp]
    exact heap_block_congr (hk a (list_lt_of_getElem? ha)) n

theorem heap_free_length (h : Heap) (p : Option Nat) : (heap_free h p).length = h.length := by
  cases p with
  | none => rfl
  | some b => simp [heap_free]

theorem heap_free_getElem? (h : Heap) (p : Option Nat) (a : Nat) (hne : p ≠ some a) :
    (heap_free h p)[a]? = h[a]? := by
  cases p with
  | none => rfl
  | some b =>
    have hba : b ≠ a := fun e => hne (by rw [e])
    simp only [heap_free]
    exact List.getElem?_set_ne hba

/-- The invariant holds after `init_credentials`, with the heap at that point
as the initial heap. -/
theorem ctx_inv_init (K : Hdr) (req : svc_req) (s0 : State) :
    ctx_inv K req s0.heap (init_credentials K s0) where
  mem :=
    { len := Nat.le_refl _
      keep := fun _ _ => rfl
      copies := fun sl b h => by cases sl <;> cases h
      apart := fun a h => by cases h
      gdata := fun gd h => by cases h }
  orig := fun _ h => absurd (Nat.zero_and _) h
  valid := by
    show group_list _ _ 0 ≠ none
    simp [group_list]
  count := fun _ => Nat.zero_le _
  unsup := fun _ => rfl

/-- The invariant holds after `clean_credentials`. -/
theorem ctx_inv_clean (K : Hdr) (req : svc_req) (h0 : Heap) (s : State)
    (hi : ctx_inv K req h0 s) : ctx_inv K req h0 (clean_credentials K s) where
  mem :=
    { len := by
        show h0.length ≤ (heap_free (heap_free s.heap _) _).length
        rw [heap_free_length, heap_free_length]
        exact hi.mem.len
      keep := fun a ha => by
        show (heap_free (heap_free s.heap s.ctx.managed_garray_copy)
          s.ctx.caller_garray_copy)[a]? = _
        have h1 : s.ctx.caller_garray_copy ≠ some a := by
          intro e
          obtain ⟨_, _, _, hc⟩ := hi.mem.copies .caller a e
          exact absurd hc.1 (by omega)
        have h2 : s.ctx.managed_garray_copy ≠ some a := by
          intro e
          obtain ⟨_, _, _, hc⟩ := hi.mem.copies .managed a e
          exact absurd hc.1 (by omega)
        rw [heap_free_getElem? _ _ _ h1, heap_free_getElem? _ _ _ h2]
        exact hi.mem.keep a ha
      copies := fun sl b h => by cases sl <;> cases h
      apart := fun a h => by cases h
      gdata := fun gd h => by cases h }
  orig := fun _ h => absurd (Nat.zero_and _) h
  valid := by
    show group_list _ _ 0 ≠ none
    simp [group_list]
  count := fun _ => Nat.zero_le _
  unsup := fun _ => rfl

theorem squash_range_no_zero (anon : Nat) (L : List Nat) :
    ∀ (n : Nat) (C : List Nat) (i : Nat), zero_in L i n = false →
      squash_range anon L C i n = C
  | 0, C, i, _ => rfl
  | n + 1, C, i, h => by
    simp only [zero_in, Bool.or_eq_false_iff, beq_eq_false_iff_ne, ne_eq] at h
    simp only [squash_range, if_neg h.1]
    exact squash_range_no_zero anon L n C (i + 1) h.2

/-- The scan when no copy exists and the allocation fails: it returns false at
the first 0 and true if there is none, and changes nothing. -/
theorem garray_scan_nomem (K : Hdr) (E : Env) (perms : export_perms_t) (sl : copy_slot)
    (a : Nat) (L : List Nat) :
    ∀ (n i : Nat) (s : State),
      s.ctx.creds.caller_garray = some a → slot_get sl s.ctx = none →
      s.heap[a]? = some (some L) → i + n ≤ L.length →
      E.gsh_malloc (s.ctx.creds.caller_glen * 4) = false →
      garray_scan K E perms sl n i s = some (!(zero_in L i n), s)
  | 0, i, s, _, _, _, _, _ => by
    simp only [garray_scan, zero_in, Bool.not_false]
  | n + 1, i, s, hg, hsl, ha, hi, hm => by
    have hiL : i < L.length := by omega
    rw [garray_scan, hg, heap_read_cell ha, List.getElem?_eq_getElem hiL]
    by_cases hz : L[i] = 0
    · have hz2 : L[i]? = some 0 := by rw [List.getElem?_eq_getElem hiL, hz]
      simp only [hz, if_true, ensure_copy, hsl, hm, Bool.false_eq_true, if_false, zero_in, hz2,
        beq_self_eq_true, Bool.true_or, Bool.not_true]
    · have hz2 : L[i]? ≠ some 0 := by
        rw [List.getElem?_eq_getElem hiL]; intro h; exact hz (Option.some.inj h)
      simp only [hz, if_false]
      rw [garray_scan_nomem K E perms sl a L n (i + 1) s hg hsl ha (by omega) hm]
      simp [zero_in, hz2]

/-- The four ways the squashing of a valid, non-empty working list can end on
an export that squashes root: no 0 in the list; a 0, no copy yet and no
memory; a 0 and a new copy; a 0 and the copy of an earlier call. -/
theorem squash_garray_cases (K : Hdr) (E : Env) (perms : export_perms_t) (sl : copy_slot)
    (p : State) (a : Nat) (L : List Nat)
    (hGA0 : K.GARRAY_SQUASHED ≠ 0)
    (hroot : perms.options &&& K.EXPORT_OPTION_ROOT = 0)
    (hn : p.ctx.creds.caller_glen ≠ 0)
    (hfl : p.ctx.cred_flags &&& K.GARRAY_SQUASHED = 0)
    (hg : p.ctx.creds.caller_garray = some a) (ha : p.heap[a]? = some (some L))
    (hlen : p.ctx.creds.caller_glen ≤ L.length)
    (hslot : slot_get sl p.ctx = none ∨
      ∃ b C, slot_get sl p.ctx = some b ∧ a ≠ b ∧ p.heap[b]? = some (some C) ∧
        p.ctx.creds.caller_glen ≤ C.length) :
    (zero_in L 0 p.ctx.creds.caller_glen = false ∧
      squash_garray K E perms sl p = some (true, p)) ∨
    (zero_in L 0 p.ctx.creds.caller_glen = true ∧ slot_get sl p.ctx = none ∧
      squash_garray K E perms sl p = some (false, p)) ∨
    (zero_in L 0 p.ctx.creds.caller_glen = true ∧ slot_get sl p.ctx = none ∧
      squash_garray K E perms sl p = some (true,
        { p with
          heap := p.heap ++ [some (squash_range perms.anonymous_gid L
            (L.take p.ctx.creds.caller_glen) 0 p.ctx.creds.caller_glen)]
          ctx := { or_flags (slot_set sl p.ctx (some p.heap.length)) K.GARRAY_SQUASHED with
            creds := { p.ctx.creds with caller_garray := some p.heap.length } } })) ∨
    (zero_in L 0 p.ctx.creds.caller_glen = true ∧
      ∃ b C, slot_get sl p.ctx = some b ∧ p.heap[b]? = some (some C) ∧
        squash_garray K E perms sl p = some (true,
          { p with
            heap := p.heap.set b (some (squash_range perms.anonymous_gid L C 0
              p.ctx.creds.caller_glen))
            ctx := { or_flags p.ctx K.GARRAY_SQUASHED with
              creds := { p.ctx.creds with caller_garray := some b } } })) := by
  have hc : ¬ (perms.options &&& K.EXPORT_OPTION_ROOT ≠ 0 ∨ p.ctx.creds.caller_glen = 0) := by
    rintro (h | h)
    · exact h hroot
    · exact hn h
  have hset : ∀ f : Nat, (f ||| K.GARRAY_SQUASHED) &&& K.GARRAY_SQUASHED ≠ 0 :=
    fun f => mask_or_ne_zero_right f (mask_self_ne_zero hGA0)
  simp only [squash_garray, if_neg hc]
  cases hz : zero_in L 0 p.ctx.creds.caller_glen with
  | false =>
    left
    refine ⟨rfl, ?_⟩
    rcases hslot with hsl | ⟨b, C, hsl, hab, hb, hC⟩
    · cases hm : E.gsh_malloc (p.ctx.creds.caller_glen * 4) with
      | false =>
        rw [garray_scan_nomem K E perms sl a L _ 0 p hg hsl ha (by omega) hm, hz]
        simp only [Bool.not_false, hfl, ne_eq, not_true_eq_false, if_false]
      | true =>
        rw [garray_scan_fresh K E perms sl a L _ 0 p hg hsl ha hlen (by omega) hm, hz]
        simp only [Bool.false_eq_true, if_false, hfl, ne_eq, not_true_eq_false]
    · rw [garray_scan_copy K E perms sl a b L hab _ 0 p C hg hsl ha hb (by omega) (by omega),
        hz, squash_range_no_zero _ _ _ _ _ hz, list_set_same _ _ _ hb]
      simp only [Bool.false_eq_true, if_false, hfl, ne_eq, not_true_eq_false]
  | true =>
    right
    rcases hslot with hsl | ⟨b, C, hsl, hab, hb, hC⟩
    · cases hm : E.gsh_malloc (p.ctx.creds.caller_glen * 4) with
      | false =>
        left
        refine ⟨rfl, hsl, ?_⟩
        rw [garray_scan_nomem K E perms sl a L _ 0 p hg hsl ha (by omega) hm, hz]
        rfl
      | true =>
        right; left
        refine ⟨rfl, hsl, ?_⟩
        rw [garray_scan_fresh K E perms sl a L _ 0 p hg hsl ha hlen (by omega) hm, hz]
        simp only [if_true, or_flags_cred_flags, slot_set_cred_flags]
        rw [if_pos (hset _)]
        simp only [slot_get_or_flags, slot_get_slot_set, or_flags_creds, slot_set_creds]
    · right; right
      refine ⟨rfl, b, C, hsl, hb, ?_⟩
      rw [garray_scan_copy K E perms sl a b L hab _ 0 p C hg hsl ha hb (by omega) (by omega),
        hz]
      simp only [if_true, or_flags_cred_flags]
      rw [if_pos (hset _)]
      simp only [slot_get_or_flags, hsl, or_flags_creds]

/-- What the `switch` leaves, for a context whose `MANAGED_GIDS` is clear (as
after the reset of the flags) and whose original credentials, if loaded from
an AUTH_SYS request, are those of `req`. -/
theorem flavor_switch_facts (K : Hdr) (E : Env) (req : svc_req) (perms : export_perms_t)
    (c0 c : req_op_context) (sl : copy_slot)
    (hK : K.cred_flags_ok)
    (hM : c0.cred_flags &&& K.MANAGED_GIDS = 0)
    (horig : req.oa_flavor = AUTH_SYS → c0.cred_flags &&& K.CREDS_LOADED ≠ 0 →
      c0.original_creds =
        { caller_uid := req.rq_clntcred.aup_uid, caller_gid := req.rq_clntcred.aup_gid
          caller_glen := req.rq_clntcred.aup_len, caller_garray := req.rq_clntcred.aup_gids })
    (hsw : flavor_switch K E req perms c0 = some (some (c, sl))) :
    (req.oa_flavor = AUTH_SYS →
      c.original_creds =
        { caller_uid := req.rq_clntcred.aup_uid, caller_gid := req.rq_clntcred.aup_gid
          caller_glen := req.rq_clntcred.aup_len, caller_garray := req.rq_clntcred.aup_gids } ∧
      c.creds = c.original_creds) ∧
    (req.oa_flavor ≠ AUTH_SYS → c.creds = c0.creds) ∧
    (sl = .caller → ¬ squash_all K perms c →
      req.oa_flavor = AUTH_SYS ∧ c.cred_flags &&& K.MANAGED_GIDS = 0) ∧
    (sl = .managed → c.cred_flags &&& K.MANAGED_GIDS ≠ 0) ∧
    ¬ unsupported K req := by
  obtain ⟨hL0, hA0, hU0, hG0, hGA0, hM0, hLA, hLU, hLG, hLGA, hLM, hAU, hAG, hAGA, hAM,
    hUG, hUGA, hUM, hGGA, hGM, hGAM⟩ := hK
  have hsetM : ∀ f : Nat, (f ||| K.MANAGED_GIDS) &&& K.MANAGED_GIDS ≠ 0 :=
    fun f => mask_or_ne_zero_right f (mask_self_ne_zero hM0)
  by_cases h0 : req.oa_flavor = AUTH_NONE
  · have hns : req.oa_flavor ≠ AUTH_SYS := by rw [h0]; decide
    simp only [flavor_switch, if_pos h0, Option.some.injEq, Prod.mk.injEq] at hsw
    obtain ⟨hc, hs⟩ := hsw
    subst hc; subst hs
    refine ⟨fun h => absurd h hns, fun _ => rfl, fun _ hq => ?_, (fun h => by cases h),
      fun h => h.1 h0⟩
    exfalso
    apply hq
    left
    exact mask_or_ne_zero_right _ (mask_or_ne_zero_right _ (mask_self_ne_zero hA0))
  · by_cases h1 : req.oa_flavor = AUTH_SYS
    · have hun : ¬ unsupported K req := fun h => h.2.1 h1
      simp only [flavor_switch, if_neg h0, if_pos h1] at hsw
      by_cases hl : c0.cred_flags &&& K.CREDS_LOADED = 0
      · simp only [if_pos hl] at hsw
        by_cases hmg : perms.options &&& K.EXPORT_OPTION_MANAGE_GIDS ≠ 0
        · simp only [if_pos hmg, Option.some.injEq, Prod.mk.injEq] at hsw
          obtain ⟨hc, hs⟩ := hsw
          subst hc; subst hs
          exact ⟨fun _ => ⟨rfl, rfl⟩, fun h => absurd h1 h, (fun h => by cases h),
            fun _ => hsetM _, hun⟩
        · simp only [if_neg hmg, Option.some.injEq, Prod.mk.injEq] at hsw
          obtain ⟨hc, hs⟩ := hsw
          subst hc; subst hs
          refine ⟨fun _ => ⟨rfl, rfl⟩, fun h => absurd h1 h, fun _ _ => ⟨h1, ?_⟩,
            (fun h => by cases h), hun⟩
          exact mask_or_clear.mpr ⟨hM, hLM⟩
      · have ho := horig h1 hl
        simp only [if_neg hl] at hsw
        by_cases hmg : perms.options &&& K.EXPORT_OPTION_MANAGE_GIDS ≠ 0
        · simp only [if_pos hmg, Option.some.injEq, Prod.mk.injEq] at hsw
          obtain ⟨hc, hs⟩ := hsw
          subst hc; subst hs
          exact ⟨fun _ => ⟨ho, rfl⟩, fun h => absurd h1 h, (fun h => by cases h),
            fun _ => hsetM _, hun⟩
        · simp only [if_neg hmg, Option.some.injEq, Prod.mk.injEq] at hsw
          obtain ⟨hc, hs⟩ := hsw
          subst hc; subst hs
          exact ⟨fun _ => ⟨ho, rfl⟩, fun h => absurd h1 h, fun _ _ => ⟨h1, hM⟩,
            (fun h => by cases h), hun⟩
    · by_cases h2 : K.HAVE_GSSAPI = true ∧ req.oa_flavor = RPCSEC_GSS
      · have hun : ¬ unsupported K req := fun h => h.2.2 h2
        simp only [flavor_switch, if_neg h0, if_neg h1, if_pos h2] at hsw
        by_cases hl : c0.cred_flags &&& K.CREDS_LOADED = 0
        · simp only [if_pos hl] at hsw
          by_cases hfit : req.rq_auth.cname.length ≤ K.MAXNAMLEN
          swap
          · rw [if_neg hfit] at hsw
            cases hsw
          rw [if_pos hfit] at hsw
          cases hp : E.principal2uid req.rq_auth with
          | none =>
            simp only [hp, Option.some.injEq, Prod.mk.injEq] at hsw
            obtain ⟨hc, hs⟩ := hsw
            subst hc; subst hs
            refine ⟨fun h => absurd h h1, fun _ => rfl, fun _ hq => ?_, (fun h => by cases h),
              hun⟩
            exfalso
            apply hq
            left
            exact mask_or_ne_zero_right _ (mask_or_ne_zero_left _ (mask_self_ne_zero hA0))
          | some r =>
            obtain ⟨uid, gid⟩ := r
            simp only [hp, Option.some.injEq, Prod.mk.injEq] at hsw
            obtain ⟨hc, hs⟩ := hsw
            subst hc; subst hs
            exact ⟨fun h => absurd h h1, fun _ => rfl, (fun h => by cases h),
              fun _ => hsetM _, hun⟩
        · simp only [if_neg hl, Option.some.injEq, Prod.mk.injEq] at hsw
          obtain ⟨hc, hs⟩ := hsw
          subst hc; subst hs
          exact ⟨fun h => absurd h h1, fun _ => rfl, (fun h => by cases h),
            fun _ => hsetM _, hun⟩
      · simp only [flavor_switch, if_neg h0, if_neg h1, if_neg h2] at hsw
        cases hsw

/-- Where a successful `select_groups` takes the working list from, and what
it does to the cached group data. -/
theorem select_groups_source (K : Hdr) (E : Env) (q p : State)
    (h : select_groups K E q = (true, p)) :
    (q.ctx.cred_flags &&& K.MANAGED_GIDS ≠ 0 ∧
      ∃ gd, p.ctx.caller_gdata = some gd ∧
        (q.ctx.caller_gdata = some gd ∨
          (q.ctx.caller_gdata = none ∧ E.uid2grp q.ctx.original_creds.caller_uid = some gd)) ∧
        p.ctx.creds.caller_glen = gd.nbgroups ∧ p.ctx.creds.caller_garray = gd.groups) ∨
    (q.ctx.cred_flags &&& K.MANAGED_GIDS = 0 ∧ p.ctx.caller_gdata = q.ctx.caller_gdata ∧
      p.ctx.creds.caller_glen = q.ctx.original_creds.caller_glen ∧
      p.ctx.creds.caller_garray = q.ctx.original_creds.caller_garray) := by
  unfold select_groups at h
  by_cases hm : q.ctx.cred_flags &&& K.MANAGED_GIDS ≠ 0
  · rw [if_pos hm] at h
    left
    refine ⟨hm, ?_⟩
    cases hgd : q.ctx.caller_gdata with
    | some gd =>
      simp only [hgd, Prod.mk.injEq, true_and] at h
      subst h
      exact ⟨gd, rfl, Or.inl rfl, rfl, rfl⟩
    | none =>
      simp only [hgd] at h
      cases hu : E.uid2grp q.ctx.original_creds.caller_uid with
      | none => simp [hu] at h
      | some gd =>
        simp only [hu, Prod.mk.injEq, true_and] at h
        subst h
        exact ⟨gd, rfl, Or.inr ⟨rfl, rfl⟩, rfl, rfl⟩
  · rw [if_neg hm] at h
    right
    simp only [Prod.mk.injEq, true_and] at h
    subst h
    exact ⟨not_not.mp hm, rfl, rfl, rfl⟩

/-- Only a managed list can make `select_groups` fail. -/
theorem select_groups_false_managed (K : Hdr) (E : Env) (q p : State)
    (h : select_groups K E q = (false, p)) : q.ctx.cred_flags &&& K.MANAGED_GIDS ≠ 0 := by
  unfold select_groups at h
  by_cases hm : q.ctx.cred_flags &&& K.MANAGED_GIDS ≠ 0
  · exact hm
  · rw [if_neg hm] at h
    simp at h

theorem copy_ok_congr {h0 h h2 : Heap} {p : Option Nat} {n b : Nat}
    (hc : copy_ok h0 h p n b) (e : h2[b]? = h[b]?) : copy_ok h0 h2 p n b := by
  obtain ⟨hb, C, hC, hlen, hag⟩ := hc
  exact ⟨hb, C, e.trans hC, hlen, hag⟩

theorem slot_apart {req : svc_req} {h0 : Heap} {s : State} (hi : heap_inv req h0 s)
    {sl sl2 : copy_slot} {b : Nat} (h1 : slot_get sl s.ctx = some b)
    (h2 : slot_get sl2 s.ctx = some b) : sl = sl2 := by
  cases sl <;> cases sl2
  · rfl
  · exact absurd h2 (hi.apart b h1)
  · exact absurd h1 (hi.apart b h2)
  · rfl

/-- The heap invariant depends only on the heap, the copy slots and the
cached group data. -/
theorem heap_inv_of_same {req : svc_req} {h0 : Heap} {p s1 : State}
    (hi : heap_inv req h0 p) (hh : s1.heap = p.heap)
    (hc : s1.ctx.caller_garray_copy = p.ctx.caller_garray_copy)
    (hm : s1.ctx.managed_garray_copy = p.ctx.managed_garray_copy)
    (hg : s1.ctx.caller_gdata = p.ctx.caller_gdata) : heap_inv req h0 s1 where
  len := by rw [hh]; exact hi.len
  keep := by rw [hh]; exact hi.keep
  copies := fun sl b h => by
    have hsl : slot_get sl s1.ctx = slot_get sl p.ctx := by cases sl <;> assumption
    have hsrc : slot_source req s1.ctx sl = slot_source req p.ctx sl := by
      cases sl
      · rfl
      · simp only [slot_source, hg]
    rw [hsl] at h
    rw [hsrc, hh]
    exact hi.copies sl b h
  apart := by rw [hc, hm]; exact hi.apart
  gdata := by rw [hg]; exact hi.gdata

/-- The heap invariant after a new copy has been allocated for the slot `sl`. -/
theorem heap_inv_fresh {req : svc_req} {h0 : Heap} {p s1 : State} {sl : copy_slot}
    {pt : Option Nat} {n : Nat} {C : List Nat}
    (hi : heap_inv req h0 p)
    (hsrc : slot_source req p.ctx sl = some (pt, n))
    (hlen : C.length = n)
    (hag : ∀ (L : List Nat), heap_block h0 pt n = some L →
      ∀ (i g : Nat), L[i]? = some g → g ≠ 0 → C[i]? = some g)
    (hh : s1.heap = p.heap ++ [some C])
    (hnew : slot_get sl s1.ctx = some p.heap.length)
    (hoth : ∀ sl2, sl2 ≠ sl → slot_get sl2 s1.ctx = slot_get sl2 p.ctx)
    (hg : s1.ctx.caller_gdata = p.ctx.caller_gdata) : heap_inv req h0 s1 := by
  have hsrc2 : ∀ sl2, slot_source req s1.ctx sl2 = slot_source req p.ctx sl2 := by
    intro sl2
    cases sl2
    · rfl
    · simp only [slot_source, hg]
  have hold : ∀ sl2 b, sl2 ≠ sl → slot_get sl2 s1.ctx = some b → b < p.heap.length := by
    intro sl2 b hne h
    rw [hoth sl2 hne] at h
    obtain ⟨_, _, _, _, C2, hC2, _⟩ := hi.copies sl2 b h
    exact list_lt_of_getElem? hC2
  refine ⟨?_, ?_, ?_, ?_, ?_⟩
  · rw [hh, List.length_append]
    have := hi.len
    omega
  · intro a ha
    rw [hh, List.getElem?_append_left (by have := hi.len; omega)]
    exact hi.keep a ha
  · intro sl2 b h
    rw [hsrc2]
    by_cases e : sl2 = sl
    · subst e
      rw [hnew] at h
      have hb : p.heap.length = b := Option.some.inj h
      subst hb
      refine ⟨pt, n, hsrc, hi.len, C, ?_, hlen, hag⟩
      rw [hh]
      simp
    · have hlt := hold sl2 b e h
      rw [hoth sl2 e] at h
      obtain ⟨p2, n2, hs2, hc2⟩ := hi.copies sl2 b h
      refine ⟨p2, n2, hs2, copy_ok_congr hc2 ?_⟩
      rw [hh, List.getElem?_append_left hlt]
  · intro a hca hma
    cases sl
    · have h1 : a = p.heap.length := Option.some.inj (hca.symm.trans hnew)
      have h2 := hold .managed a (by decide) hma
      omega
    · have h1 : a = p.heap.length := Option.some.inj (hma.symm.trans hnew)
      have h2 := hold .caller a (by decide) hca
      omega
  · rw [hg]; exact hi.gdata

/-- The heap invariant after the copy in the slot `sl` has been overwritten
with a list that is still a copy. -/
theorem heap_inv_reuse {req : svc_req} {h0 : Heap} {p s1 : State} {sl : copy_slot}
    {pt : Option Nat} {n b : Nat} {C : List Nat}
    (hi : heap_inv req h0 p)
    (hsl : slot_get sl p.ctx = some b)
    (hsrc : slot_source req p.ctx sl = some (pt, n))
    (hlen : C.length = n)
    (hag : ∀ (L : List Nat), heap_block h0 pt n = some L →
      ∀ (i g : Nat), L[i]? = some g → g ≠ 0 → C[i]? = some g)
    (hh : s1.heap = p.heap.set b (some C))
    (hc : s1.ctx.caller_garray_copy = p.ctx.caller_garray_copy)
    (hm : s1.ctx.managed_garray_copy = p.ctx.managed_garray_copy)
    (hg : s1.ctx.caller_gdata = p.ctx.caller_gdata) : heap_inv req h0 s1 := by
  obtain ⟨_, _, _, hb0, C0, hC0, _⟩ := hi.copies sl b hsl
  have hblt : b < p.heap.length := list_lt_of_getElem? hC0
  refine ⟨?_, ?_, ?_, ?_, ?_⟩
  · rw [hh, List.length_set]; exact hi.len
  · intro a ha
    rw [hh, List.getElem?_set_ne (by omega)]
    exact hi.keep a ha
  · intro sl2 b2 h
    have hsl2 : slot_get sl2 s1.ctx = slot_get sl2 p.ctx := by cases sl2 <;> assumption
    have hsrc2 : slot_source req s1.ctx sl2 = slot_source req p.ctx sl2 := by
      cases sl2
      · rfl
      · simp only [slot_source, hg]
    rw [hsl2] at h
    rw [hsrc2]
    by_cases e : b2 = b
    · subst e
      have hs : sl2 = sl := slot_apart hi h hsl
      subst hs
      refine ⟨pt, n, hsrc, hb0, C, ?_, hlen, hag⟩
      rw [hh, List.getElem?_set_self hblt]
    · obtain ⟨p2, n2, hs2, hc2⟩ := hi.copies sl2 b2 h
      refine ⟨p2, n2, hs2, copy_ok_congr hc2 ?_⟩
      rw [hh, List.getElem?_set_ne (fun x => e x.symm)]
  · rw [hc, hm]; exact hi.apart
  · rw [hg]; exact hi.gdata

/-- An entry of the list that is not 0 survives the squashing of a copy that
agrees with the list there. -/
theorem squash_range_agree (anon : Nat) (L C : List Nat) (n i g : Nat)
    (hL : L[i]? = some g) (hg : g ≠ 0) (hC : C[i]? = some g) :
    (squash_range anon L C 0 n)[i]? = some g := by
  rw [squash_range_getElem?, if_neg, hC]
  rintro ⟨_, _, h⟩
  rw [hL] at h
  exact hg (Option.some.inj h)

/-- After the squashing with a non-zero anonymous gid, no entry of a copy that
agrees with the list on its non-zero entries is 0. -/
theorem squash_range_entry (anon : Nat) (L C : List Nat) (n i : Nat) (hanon : anon ≠ 0)
    (hi : i < n) (hL : n ≤ L.length) (hC : n ≤ C.length)
    (hag : ∀ g, L[i]? = some g → g ≠ 0 → C[i]? = some g) :
    ∃ g, (squash_range anon L C 0 n)[i]? = some g ∧ g ≠ 0 := by
  have hiL : i < L.length := by omega
  have hiC : i < C.length := by omega
  have hLi : L[i]? = some L[i] := List.getElem?_eq_getElem hiL
  by_cases hz : L[i] = 0
  · refine ⟨anon, ?_, hanon⟩
    rw [squash_range_getElem?, if_pos ⟨Nat.zero_le _, by omega, by rw [hLi, hz]⟩,
      List.getElem?_eq_getElem hiC]
    rfl
  · exact ⟨L[i], squash_range_agree anon L C n i L[i] hLi hz (hag _ hLi hz), hz⟩

theorem take_getElem?_some {L : List Nat} {n i g : Nat} (h : (L.take n)[i]? = some g) :
    i < n ∧ L[i]? = some g := by
  by_cases hi : i < n
  · rw [List.getElem?_take_of_lt hi] at h
    exact ⟨hi, h⟩
  · have hlen : (L.take n).length ≤ i := by
      rw [List.length_take]; omega
    rw [List.getElem?_eq_none hlen] at h
    cases h

/-- The squashing of the group list keeps the heap invariant, leaves a valid
effective list, and, on an export that squashes root to a non-zero anonymous
gid, leaves no 0 among the effective groups when it returns true. -/
theorem squash_garray_inv (K : Hdr) (E : Env) (req : svc_req) (h0 : Heap)
    (perms : export_perms_t) (sl : copy_slot) (p : State) (b1 : Bool) (s1 : State)
    (hGA0 : K.GARRAY_SQUASHED ≠ 0)
    (hi : heap_inv req h0 p)
    (hsrc : slot_source req p.ctx sl =
      some (p.ctx.creds.caller_garray, p.ctx.creds.caller_glen))
    (hv : group_list h0 p.ctx.creds.caller_garray p.ctx.creds.caller_glen ≠ none)
    (hfl : p.ctx.cred_flags &&& K.GARRAY_SQUASHED = 0)
    (h : squash_garray K E perms sl p = some (b1, s1)) :
    heap_inv req h0 s1 ∧ effective_groups s1 ≠ none ∧
    (perms.options &&& K.EXPORT_OPTION_ROOT = 0 → perms.anonymous_gid ≠ 0 → b1 = true →
      ∀ i, i < s1.ctx.creds.caller_glen →
        ∃ g, heap_read s1.heap s1.ctx.creds.caller_garray i = some g ∧ g ≠ 0) := by
  have hvp : effective_groups p ≠ none := by
    show group_list p.heap _ _ ≠ none
    rw [group_list_keep hi.keep hv]; exact hv
  by_cases hc : perms.options &&& K.EXPORT_OPTION_ROOT ≠ 0 ∨ p.ctx.creds.caller_glen = 0
  · simp only [squash_garray, if_pos hc, Option.some.injEq, Prod.mk.injEq] at h
    obtain ⟨_, hs⟩ := h
    subst hs
    refine ⟨hi, hvp, fun hroot _ _ i hlt => ?_⟩
    rcases hc with hc | hc
    · exact absurd hroot hc
    · omega
  · have hroot : perms.options &&& K.EXPORT_OPTION_ROOT = 0 := by
      by_contra hne; exact hc (Or.inl hne)
    have hn : p.ctx.creds.caller_glen ≠ 0 := fun e => hc (Or.inr e)
    obtain ⟨a, L, hg, ha0, hlen⟩ := group_list_inv hn hv
    have halt : a < h0.length := list_lt_of_getElem? ha0
    have ha : p.heap[a]? = some (some L) := (hi.keep a halt).trans ha0
    have hblock : heap_block h0 p.ctx.creds.caller_garray p.ctx.creds.caller_glen
        = some (L.take p.ctx.creds.caller_glen) := by
      rw [hg]; exact heap_block_cell ha0 hlen
    have hslot : slot_get sl p.ctx = none ∨
        ∃ b C, slot_get sl p.ctx = some b ∧ a ≠ b ∧ p.heap[b]? = some (some C) ∧
          p.ctx.creds.caller_glen ≤ C.length := by
      cases hs : slot_get sl p.ctx with
      | none => exact Or.inl rfl
      | some b =>
        right
        obtain ⟨p2, n2, hs2, hb0, C, hC, hCl, _⟩ := hi.copies sl b hs
        rw [hsrc] at hs2
        simp only [Option.some.injEq, Prod.mk.injEq] at hs2
        exact ⟨b, C, rfl, by omega, hC, by rw [hCl, hs2.2]⟩
    rcases squash_garray_cases K E perms sl p a L hGA0 hroot hn hfl hg ha hlen hslot with
      ⟨hz, hr⟩ | ⟨hz, _, hr⟩ | ⟨hz, hsn, hr⟩ | ⟨hz, b, C, hsb, hCb, hr⟩
    · -- no 0 in the list
      rw [hr] at h
      simp only [Option.some.injEq, Prod.mk.injEq] at h
      obtain ⟨_, hs⟩ := h
      subst hs
      refine ⟨hi, hvp, fun _ _ _ i hlt => ?_⟩
      have hiL : i < L.length := by omega
      refine ⟨L[i], ?_, ?_⟩
      · rw [hg, heap_read_cell ha, List.getElem?_eq_getElem hiL]
      · intro hz0
        have hex : ∃ j, 0 ≤ j ∧ j < 0 + p.ctx.creds.caller_glen ∧ L[j]? = some 0 :=
          ⟨i, Nat.zero_le _, by omega, by rw [List.getElem?_eq_getElem hiL, hz0]⟩
        rw [← zero_in_iff, hz] at hex
        cases hex
    · -- a 0, no copy, no memory
      rw [hr] at h
      simp only [Option.some.injEq, Prod.mk.injEq] at h
      obtain ⟨hb, hs⟩ := h
      subst hs
      refine ⟨hi, hvp, fun _ _ hb1 => ?_⟩
      rw [← hb] at hb1
      cases hb1
    · -- a 0 and a new copy
      rw [hr] at h
      simp only [Option.some.injEq, Prod.mk.injEq] at h
      obtain ⟨_, hs⟩ := h
      subst hs
      have hlenC : (squash_range perms.anonymous_gid L (L.take p.ctx.creds.caller_glen) 0
          p.ctx.creds.caller_glen).length = p.ctx.creds.caller_glen := by
        rw [squash_range_length, List.length_take]; omega
      have hcell : (p.heap ++ [some (squash_range perms.anonymous_gid L
          (L.take p.ctx.creds.caller_glen) 0 p.ctx.creds.caller_glen)])[p.heap.length]?
          = some (some (squash_range perms.anonymous_gid L
            (L.take p.ctx.creds.caller_glen) 0 p.ctx.creds.caller_glen)) := by simp
      refine ⟨?_, ?_, fun _ hanon _ i hlt => ?_⟩
      · refine heap_inv_fresh hi hsrc hlenC ?_ rfl ?_ ?_ (by cases sl <;> rfl)
        · intro L0 hL0 i g hig hgne
          rw [hblock] at hL0
          have hL0e : L.take p.ctx.creds.caller_glen = L0 := Option.some.inj hL0
          rw [← hL0e] at hig
          exact squash_range_agree _ _ _ _ _ _ (take_getElem?_some hig).2 hgne hig
        · cases sl <;> rfl
        · intro sl2 hne
          cases sl <;> cases sl2 <;> first | rfl | exact absurd rfl hne
      · show group_list _ (some p.heap.length) p.ctx.creds.caller_glen ≠ none
        simp only [group_list, if_neg hn]
        rw [heap_block_cell hcell (by rw [hlenC])]
        exact Option.some_ne_none _
      · show ∃ g, heap_read _ (some p.heap.length) i = some g ∧ g ≠ 0
        rw [heap_read_cell hcell]
        have hlt2 : i < p.ctx.creds.caller_glen := hlt
        refine squash_range_entry _ _ _ _ _ hanon hlt2 hlen (by rw [List.length_take]; omega) ?_
        intro g hLg _
        rw [List.getElem?_take_of_lt hlt2]
        exact hLg
    · -- a 0 and the copy of an earlier call
      rw [hr] at h
      simp only [Option.some.injEq, Prod.mk.injEq] at h
      obtain ⟨_, hs⟩ := h
      subst hs
      obtain ⟨p2, n2, hs2, hb0, C2, hC2, hCl, hag⟩ := hi.copies sl b hsb
      rw [hsrc] at hs2
      simp only [Option.some.injEq, Prod.mk.injEq] at hs2
      obtain ⟨hp2, hn2⟩ := hs2
      subst hp2; subst hn2
      have hCC : C2 = C := by
        have := hC2.symm.trans hCb
        exact Option.some.inj (Option.some.inj this)
      subst hCC
      have hblt : b < p.heap.length := list_lt_of_getElem? hCb
      have hlenC : (squash_range perms.anonymous_gid L C2 0
          p.ctx.creds.caller_glen).length = p.ctx.creds.caller_glen := by
        rw [squash_range_length, hCl]
      have hcell : (p.heap.set b (some (squash_range perms.anonymous_gid L C2 0
          p.ctx.creds.caller_glen)))[b]?
          = some (some (squash_range perms.anonymous_gid L C2 0
            p.ctx.creds.caller_glen)) := List.getElem?_set_self hblt
      have hag2 : ∀ (i g : Nat), i < p.ctx.creds.caller_glen → L[i]? = some g → g ≠ 0 →
          C2[i]? = some g := by
        intro i g hlt hLg hgne
        refine hag _ hblock i g ?_ hgne
        rw [List.getElem?_take_of_lt hlt]; exact hLg
      refine ⟨?_, ?_, fun _ hanon _ i hlt => ?_⟩
      · refine heap_inv_reuse hi hsb hsrc hlenC ?_ rfl rfl rfl rfl
        intro L0 hL0 i g hig hgne
        rw [hblock] at hL0
        have hL0e : L.take p.ctx.creds.caller_glen = L0 := Option.some.inj hL0
        rw [← hL0e] at hig
        obtain ⟨hlt, hLg⟩ := take_getElem?_some hig
        exact squash_range_agree _ _ _ _ _ _ hLg hgne (hag2 i g hlt hLg hgne)
      · show group_list _ (some b) p.ctx.creds.caller_glen ≠ none
        simp only [group_list, if_neg hn]
        rw [heap_block_cell hcell (by rw [hlenC])]
        exact Option.some_ne_none _
      · show ∃ g, heap_read _ (some b) i = some g ∧ g ≠ 0
        rw [heap_read_cell hcell]
        have hlt2 : i < p.ctx.creds.caller_glen := hlt
        exact squash_range_entry _ _ _ _ _ hanon hlt2 hlen (by rw [hCl])
          (fun g hLg hgne => hag2 i g hlt2 hLg hgne)

theorem squash_gid_groups (K : Hdr) (perms : export_perms_t) (c : req_op_context) :
    (squash_gid K perms c).creds.caller_glen = c.creds.caller_glen ∧
    (squash_gid K perms c).creds.caller_garray = c.creds.caller_garray := by
  rw [squash_gid_eq]
  exact ⟨rfl, rfl⟩

/-- The heap invariant when the heap and the copy slots are the same and the
group data is either the same or has just been looked up. -/
theorem heap_inv_gdata {req : svc_req} {h0 : Heap} {q p : State}
    (hi : heap_inv req h0 q) (hh : p.heap = q.heap)
    (hc : p.ctx.caller_garray_copy = q.ctx.caller_garray_copy)
    (hm : p.ctx.managed_garray_copy = q.ctx.managed_garray_copy)
    (hg : p.ctx.caller_gdata = q.ctx.caller_gdata ∨
      (q.ctx.caller_gdata = none ∧ ∃ gd, p.ctx.caller_gdata = some gd ∧
        group_list h0 gd.groups gd.nbgroups ≠ none)) : heap_inv req h0 p := by
  rcases hg with hg | ⟨hq, gd, hp, hv⟩
  · exact heap_inv_of_same hi hh hc hm hg
  · refine ⟨?_, ?_, ?_, ?_, ?_⟩
    · rw [hh]; exact hi.len
    · rw [hh]; exact hi.keep
    · intro sl b h
      have hsl : slot_get sl p.ctx = slot_get sl q.ctx := by cases sl <;> assumption
      rw [hsl] at h
      obtain ⟨p2, n2, hs2, hc2⟩ := hi.copies sl b h
      cases sl with
      | caller => exact ⟨p2, n2, hs2, by rw [hh]; exact hc2⟩
      | managed =>
        simp only [slot_source, hq, Option.map_none'] at hs2
        cases hs2
    · rw [hc, hm]; exact hi.apart
    · intro gd2 h2
      rw [hp] at h2
      have e : gd = gd2 := Option.some.inj h2
      rw [← e]; exact hv

/-- One call of `get_req_creds` keeps the invariant of the request context,
and on an export that squashes root to a non-zero anonymous gid a call that
returns true leaves no 0 among the effective groups. -/
theorem get_req_creds_inv (K : Hdr) (E : Env) (req : svc_req) (h0 : Heap)
    (perms : export_perms_t) (s : State) (b1 : Bool) (s1 : State)
    (hK : K.cred_flags_ok) (hin : inputs_ok E req h0)
    (hi : ctx_inv K req h0 s)
    (h : get_req_creds K E req perms s = some (b1, s1)) :
    ctx_inv K req h0 s1 ∧
    (perms.options &&& K.EXPORT_OPTION_ROOT = 0 → perms.anonymous_gid ≠ 0 → b1 = true →
      ∀ i, i < s1.ctx.creds.caller_glen →
        ∃ g, heap_read s1.heap s1.ctx.creds.caller_garray i = some g ∧ g ≠ 0) := by
  have hK2 := hK
  obtain ⟨hL0, hA0, hU0, hG0, hGA0, hM0, hLA, hLU, hLG, hLGA, hLM, hAU, hAG, hAGA, hAM,
    hUG, hUGA, hUM, hGGA, hGM, hGAM⟩ := hK2
  have hMGA : K.MANAGED_GIDS &&& K.GARRAY_SQUASHED = 0 := by rw [Nat.and_comm]; exact hGAM
  have hc0M : (reset_flags K s).ctx.cred_flags &&& K.MANAGED_GIDS = 0 :=
    mask_and_and_zero _ (mask_or_clear.mpr ⟨hLM, hAM⟩)
  have hc0GA : (reset_flags K s).ctx.cred_flags &&& K.GARRAY_SQUASHED = 0 :=
    mask_and_and_zero _ (mask_or_clear.mpr ⟨hLGA, hAGA⟩)
  have hc0L : (reset_flags K s).ctx.cred_flags &&& K.CREDS_LOADED
      = s.ctx.cred_flags &&& K.CREDS_LOADED := by
    show (s.ctx.cred_flags &&& (K.CREDS_LOADED ||| K.CREDS_ANON)) &&& K.CREDS_LOADED = _
    rw [Nat.and_assoc, mask_absorb_or]
  have horig0 : req.oa_flavor = AUTH_SYS →
      (reset_flags K s).ctx.cred_flags &&& K.CREDS_LOADED ≠ 0 →
      (reset_flags K s).ctx.original_creds =
        { caller_uid := req.rq_clntcred.aup_uid, caller_gid := req.rq_clntcred.aup_gid
          caller_glen := req.rq_clntcred.aup_len
          caller_garray := req.rq_clntcred.aup_gids } := by
    intro h1 hl
    rw [hc0L] at hl
    exact hi.orig h1 hl
  simp only [get_req_creds] at h
  cases hsw : flavor_switch K E req perms (reset_flags K s).ctx with
  | none =>
    simp only [hsw] at h
    cases h
  | some r0 =>
  cases r0 with
  | none =>
    have hun : unsupported K req := (flavor_switch_none_iff K E req perms _).mp hsw
    simp only [hsw, Option.some.injEq, Prod.mk.injEq] at h
    obtain ⟨hb, hs⟩ := h
    subst hs
    refine ⟨⟨heap_inv_of_same hi.mem rfl rfl rfl rfl, fun h1 => absurd h1 hun.2.1,
      hi.valid, fun _ => ?_, hi.unsup⟩, fun _ _ hb1 => ?_⟩
    · show s.ctx.creds.caller_glen ≤ _
      rw [hi.unsup hun]; exact Nat.zero_le _
    · rw [← hb] at hb1; cases hb1
  | some r =>
    obtain ⟨c, sl⟩ := r
    obtain ⟨hcc, hmc, hgdc, hflc⟩ := flavor_switch_frame K E req perms _ c sl hsw
    obtain ⟨F1, F2, F3, F4, F5⟩ :=
      flavor_switch_facts K E req perms _ c sl hK hc0M horig0 hsw
    have hcGA : c.cred_flags &&& K.GARRAY_SQUASHED = 0 := by
      rw [hflc _ hLGA hAGA hMGA]; exact hc0GA
    have hmemc : heap_inv req h0 { reset_flags K s with ctx := c } :=
      heap_inv_of_same hi.mem rfl hcc hmc hgdc
    simp only [hsw, resolve_creds] at h
    by_cases hsq : squash_all K perms c
    · rw [if_pos hsq] at h
      simp only [Option.some.injEq, Prod.mk.injEq] at h
      obtain ⟨_, hs⟩ := h
      subst hs
      refine ⟨⟨heap_inv_of_same hmemc rfl rfl rfl rfl, fun h1 _ => (F1 h1).1, ?_,
        fun _ => Nat.zero_le _, fun hu => absurd hu F5⟩, fun _ _ _ i hlt => ?_⟩
      · show group_list _ _ 0 ≠ none
        simp [group_list]
      · exact absurd hlt (Nat.not_lt_zero i)
    · rw [if_neg hsq] at h
      obtain ⟨hqo, hqg, hqc, hqm, _⟩ := squash_gid_frame K perms c
      obtain ⟨hqlen, hqarr⟩ := squash_gid_groups K perms c
      have hmemq : heap_inv req h0 { reset_flags K s with ctx := squash_gid K perms c } :=
        heap_inv_of_same hmemc rfl hqc hqm hqg
      have hqM : (squash_gid K perms c).cred_flags &&& K.MANAGED_GIDS
          = c.cred_flags &&& K.MANAGED_GIDS := squash_gid_flags_and K perms c _ hGM
      have hqGA : (squash_gid K perms c).cred_flags &&& K.GARRAY_SQUASHED = 0 := by
        rw [squash_gid_flags_and K perms c _ hGGA]; exact hcGA
      cases hsel : select_groups K E { reset_flags K s with ctx := squash_gid K perms c } with
      | mk b p =>
        rw [hsel] at h
        cases b with
        | false =>
          simp only [Option.some.injEq, Prod.mk.injEq] at h
          obtain ⟨hb, hs⟩ := h
          subst hs
          obtain ⟨hpc, hph⟩ := select_groups_false K E _ _ hsel
          have hpM := select_groups_false_managed K E _ _ hsel
          refine ⟨⟨heap_inv_of_same hmemq hph (by rw [hpc]) (by rw [hpc]) (by rw [hpc]),
            fun h1 _ => ?_, ?_, fun hm => ?_, fun hu => absurd hu F5⟩, fun _ _ hb1 => ?_⟩
          · rw [hpc]; exact hqo.trans (F1 h1).1
          · show group_list p.heap p.ctx.creds.caller_garray p.ctx.creds.caller_glen ≠ none
            rw [hph, hpc]
            show group_list s.heap (squash_gid K perms c).creds.caller_garray
              (squash_gid K perms c).creds.caller_glen ≠ none
            rw [hqlen, hqarr]
            by_cases h1 : req.oa_flavor = AUTH_SYS
            · obtain ⟨ho, hcr⟩ := F1 h1
              rw [hcr, ho]
              rw [group_list_keep hi.mem.keep (hin.1 h1)]
              exact hin.1 h1
            · rw [F2 h1]
              exact hi.valid
          · rw [hpc] at hm
            exact absurd hm hpM
          · rw [← hb] at hb1; cases hb1
        | true =>
          simp only at h
          obtain ⟨_, hph, hpf, hpcc, hpmc, hpo, _, _⟩ := select_groups_true K E _ _ hsel
          have hpGA : p.ctx.cred_flags &&& K.GARRAY_SQUASHED = 0 := by
            rw [hpf]; exact hqGA
          have hready : heap_inv req h0 p ∧
              slot_source req p.ctx sl =
                some (p.ctx.creds.caller_garray, p.ctx.creds.caller_glen) ∧
              group_list h0 p.ctx.creds.caller_garray p.ctx.creds.caller_glen ≠ none ∧
              (p.ctx.cred_flags &&& K.MANAGED_GIDS = 0 →
                p.ctx.creds.caller_glen = p.ctx.original_creds.caller_glen) := by
            rcases select_groups_source K E _ _ hsel with
              ⟨hm, gd, hpgd, hsrc, hlen, harr⟩ | ⟨hm, hpgd, hlen, harr⟩
            · have hm2 : c.cred_flags &&& K.MANAGED_GIDS ≠ 0 := by
                rw [← hqM]; exact hm
              have hsl : sl = .managed := by
                cases sl with
                | caller => exact absurd (F3 rfl hsq).2 hm2
                | managed => rfl
              subst hsl
              have hmemp : heap_inv req h0 p := by
                refine heap_inv_gdata hmemq hph hpcc hpmc ?_
                rcases hsrc with hold | ⟨hnone, hnew⟩
                · left; rw [hpgd]; exact hold.symm
                · right; exact ⟨hnone, gd, hpgd, hin.2 _ gd hnew⟩
              refine ⟨hmemp, ?_, ?_, fun hm0 => ?_⟩
              · simp only [slot_source, hpgd, Option.map_some', hlen, harr]
              · rw [hlen, harr]; exact hmemp.gdata gd hpgd
              · rw [hpf] at hm0; exact absurd hm0 hm
            · have hm2 : c.cred_flags &&& K.MANAGED_GIDS = 0 := by
                rw [← hqM]; exact hm
              have hsl : sl = .caller := by
                cases sl with
                | caller => rfl
                | managed => exact absurd hm2 (F4 rfl)
              subst hsl
              obtain ⟨h1, _⟩ := F3 rfl hsq
              obtain ⟨ho, _⟩ := F1 h1
              have hlen2 : p.ctx.creds.caller_glen = req.rq_clntcred.aup_len := by
                rw [hlen]
                show (squash_gid K perms c).original_creds.caller_glen = _
                rw [hqo, ho]
              have harr2 : p.ctx.creds.caller_garray = req.rq_clntcred.aup_gids := by
                rw [harr]
                show (squash_gid K perms c).original_creds.caller_garray = _
                rw [hqo, ho]
              refine ⟨heap_inv_gdata hmemq hph hpcc hpmc (Or.inl hpgd), ?_, ?_, fun _ => ?_⟩
              · simp only [slot_source, hlen2, harr2]
              · rw [hlen2, harr2]; exact hin.1 h1
              · rw [hlen, hpo]
          obtain ⟨hmemp, hsrc, hv, hcount⟩ := hready
          obtain ⟨hmem1, hvalid1, hnz⟩ :=
            squash_garray_inv K E req h0 perms sl p b1 s1 hGA0 hmemp hsrc hv hpGA h
          obtain ⟨_, _, iglen, iorig, _, _, ifl⟩ := squash_garray_ids K E perms sl p b1 s1 h
          refine ⟨⟨hmem1, fun h1 _ => ?_, hvalid1, fun hm => ?_, fun hu => absurd hu F5⟩, hnz⟩
          · rw [iorig, hpo]; exact hqo.trans (F1 h1).1
          · rw [ifl _ hGAM] at hm
            rw [iglen, iorig, hcount hm]

/-- The invariant holds in every state the request context goes through. -/
theorem reachable_inv (K : Hdr) (E : Env) (req : svc_req) (s0 s : State)
    (hK : K.cred_flags_ok) (hin : inputs_ok E req s0.heap)
    (hr : reachable K E req s0 s) : ctx_inv K req s0.heap s := by
  induction hr with
  | init => exact ctx_inv_init K req s0
  | call s perms b s1 _ hcall ih =>
    exact (get_req_creds_inv K E req s0.heap perms s b s1 hK hin ih hcall).1
  | clean s _ ih => exact ctx_inv_clean K req s0.heap s ih

/-- The effective uid and gid that `get_req_creds` leaves after the switch:
the anonymous ids in the squash-all branch, and otherwise those that
`squash_gid` sets. -/
theorem get_req_creds_ids (K : Hdr) (E : Env) (req : svc_req) (perms : export_perms_t)
    (s s1 : State) (c : req_op_context) (sl : copy_slot) (b1 : Bool)
    (hsw : flavor_switch K E req perms (reset_flags K s).ctx = some (some (c, sl)))
    (hcall : get_req_creds K E req perms s = some (b1, s1)) :
    (squash_all K perms c ∧ s1.ctx.creds.caller_uid = perms.anonymous_uid ∧
      s1.ctx.creds.caller_gid = perms.anonymous_gid) ∨
    (¬ squash_all K perms c ∧
      s1.ctx.creds.caller_uid = (squash_gid K perms c).creds.caller_uid ∧
      s1.ctx.creds.caller_gid = (squash_gid K perms c).creds.caller_gid) := by
  simp only [get_req_creds, hsw, resolve_creds] at hcall
  by_cases hsq : squash_all K perms c
  · rw [if_pos hsq] at hcall
    simp only [Option.some.injEq, Prod.mk.injEq] at hcall
    rw [← hcall.2]
    exact Or.inl ⟨hsq, rfl, rfl⟩
  · rw [if_neg hsq] at hcall
    right
    refine ⟨hsq, ?_⟩
    cases hsel : select_groups K E { reset_flags K s with ctx := squash_gid K perms c } with
    | mk b p =>
      rw [hsel] at hcall
      cases b with
      | false =>
        simp only [Option.some.injEq, Prod.mk.injEq] at hcall
        rw [← hcall.2, (select_groups_false K E _ _ hsel).1]
        exact ⟨rfl, rfl⟩
      | true =>
        simp only at hcall
        obtain ⟨_, _, _, _, _, _, hu, hg⟩ := select_groups_true K E _ _ hsel
        obtain ⟨iu, ig, _⟩ := squash_garray_ids K E perms sl p b1 s1 hcall
        exact ⟨iu.trans hu, ig.trans hg⟩

/-- C21: in every state reachable from `init_credentials` by calls of
`get_req_creds` for the request (returning true or false, against any
exports) and of `clean_credentials`, the effective group list is an array of
exactly `caller_glen` entries, and `caller_glen` does not exceed the original
`caller_glen` unless `MANAGED_GIDS` is set. -/
theorem reachable_group_list (K : Hdr) (E : Env) (req : svc_req) (s0 s : State)
    (hK : K.cred_flags_ok) (hin : inputs_ok E req s0.heap)
    (hr : reachable K E req s0 s) :
    (∃ l, effective_groups s = some l ∧ l.length = s.ctx.creds.caller_glen) ∧
    (s.ctx.cred_flags &&& K.MANAGED_GIDS = 0 →
      s.ctx.creds.caller_glen ≤ s.ctx.original_creds.caller_glen) := by
  have hi := reachable_inv K E req s0 s hK hin hr
  refine ⟨?_, hi.count⟩
  cases he : effective_groups s with
  | none => exact absurd he hi.valid
  | some l => exact ⟨l, rfl, group_list_length he⟩

/-- C22: when `get_req_creds` returns true on a context that is freshly
initialized or was resolved before for the same request (against any
exports), against an export that does not allow root and whose anonymous uid
and gid are not 0, the effective uid is not 0, the effective gid is not 0, and
each of the `caller_glen` effective groups exists and is not 0. -/
theorem get_req_creds_no_root (K : Hdr) (E : Env) (req : svc_req) (s0 s s1 : State)
    (perms : export_perms_t)
    (hK : K.cred_flags_ok) (hin : inputs_ok E req s0.heap)
    (hr : reachable K E req s0 s)
    (hroot : perms.options &&& K.EXPORT_OPTION_ROOT = 0)
    (hau : perms.anonymous_uid ≠ 0) (hag : perms.anonymous_gid ≠ 0)
    (hcall : get_req_creds K E req perms s = some (true, s1)) :
    s1.ctx.creds.caller_uid ≠ 0 ∧ s1.ctx.creds.caller_gid ≠ 0 ∧
    ∀ i, i < s1.ctx.creds.caller_glen →
      ∃ g, heap_read s1.heap s1.ctx.creds.caller_garray i = some g ∧ g ≠ 0 := by
  have hi := reachable_inv K E req s0 s hK hin hr
  have hnz := (get_req_creds_inv K E req s0.heap perms s true s1 hK hin hi hcall).2
    hroot hag rfl
  cases hsw : flavor_switch K E req perms (reset_flags K s).ctx with
  | none =>
    simp only [get_req_creds, hsw] at hcall
    cases hcall
  | some r0 =>
  cases r0 with
  | none =>
    simp only [get_req_creds, hsw, Option.some.injEq, Prod.mk.injEq] at hcall
    exact absurd hcall.1 (by decide)
  | some r =>
    obtain ⟨c, sl⟩ := r
    rcases get_req_creds_ids K E req perms s s1 c sl true hsw hcall with
      ⟨_, hu, hg⟩ | ⟨hsq, hu, hg⟩
    · exact ⟨by rw [hu]; exact hau, by rw [hg]; exact hag, hnz⟩
    · rw [squash_gid_eq] at hu hg
      refine ⟨?_, ?_, hnz⟩
      · rw [hu]
        intro h0
        exact hsq (Or.inr (Or.inr ⟨hroot, h0⟩))
      · rw [hg]
        show (if perms.options &&& K.EXPORT_OPTION_ROOT = 0 ∧ c.original_creds.caller_gid = 0
          then perms.anonymous_gid else c.original_creds.caller_gid) ≠ 0
        by_cases h0 : c.original_creds.caller_gid = 0
        · rw [if_pos ⟨hroot, h0⟩]; exact hag
        · rw [if_neg (fun h => h0 h.2)]; exact h0

/-- The sample heap holds the three groups of the sample AUTH_SYS request and
the two groups of the group data of the sample environment. -/
theorem sample_inputs_ok (uid gid xprt : Nat) :
    inputs_ok sampleEnv (sysReq uid gid 3 xprt) sampleState.heap := by
  constructor
  · intro _
    show group_list sampleState.heap (some 0) 3 ≠ none
    decide
  · intro u gd h
    simp only [sampleEnv] at h
    by_cases hu : u = 1000
    · rw [if_pos hu] at h
      have e : gd = { nbgroups := 2, groups := some 1 } := (Option.some.inj h).symm
      rw [e]
      decide
    · rw [if_neg hu] at h
      cases h

/-- Witness for C21: the state after an AUTH_SYS request with the groups
`[5, 0, 7]` has been resolved against an export that squashes root. -/
theorem reachable_group_list_witness :
    ∃ s, get_req_creds sampleHdr sampleEnv (sysReq 1000 0 3 1) (samplePerms 0x140)
        (init_credentials sampleHdr sampleState) = some (true, s) ∧
      (∃ l, effective_groups s = some l ∧ l.length = s.ctx.creds.caller_glen) ∧
      (s.ctx.cred_flags &&& sampleHdr.MANAGED_GIDS = 0 →
        s.ctx.creds.caller_glen ≤ s.ctx.original_creds.caller_glen) :=
  have hcall : get_req_creds sampleHdr sampleEnv (sysReq 1000 0 3 1) (samplePerms 0x140)
      (init_credentials sampleHdr sampleState) = some (true, _) := rfl
  ⟨_, hcall, reachable_group_list sampleHdr sampleEnv (sysReq 1000 0 3 1) sampleState _
    (by decide) (sample_inputs_ok 1000 0 1)
    (reachable.call _ (samplePerms 0x140) true _ reachable.init hcall)⟩

/-- Witness for C22: the same request resolved a second time, against an
export with other anonymous ids, so that the copy of the first call is used
again: the effective groups are `[5, 98, 7]`. -/
theorem get_req_creds_no_root_witness :
    ∃ s s1, get_req_creds sampleHdr sampleEnv (sysReq 1000 0 3 1) (samplePerms 0x140)
        (init_credentials sampleHdr sampleState) = some (true, s) ∧
      get_req_creds sampleHdr sampleEnv (sysReq 1000 0 3 1)
        { anonymous_uid := 99, anonymous_gid := 98, options := 0x140 } s = some (true, s1) ∧
      s1.ctx.creds.caller_garray = s.ctx.creds.caller_garray ∧
      effective_groups s1 = some [5, 98, 7] ∧
      s1.ctx.creds.caller_uid ≠ 0 ∧ s1.ctx.creds.caller_gid ≠ 0 ∧
      ∀ i, i < s1.ctx.creds.caller_glen →
        ∃ g, heap_read s1.heap s1.ctx.creds.caller_garray i = some g ∧ g ≠ 0 :=
  ⟨_, _, rfl, rfl, rfl, rfl,
    get_req_creds_no_root sampleHdr sampleEnv (sysReq 1000 0 3 1) sampleState _ _
      { anonymous_uid := 99, anonymous_gid := 98, options := 0x140 }
      (by decide) (sample_inputs_ok 1000 0 1)
      (reachable.call _ (samplePerms 0x140) true _ reachable.init rfl)
      (by decide) (by decide) (by decide) rfl⟩

end NfsCreds
